import Mathlib

/-! # CyberShield-Portfolio: rate limiter and contact-form submission pipeline

A shallow embedding of `assets/js/security/rate-limiter.js`
(`AdvancedRateLimiter`), of the retrying `ContactForm` of `assets/js/Menú.js`,
of `FormValidator` of `assets/js/form-validation.js` (submission guard,
status messages, field validators, blur listeners), of the validators,
`sanitizeInput` and `hashString` of `assets/js/security/contact-security.js`
and `assets/js/form-validation-enhanced.js`, of the form validation of
`assets/js/script.js`, and of `ErrorHandler.logError` of `assets/js/Menú.js`.

Conventions.

* A JavaScript `Map` is its ECMAScript entry list: a list of slots in
  insertion order in which a deleted entry leaves an empty slot behind, so
  that an iterator (an index into the list) is not disturbed by deletions.
* `Date.now()` is an integer number of milliseconds; every method call takes
  the reading as an argument `now : Int`, one reading per call.
* `setTimeout` callbacks are kept as pending timers in the state and run by
  explicit events.
* A string is its list of UTF-16 code units, and a regular expression a
  syntax tree with a matcher that sees the text before and after a piece.
* A 32-bit integer is an `Int` reduced modulo `2^32` where the source
  converts.
-/

set_option linter.unusedSectionVars false

namespace CyberShield

/-! ## JavaScript `Map` -/

/-- The entry list of a JavaScript `Map`: `none` is the empty slot left by
`delete`, `some (k, v)` a live entry. -/
structure JSMap (κ ν : Type) where
  slots : List (Option (κ × ν))
deriving DecidableEq, Repr

namespace JSMap

variable {κ ν : Type} [DecidableEq κ]

/-- Constructor `new Map()`. -/
def empty : JSMap κ ν := ⟨[]⟩

/-- Lookup in an entry list: the value of the first live entry with key `k`. -/
def getSlots : List (Option (κ × ν)) → κ → Option ν
  | [], _ => none
  | none :: rest, k => getSlots rest k
  | some (k', v) :: rest, k => if k' = k then some v else getSlots rest k

/-- Replace the value of the first live entry with key `k`, or append a new
entry when there is none. -/
def setSlots : List (Option (κ × ν)) → κ → ν → List (Option (κ × ν))
  | [], k, v => [some (k, v)]
  | none :: rest, k, v => none :: setSlots rest k v
  | some (k', v') :: rest, k, v =>
    if k' = k then some (k, v) :: rest else some (k', v') :: setSlots rest k v

/-- Empty the slot of the first live entry with key `k`. -/
def deleteSlots : List (Option (κ × ν)) → κ → List (Option (κ × ν))
  | [], _ => []
  | none :: rest, k => none :: deleteSlots rest k
  | some (k', v') :: rest, k =>
    if k' = k then none :: rest else some (k', v') :: deleteSlots rest k

/-- Method `Map.prototype.get`; `none` is `undefined`. -/
def get (m : JSMap κ ν) (k : κ) : Option ν := getSlots m.slots k

/-- Method `Map.prototype.has`. -/
def has (m : JSMap κ ν) (k : κ) : Bool := (m.get k).isSome

/-- Method `Map.prototype.set`. -/
def set (m : JSMap κ ν) (k : κ) (v : ν) : JSMap κ ν := ⟨setSlots m.slots k v⟩

/-- Method `Map.prototype.delete`. -/
def delete (m : JSMap κ ν) (k : κ) : JSMap κ ν := ⟨deleteSlots m.slots k⟩

/-- The live entries in iteration (insertion) order. -/
def entries (m : JSMap κ ν) : List (κ × ν) := m.slots.filterMap id

/-- The keys of the live entries of an entry list. -/
def liveKeys (l : List (Option (κ × ν))) : List κ := (l.filterMap id).map Prod.fst

/-- A well-formed map holds each key in at most one live entry. -/
def WF (m : JSMap κ ν) : Prop := (liveKeys m.slots).Nodup

instance (m : JSMap κ ν) : Decidable m.WF := by
  unfold WF; infer_instance

end JSMap

/-! ## `AdvancedRateLimiter` (rate-limiter.js) -/

/-- Constructor field `this.maxAttempts = 5`. -/
def maxAttempts : Nat := 5

/-- Constructor field `this.timeWindow = 15 * 60 * 1000` (milliseconds). -/
def timeWindow : Int := 15 * 60 * 1000

/-- Delay of the timer of `addToPenaltyBox`, `60 * 60 * 1000` ms. -/
def penaltyDelay : Int := 60 * 60 * 1000

/-- The filter callback `attempt => now - attempt < this.timeWindow`. -/
def isRecent (now attempt : Int) : Bool := decide (now - attempt < timeWindow)

/-- The state of an `AdvancedRateLimiter`: its two maps, and the pending
`setTimeout` callbacks of `addToPenaltyBox` as pairs (due time, identifier). -/
structure AdvancedRateLimiter (κ : Type) where
  attempts : JSMap κ (List Int)
  penaltyBox : JSMap κ Int
  timers : List (Int × κ)
deriving DecidableEq, Repr

/-- What one cleanup pass at time `now` leaves of a slot: an empty slot stays
empty, a live entry keeps its recent attempts and is emptied when it has none. -/
def pruneSlot {κ : Type} (now : Int) : Option (κ × List Int) → Option (κ × List Int)
  | none => none
  | some (k, l) =>
    if (l.filter (isRecent now)).length = 0 then none else some (k, l.filter (isRecent now))

/-- The object returned by `checkAttempt`; an absent property is `none`. -/
structure AttemptResult where
  allowed : Bool
  reason : Option String
  remaining : Option Int
deriving DecidableEq, Repr

namespace AdvancedRateLimiter

variable {κ : Type} [DecidableEq κ]

/-- The constructor: two empty maps, no timer. -/
def new : AdvancedRateLimiter κ := ⟨JSMap.empty, JSMap.empty, []⟩

/-- The `for ... of this.attempts.entries()` loop of `cleanupOldAttempts`:
the iterator is the index `i` into the entry list, which the body mutates
through `delete` and `set`. The first argument bounds the number of
iterations; `cleanupOldAttempts` passes the length of the entry list. -/
def cleanupLoop (now : Int) : Nat → Nat → JSMap κ (List Int) → JSMap κ (List Int)
  | 0, _, m => m
  | fuel + 1, i, m =>
    match m.slots.get? i with
    | none => m
    | some none => cleanupLoop now fuel (i + 1) m
    | some (some (identifier, attempts)) =>
      let recentAttempts := attempts.filter (isRecent now)
      if recentAttempts.length = 0 then
        cleanupLoop now fuel (i + 1) (m.delete identifier)
      else
        cleanupLoop now fuel (i + 1) (m.set identifier recentAttempts)

/-- Method `cleanupOldAttempts`, with `now` the value of `Date.now()`. -/
def cleanupOldAttempts (s : AdvancedRateLimiter κ) (now : Int) : AdvancedRateLimiter κ :=
  { s with attempts := cleanupLoop now s.attempts.slots.length 0 s.attempts }

/-- Method `addToPenaltyBox`: record the block and schedule its removal. -/
def addToPenaltyBox (s : AdvancedRateLimiter κ) (identifier : κ) (now : Int) :
    AdvancedRateLimiter κ :=
  { s with
    penaltyBox := s.penaltyBox.set identifier now
    timers := s.timers ++ [(now + penaltyDelay, identifier)] }

/-- Method `checkAttempt`: the returned object and the state afterwards. -/
def checkAttempt (s : AdvancedRateLimiter κ) (identifier : κ) (now : Int) :
    AttemptResult × AdvancedRateLimiter κ :=
  let s := s.cleanupOldAttempts now
  if s.penaltyBox.has identifier then
    ({ allowed := false, reason := some "IP en lista de bloqueo", remaining := none }, s)
  else
    let userAttempts := (s.attempts.get identifier).getD []
    let recentAttempts := userAttempts.filter (isRecent now)
    if recentAttempts.length ≥ maxAttempts then
      ({ allowed := false, reason := some "Límite de intentos excedido", remaining := none },
        s.addToPenaltyBox identifier now)
    else
      let userAttempts := userAttempts ++ [now]
      ({ allowed := true, reason := none,
         remaining := some ((maxAttempts : Int) - recentAttempts.length - 1) },
        { s with attempts := s.attempts.set identifier userAttempts })

/-- The timer callback of `addToPenaltyBox` for `identifier`: the first
pending timer for it is consumed and `penaltyBox.delete(identifier)` runs.
Nothing happens when no timer is pending for the identifier. -/
def expire (s : AdvancedRateLimiter κ) (identifier : κ) : AdvancedRateLimiter κ :=
  match s.timers.find? (fun t => decide (t.2 = identifier)) with
  | none => s
  | some t =>
    { s with
      penaltyBox := s.penaltyBox.delete identifier
      timers := s.timers.erase t }

end AdvancedRateLimiter

/-- What happens to a rate limiter: a `checkAttempt` call with its clock
reading, or the expiry timer of an identifier firing. -/
inductive LimiterEvent (κ : Type) where
  | check (identifier : κ) (now : Int)
  | expire (identifier : κ)
deriving DecidableEq, Repr

namespace AdvancedRateLimiter

variable {κ : Type} [DecidableEq κ]

/-- One event applied to the state. -/
def step (s : AdvancedRateLimiter κ) : LimiterEvent κ → AdvancedRateLimiter κ
  | .check identifier now => (s.checkAttempt identifier now).2
  | .expire identifier => s.expire identifier

/-- The state after a sequence of events. -/
def run (s : AdvancedRateLimiter κ) (tr : List (LimiterEvent κ)) : AdvancedRateLimiter κ :=
  tr.foldl step s

/-- The clock readings of the `checkAttempt` calls of a trace, in order. -/
def readings : List (LimiterEvent κ) → List Int
  | [] => []
  | .check _ now :: tr => now :: readings tr
  | .expire _ :: tr => readings tr

/-- The clock readings of the calls for `identifier` that returned
`allowed: true`, in order, when the trace runs from state `s`. -/
def allowedTimes (identifier : κ) :
    AdvancedRateLimiter κ → List (LimiterEvent κ) → List Int
  | _, [] => []
  | s, .check i now :: tr =>
    let r := s.checkAttempt i now
    if i = identifier ∧ r.1.allowed = true then now :: allowedTimes identifier r.2 tr
    else allowedTimes identifier r.2 tr
  | s, .expire i :: tr => allowedTimes identifier (s.expire i) tr

end AdvancedRateLimiter

end CyberShield

namespace CyberShield

/-- The cleanup pass as the specification words it: every list is filtered to
the timestamps `t` with `now - t < timeWindow`, order preserved, and the
identifiers left with an empty list are removed. -/
def prunedEntries {κ : Type} (now : Int) (es : List (κ × List Int)) : List (κ × List Int) :=
  (es.map (fun e => (e.1, e.2.filter (fun t => decide (now - t < timeWindow))))).filter
    (fun e => !e.2.isEmpty)

end CyberShield

namespace CyberShield

/-- Membership of a call time `t` in the time interval `[lo, hi]`. -/
def inInterval (lo hi t : Int) : Bool := decide (lo ≤ t ∧ t ≤ hi)

/-- The invariant of the sliding window for one identifier: `allowed` are the
times of its allowed calls so far and `last` a bound on the clock readings so
far. The allowed calls that are still recent are all in the stored list, no
allowed call is later than `last`, and any window starting at some `lo`
holds at most `maxAttempts` allowed calls. -/
def windowInv {κ : Type} [DecidableEq κ] (identifier : κ) (s : AdvancedRateLimiter κ)
    (allowed : List Int) (last : Int) : Prop :=
  s.attempts.WF
  ∧ (allowed.filter (isRecent last)).Sublist ((s.attempts.get identifier).getD [])
  ∧ (∀ t ∈ allowed, t ≤ last)
  ∧ ∀ lo : Int,
      (allowed.filter (fun t => decide (lo ≤ t ∧ t - lo < timeWindow))).length ≤ maxAttempts

end CyberShield

namespace CyberShield

/-! ## The submission pipelines: shared vocabulary

The pipelines run in the browser event loop. A call of the `async` method
`handleSubmit` runs synchronously up to its first `await` and is then
suspended; it resumes when the awaited promise settles. The state keeps the
suspended calls, the pending `setTimeout` callbacks and the clock; the
events are the user's actions, the settlement of a `fetch`, and timers
firing. The form content is a value of an arbitrary type `F`; field-error
decoration, button state and word counter do not feed back into the
pipeline and are left out. -/

/-- The type argument of `showStatus`, which ends up in the class name
`form-status ${type}` of the status element. -/
inductive StatusKind where
  | success
  | warning
  | error
deriving DecidableEq, Repr

/-- The status element: its `textContent` (`none` is the empty string) and
the type in its class name (`none` is the bare class `form-status`). -/
structure StatusRegion (M : Type) where
  textContent : Option M
  kind : Option StatusKind
deriving DecidableEq, Repr

/-- How a `fetch` promise settles: it resolves with a response of some HTTP
status, or it rejects (network failure). -/
inductive FetchOutcome where
  | response (status : Nat)
  | rejected
deriving DecidableEq, Repr

/-- Property `response.ok`: the status is in the range 200-299. -/
def responseOk (status : Nat) : Bool := decide (200 ≤ status ∧ status ≤ 299)

/-- What the pipeline needs of the form: the verdict of `validateForm()` on
the current field values and the effect of `form.reset()` on them. -/
structure FormDom (F : Type) where
  validateForm : F → Bool
  reset : F → F

/-! ## Retrying `ContactForm` (Menú.js) -/

/-- The constant `CONFIG.RETRY_ATTEMPTS`. -/
def RETRY_ATTEMPTS : Nat := 3

/-- The constant `CONFIG.RETRY_DELAY` (milliseconds). -/
def RETRY_DELAY : Nat := 1000

/-- The three messages `ContactForm.handleSubmit` passes to `showStatus`:
the success text, the template `Reintentando envío... (n/3)` and the final
error text. -/
inductive ContactMessage where
  | sent
  | retrying (n : Nat)
  | failed
deriving DecidableEq, Repr

/-- Where a suspended call of `handleSubmit` waits inside `sendWithRetry`:
at `await fetch(...)`, or at `await this.delay(...)` whose timer is due at
the given time. -/
inductive Flight where
  | awaitingFetch
  | awaitingDelay (due : Nat)
deriving DecidableEq, Repr

/-- The callbacks `ContactForm` hands to `setTimeout`: the retry
`() => this.handleSubmit(event)` and the clearing of a success notice. -/
inductive TimerAction where
  | retrySubmit
  | clearStatus
deriving DecidableEq, Repr

/-- A pending `setTimeout` callback with the time it is due. -/
structure Timer where
  due : Nat
  action : TimerAction
deriving DecidableEq, Repr

/-- The state of a `ContactForm` and of the event loop around it. `status`
is `none` when the page has no status element. `sends` counts the calls of
`fetch` and `validations` the runs of `validateForm`. -/
structure ContactForm (F : Type) where
  form : F
  status : Option (StatusRegion ContactMessage)
  isSubmitting : Bool
  retryCount : Nat
  now : Nat
  timers : List Timer
  flights : List Flight
  sends : Nat
  validations : Nat
deriving DecidableEq, Repr

/-- The events of the `ContactForm` pipeline. -/
inductive FormEvent (F : Type) where
  /-- the form's submit event: `handleSubmit(event)` -/
  | submit
  /-- the user changes the field values -/
  | edit (form : F)
  /-- the `fetch` of the `k`-th suspended call settles -/
  | settle (k : Nat) (outcome : FetchOutcome)
  /-- the delay timer of the `k`-th suspended call fires -/
  | delayDone (k : Nat)
  /-- the `k`-th pending timer fires -/
  | fire (k : Nat)
  /-- time passes -/
  | tick (dt : Nat)
deriving DecidableEq, Repr

namespace ContactForm

variable {F : Type}

/-- The constructor, on a page whose form holds `form` and whose status
element is `status`, at time `now`. -/
def new (form : F) (status : Option (StatusRegion ContactMessage)) (now : Nat) :
    ContactForm F :=
  { form := form, status := status, isSubmitting := false, retryCount := 0, now := now,
    timers := [], flights := [], sends := 0, validations := 0 }

/-- Method `showStatus`: nothing without a status element; otherwise the text
and class are set, and a success notice gets its 5000 ms clearing timer. -/
def showStatus (s : ContactForm F) (message : ContactMessage) (type : StatusKind) :
    ContactForm F :=
  match s.status with
  | none => s
  | some _ =>
    let s := { s with status := some { textContent := some message, kind := some type } }
    if type = StatusKind.success then
      { s with timers := s.timers ++ [Timer.mk (s.now + 5000) TimerAction.clearStatus] }
    else s

/-- The timer callback of `showStatus`: empty text, bare class. -/
def clearStatus (s : ContactForm F) : ContactForm F :=
  { s with status := some { textContent := none, kind := none } }

/-- Method `handleSubmit` up to its first suspension: the `isSubmitting`
guard, `validateForm()`, then `isSubmitting = true` and the call of
`sendWithRetry`, which calls `fetch` and suspends. -/
def handleSubmit (dom : FormDom F) (s : ContactForm F) : ContactForm F :=
  if s.isSubmitting then s
  else
    let s := { s with validations := s.validations + 1 }
    if !dom.validateForm s.form then s
    else
      { s with isSubmitting := true, flights := s.flights ++ [Flight.awaitingFetch],
               sends := s.sends + 1 }

/-- The `catch` and `finally` blocks of `handleSubmit` for the `k`-th
suspended call, which ends: below `RETRY_ATTEMPTS` the count is incremented,
the retry notice shown and the retry scheduled after `RETRY_DELAY`;
otherwise the final error is shown and the count reset. `finally` clears
`isSubmitting` either way. -/
def handleSubmitCatch (s : ContactForm F) (k : Nat) : ContactForm F :=
  let s := { s with flights := s.flights.eraseIdx k }
  if s.retryCount < RETRY_ATTEMPTS then
    let s := { s with retryCount := s.retryCount + 1 }
    let s := s.showStatus (ContactMessage.retrying s.retryCount) StatusKind.warning
    let s := { s with timers := s.timers ++
      [Timer.mk (s.now + RETRY_DELAY) TimerAction.retrySubmit] }
    { s with isSubmitting := false }
  else
    let s := s.showStatus ContactMessage.failed StatusKind.error
    let s := { s with retryCount := 0 }
    { s with isSubmitting := false }

/-- The rest of the `try` block of `handleSubmit` once `sendWithRetry` has
returned a response of the given status to the `k`-th suspended call. -/
def handleSubmitResponse (dom : FormDom F) (s : ContactForm F) (k : Nat) (status : Nat) :
    ContactForm F :=
  if responseOk status then
    let s := { s with flights := s.flights.eraseIdx k }
    let s := s.showStatus ContactMessage.sent StatusKind.success
    let s := { s with form := dom.reset s.form }
    let s := { s with retryCount := 0 }
    { s with isSubmitting := false }
  else
    s.handleSubmitCatch k

/-- The `catch` block of `sendWithRetry` when the `fetch` of the `k`-th
suspended call rejects: below `RETRY_ATTEMPTS` it waits `RETRY_DELAY` and
calls itself again, otherwise it rethrows into `handleSubmit`. The count is
not changed here. -/
def sendWithRetryCatch (s : ContactForm F) (k : Nat) : ContactForm F :=
  if s.retryCount < RETRY_ATTEMPTS then
    { s with flights := s.flights.set k (Flight.awaitingDelay (s.now + RETRY_DELAY)) }
  else
    s.handleSubmitCatch k

/-- The recursive call `this.sendWithRetry(url, formData)` after the delay:
`fetch` is called again and the call is suspended on it. -/
def sendWithRetryAgain (s : ContactForm F) (k : Nat) : ContactForm F :=
  { s with flights := s.flights.set k Flight.awaitingFetch, sends := s.sends + 1 }

/-- One event of the event loop. An event that is not enabled (no such
suspended call or timer, or a timer that is not yet due) changes nothing. -/
def step (dom : FormDom F) (s : ContactForm F) : FormEvent F → ContactForm F
  | .submit => s.handleSubmit dom
  | .edit form => { s with form := form }
  | .settle k outcome =>
    match s.flights.get? k with
    | some Flight.awaitingFetch =>
      match outcome with
      | .rejected => s.sendWithRetryCatch k
      | .response status => s.handleSubmitResponse dom k status
    | _ => s
  | .delayDone k =>
    match s.flights.get? k with
    | some (Flight.awaitingDelay due) => if due ≤ s.now then s.sendWithRetryAgain k else s
    | _ => s
  | .fire k =>
    match s.timers.get? k with
    | some t =>
      if t.due ≤ s.now then
        let s := { s with timers := s.timers.eraseIdx k }
        match t.action with
        | .retrySubmit => s.handleSubmit dom
        | .clearStatus => s.clearStatus
      else s
    | none => s
  | .tick dt => { s with now := s.now + dt }

/-- The state after a sequence of events. -/
def run (dom : FormDom F) (s : ContactForm F) (tr : List (FormEvent F)) : ContactForm F :=
  tr.foldl (step dom) s

/-- The number of `fetch` calls that have not settled yet. -/
def outstanding (s : ContactForm F) : Nat :=
  s.flights.countP (fun f => decide (f = Flight.awaitingFetch))

/-- Whether a retry of `handleSubmit` is scheduled. -/
def retryScheduled (s : ContactForm F) : Bool :=
  s.timers.any (fun t => decide (t.action = TimerAction.retrySubmit))

/-- One round of a failing network: the `fetch` rejects, `RETRY_DELAY`
passes and the delay timer fires. -/
def rejectRound : List (FormEvent F) :=
  [.settle 0 .rejected, .tick RETRY_DELAY, .delayDone 0]

/-- The trace of `n` rounds of a failing network after a submit. -/
def rejectRounds : Nat → List (FormEvent F)
  | 0 => [.submit]
  | n + 1 => rejectRounds n ++ rejectRound

end ContactForm

/-- A form that is always valid and that `reset` leaves as it is. -/
def alwaysValid : FormDom Unit := { validateForm := fun _ => true, reset := fun f => f }

end CyberShield

namespace CyberShield

namespace ContactForm

variable {F : Type}

/-- The link between the guard flag and the suspended calls: while
`isSubmitting` holds exactly one call of `handleSubmit` is suspended, and
none otherwise. -/
def flightInv (s : ContactForm F) : Prop :=
  (s.isSubmitting = true ∧ s.flights.length = 1) ∨ (s.isSubmitting = false ∧ s.flights = [])

/-- The scenario of repeated HTTP failures: a submit whose response has
status `c`, then for each further status the retry delay, the retry timer
and the response of the retried send. -/
def failureTrace : List Nat → List (FormEvent F)
  | [] => []
  | c :: cs => [.submit, .settle 0 (.response c)] ++
      cs.flatMap (fun c' => [.tick RETRY_DELAY, .fire 0, .settle 0 (.response c')])

end ContactForm

/-! ## `FormValidator` (form-validation.js): submission guard and status -/

/-- The state of a `FormValidator` as far as `handleSubmit` up to its
`await fetch(...)`, `showStatus` and `clearStatus` go. `timers` holds the due
times of the pending `() => this.clearStatus()` callbacks, `pendingFetches`
the number of calls suspended on `fetch`; `sends` and `validations` count
the calls of `fetch` and the runs of `validateForm`. -/
structure FormValidator (F : Type) where
  form : F
  statusElement : Option (StatusRegion String)
  isSubmitting : Bool
  now : Nat
  timers : List Nat
  pendingFetches : Nat
  sends : Nat
  validations : Nat
deriving DecidableEq, Repr

namespace FormValidator

variable {F : Type}

/-- Method `showStatus`: nothing without a status element; otherwise text and
class are set, and success and warning messages get a clearing timer after
5000 ms and 8000 ms. -/
def showStatus (s : FormValidator F) (message : String) (type : StatusKind) :
    FormValidator F :=
  match s.statusElement with
  | none => s
  | some _ =>
    let s := { s with statusElement := some { textContent := some message, kind := some type } }
    if type = StatusKind.success ∨ type = StatusKind.warning then
      { s with timers := s.timers ++
        [s.now + (if type = StatusKind.success then 5000 else 8000)] }
    else s

/-- Method `clearStatus`. -/
def clearStatus (s : FormValidator F) : FormValidator F :=
  match s.statusElement with
  | none => s
  | some _ => { s with statusElement := some { textContent := none, kind := none } }

/-- Method `handleSubmit` up to its suspension at `await fetch(...)`. -/
def handleSubmit (dom : FormDom F) (s : FormValidator F) : FormValidator F :=
  if s.isSubmitting then
    s.showStatus "Por favor espera... estamos procesando tu envío anterior." StatusKind.warning
  else
    let s := { s with validations := s.validations + 1 }
    if !dom.validateForm s.form then
      s.showStatus "Por favor corrige los errores en el formulario antes de enviar."
        StatusKind.error
    else
      { s with isSubmitting := true, pendingFetches := s.pendingFetches + 1,
               sends := s.sends + 1 }

end FormValidator

end CyberShield

namespace CyberShield

/-! ## JavaScript strings and regular expressions

A JavaScript string is its sequence of UTF-16 code units, and `length`
counts code units. A regular expression is a syntax tree that mirrors the
literal in the source; `accepts` says whether a piece `s` of the subject,
standing between `pre` and `post`, is matched by the expression. `test`
searches the subject for a matching piece, as `RegExp.prototype.test` does
from index 0. Only the verdict of `test` is modelled (no captures), so the
order in which alternatives are tried does not matter. -/

/-- A JavaScript string: its UTF-16 code units, as natural numbers. -/
abbrev JSString := List Nat

/-- The JavaScript string of a literal whose characters all lie in the Basic
Multilingual Plane (one code unit each). -/
def units (s : String) : JSString := s.toList.map Char.toNat

/-- All the ways to cut a string in two. -/
def splits : JSString → List (JSString × JSString)
  | [] => [([], [])]
  | u :: s => ([], u :: s) :: (splits s).map (fun p => (u :: p.1, p.2))

/-- The class `\s`, which is also what `trim` strips: the WhiteSpace and
LineTerminator code units of ECMAScript. -/
def isSpace (u : Nat) : Bool :=
  u = 9 || u = 10 || u = 11 || u = 12 || u = 13 || u = 32 || u = 160 || u = 5760
    || (decide (8192 ≤ u) && decide (u ≤ 8202)) || u = 8232 || u = 8233 || u = 8239
    || u = 8287 || u = 12288 || u = 65279

/-- ASCII digits `0-9`. -/
def isDigit (u : Nat) : Bool := decide (48 ≤ u) && decide (u ≤ 57)

/-- ASCII capitals `A-Z`. -/
def isUpper (u : Nat) : Bool := decide (65 ≤ u) && decide (u ≤ 90)

/-- ASCII small letters `a-z`. -/
def isLower (u : Nat) : Bool := decide (97 ≤ u) && decide (u ≤ 122)

/-- The class `[a-zA-Z]`. -/
def isAlpha (u : Nat) : Bool := isUpper u || isLower u

/-- The class `[a-zA-Z0-9]`. -/
def isAlnum (u : Nat) : Bool := isAlpha u || isDigit u

/-- The class `\w`, `[A-Za-z0-9_]`. -/
def isWord (u : Nat) : Bool := isAlnum u || u = 95

/-- Method `String.prototype.trim`. -/
def trim (s : JSString) : JSString :=
  ((s.dropWhile isSpace).reverse.dropWhile isSpace).reverse

/-- Method `String.prototype.toLowerCase` as far as a test against ASCII
classes can tell: `A-Z` go to `a-z`, the Kelvin sign U+212A goes to `k`, and
every other code unit is left as it is. The lowercase form of any other
non-ASCII character still holds a non-ASCII code unit, so an expression made
of ASCII classes rejects the string before and after the mapping alike. -/
def toLowerCase (s : JSString) : JSString :=
  s.map (fun u => if isUpper u then u + 32 else if u = 8490 then 107 else u)

/-- Regular expressions over code units. `rep lo hi r` is `r{lo,hi}`;
`wordBoundary` is `\b`; `notAhead r` is `(?!r)`. -/
inductive Regex where
  | cls (p : Nat → Bool)
  | eps
  | seq (a b : Regex)
  | alt (a b : Regex)
  | star (r : Regex)
  | rep (lo hi : Nat) (r : Regex)
  | wordBoundary
  | notAhead (r : Regex)

namespace Regex

/-- Zero or more pieces, each matched by `f` and, to make progress, not
empty; the first argument bounds the number of pieces. -/
def starLoop (f : JSString → JSString → JSString → Bool) :
    Nat → JSString → JSString → JSString → Bool
  | 0, _, s, _ => s.isEmpty
  | n + 1, pre, s, post =>
    s.isEmpty || (splits s).any (fun xy =>
      !xy.1.isEmpty && f pre xy.1 (xy.2 ++ post) && starLoop f n (pre ++ xy.1) xy.2 post)

/-- Between `lo` and `hi` pieces, each matched by `f`; the first argument is
`hi`. -/
def repLoop (f : JSString → JSString → JSString → Bool) :
    Nat → Nat → JSString → JSString → JSString → Bool
  | 0, lo, _, s, _ => decide (lo = 0) && s.isEmpty
  | hi + 1, lo, pre, s, post =>
    (decide (lo = 0) && s.isEmpty) || (splits s).any (fun xy =>
      f pre xy.1 (xy.2 ++ post) && repLoop f hi (lo - 1) (pre ++ xy.1) xy.2 post)

/-- Whether the piece `s`, with `pre` before it and `post` after it, is
matched by the expression. -/
def accepts : Regex → JSString → JSString → JSString → Bool
  | cls p => fun _ s _ =>
    match s with
    | [u] => p u
    | _ => false
  | eps => fun _ s _ => s.isEmpty
  | seq a b => fun pre s post =>
    (splits s).any (fun xy =>
      accepts a pre xy.1 (xy.2 ++ post) && accepts b (pre ++ xy.1) xy.2 post)
  | alt a b => fun pre s post => accepts a pre s post || accepts b pre s post
  | star r => fun pre s post => starLoop (accepts r) s.length pre s post
  | rep lo hi r => fun pre s post => repLoop (accepts r) hi lo pre s post
  | wordBoundary => fun pre s post =>
    s.isEmpty && ((pre.getLast?.map isWord).getD false != (post.head?.map isWord).getD false)
  | notAhead r => fun pre s post =>
    s.isEmpty && !(splits post).any (fun xy => accepts r pre xy.1 xy.2)

/-- Expression `r+`. -/
def plus (r : Regex) : Regex := seq r (star r)

/-- Expression `r?`. -/
def opt (r : Regex) : Regex := rep 0 1 r

/-- Expression `r{n,}`. -/
def atLeast (n : Nat) (r : Regex) : Regex := seq (rep n n r) (star r)

/-- A single code unit. -/
def unit (u : Nat) : Regex := cls (fun v => decide (v = u))

/-- A literal text. -/
def lit : JSString → Regex
  | [] => eps
  | [u] => unit u
  | u :: s => seq (unit u) (lit s)

/-- A code unit under the flag `i`: an ASCII letter stands for both of its
cases. No other code unit is equal to an ASCII letter up to case, since the
canonical form of a non-ASCII code unit is never an ASCII one. -/
def unitI (u : Nat) : Regex :=
  cls (fun v => decide (v = u) || (isLower u && decide (v + 32 = u))
    || (isUpper u && decide (v = u + 32)))

/-- A literal text under the flag `i`. -/
def litI : JSString → Regex
  | [] => eps
  | [u] => unitI u
  | u :: s => seq (unitI u) (litI s)

/-- An alternation of several expressions. -/
def anyOf : List Regex → Regex
  | [] => cls (fun _ => false)
  | [r] => r
  | r :: rs => alt r (anyOf rs)

/-- A pattern `/^r$/` tested on `s`: the whole string must match. -/
def testWhole (r : Regex) (s : JSString) : Bool := accepts r [] s []

/-- A pattern `/r/` tested on `s`: some piece of the string must match. -/
def test (r : Regex) (s : JSString) : Bool :=
  (splits s).any (fun xy => (splits xy.2).any (fun yz => accepts r xy.1 yz.1 yz.2))

end Regex

end CyberShield

namespace CyberShield

/-! ## The validators' regular expressions -/

/-- The class `[a-zA-Z0-9.!#$%&'*+/=?^_{|}~-]` (with the grave accent, code
96) of the local part in the e-mail expression of `FormValidator` and
`ContactForm`. -/
def isLocalPart (u : Nat) : Bool :=
  isAlnum u || [46, 33, 35, 36, 37, 38, 39, 42, 43, 47, 61, 63, 94, 95, 96, 123, 124, 125,
    126, 45].contains u

/-- The class `[a-zA-Z0-9-]`. -/
def isAlnumHyphen (u : Nat) : Bool := isAlnum u || u = 45

/-- The class `[a-zA-ZáéíóúÁÉÍÓÚñÑ\s]` of the name expressions. -/
def isNameUnit (u : Nat) : Bool :=
  isAlpha u || [225, 233, 237, 243, 250, 193, 201, 205, 211, 218, 241, 209].contains u
    || isSpace u

/-- The class `[^\s@]`. -/
def isNotSpaceNorAt (u : Nat) : Bool := !isSpace u && !decide (u = 64)

/-- The class `[a-zA-Z0-9\-\.]`. -/
def isHostUnit (u : Nat) : Bool := isAlnum u || u = 45 || u = 46

/-- A domain label, `[a-zA-Z0-9](?:[a-zA-Z0-9-]{0,61}[a-zA-Z0-9])?`. -/
def labelRegex : Regex :=
  .seq (.cls isAlnum) (Regex.opt (.seq (.rep 0 61 (.cls isAlnumHyphen)) (.cls isAlnum)))

/-- The body of the expression `emailRegex` of `FormValidator.isValidEmail`
and `ContactForm.validateEmail`, between `^` and `$`:
`[local]+@label(?:\.label)*`. -/
def emailRegex : Regex :=
  .seq (Regex.plus (.cls isLocalPart))
    (.seq (Regex.unit 64) (.seq labelRegex (.star (.seq (Regex.unit 46) labelRegex))))

/-- The body of `/^[^\s@]+@[^\s@]+\.[^\s@]+$/`, the `emailRegex` of
`ContactSecurity` and `EnhancedFormValidation`. -/
def simpleEmailRegex : Regex :=
  .seq (Regex.plus (.cls isNotSpaceNorAt))
    (.seq (Regex.unit 64)
      (.seq (Regex.plus (.cls isNotSpaceNorAt))
        (.seq (Regex.unit 46) (Regex.plus (.cls isNotSpaceNorAt)))))

/-- The tail `[a-zA-Z0-9\-\.]+\.[a-zA-Z]{2,3}(\/\S*)?` of the URL
expressions. -/
def urlTail : Regex :=
  .seq (Regex.plus (.cls isHostUnit))
    (.seq (Regex.unit 46)
      (.seq (.rep 2 3 (.cls isAlpha))
        (Regex.opt (.seq (Regex.unit 47) (.star (.cls (fun u => !isSpace u)))))))

/-- The expression
`/(http|https|ftp|ftps)\:\/\/[a-zA-Z0-9\-\.]+\.[a-zA-Z]{2,3}(\/\S*)?/` of
`ContactSecurity.validateMessage` (no flag). -/
def urlRegex : Regex :=
  .seq (Regex.anyOf [Regex.lit (units "http"), Regex.lit (units "https"),
      Regex.lit (units "ftp"), Regex.lit (units "ftps")])
    (.seq (Regex.lit (units "://")) urlTail)

/-- The nine expressions of `containsSuspiciousPatterns`, in order. The flag
`g` plays no part: each expression object is fresh and tested once. -/
def suspiciousPatterns : List Regex :=
  [ -- /<script\b[^<]*(?:(?!<\/script>)<[^<]*)*<\/script>/gi
    .seq (Regex.litI (units "<script"))
      (.seq .wordBoundary
        (.seq (.star (.cls (fun u => !decide (u = 60))))
          (.seq (.star (.seq (.notAhead (Regex.litI (units "</script>")))
              (.seq (Regex.unit 60) (.star (.cls (fun u => !decide (u = 60)))))))
            (Regex.litI (units "</script>"))))),
    -- /javascript:/gi
    Regex.litI (units "javascript:"),
    -- /on\w+\s*=/gi
    .seq (Regex.litI (units "on"))
      (.seq (Regex.plus (.cls isWord)) (.seq (.star (.cls isSpace)) (Regex.unit 61))),
    -- /expression\s*\(/gi
    .seq (Regex.litI (units "expression")) (.seq (.star (.cls isSpace)) (Regex.unit 40)),
    -- /(\b)(SELECT|INSERT|UPDATE|DELETE|DROP|UNION|EXEC)(\b)/gi
    .seq .wordBoundary
      (.seq (Regex.anyOf [Regex.litI (units "SELECT"), Regex.litI (units "INSERT"),
          Regex.litI (units "UPDATE"), Regex.litI (units "DELETE"),
          Regex.litI (units "DROP"), Regex.litI (units "UNION"),
          Regex.litI (units "EXEC")])
        .wordBoundary),
    -- /('|"|;|--|\/\*|\*\/)/g
    Regex.anyOf [Regex.unit 39, Regex.unit 34, Regex.unit 59, Regex.lit (units "--"),
      Regex.lit (units "/*"), Regex.lit (units "*/")],
    -- /(http|https|ftp|ftps)\:\/\/[a-zA-Z0-9\-\.]+\.[a-zA-Z]{2,3}(\/\S*)?/gi
    .seq (Regex.anyOf [Regex.litI (units "http"), Regex.litI (units "https"),
        Regex.litI (units "ftp"), Regex.litI (units "ftps")])
      (.seq (Regex.lit (units "://")) urlTail),
    -- /<iframe[^>]+src=["'][^"']*["'][^>]*>/gi
    .seq (Regex.litI (units "<iframe"))
      (.seq (Regex.plus (.cls (fun u => !decide (u = 62))))
        (.seq (Regex.litI (units "src="))
          (.seq (.cls (fun u => decide (u = 34) || decide (u = 39)))
            (.seq (.star (.cls (fun u => !(decide (u = 34) || decide (u = 39)))))
              (.seq (.cls (fun u => decide (u = 34) || decide (u = 39)))
                (.seq (.star (.cls (fun u => !decide (u = 62)))) (Regex.unit 62))))))),
    -- /<img[^>]+src=["'][^"']*["'][^>]*>/gi
    .seq (Regex.litI (units "<img"))
      (.seq (Regex.plus (.cls (fun u => !decide (u = 62))))
        (.seq (Regex.litI (units "src="))
          (.seq (.cls (fun u => decide (u = 34) || decide (u = 39)))
            (.seq (.star (.cls (fun u => !(decide (u = 34) || decide (u = 39)))))
              (.seq (.cls (fun u => decide (u = 34) || decide (u = 39)))
                (.seq (.star (.cls (fun u => !decide (u = 62)))) (Regex.unit 62))))))) ]

/-! ## `ContactSecurity` validators (contact-security.js)

A validator returns the value of an `&&` chain; the model returns its
truthiness. A string is truthy when it is not empty. -/

namespace ContactSecurity

/-- Method `validateName`. -/
def validateName (name : JSString) : Bool :=
  !name.isEmpty && decide (name.length ≥ 2) && decide (name.length ≤ 100)
    && Regex.testWhole (Regex.plus (.cls isNameUnit)) name

/-- Method `validateEmail`. -/
def validateEmail (email : JSString) : Bool :=
  !email.isEmpty && Regex.testWhole simpleEmailRegex email && decide (email.length ≤ 254)

/-- Method `validateMessage`. -/
def validateMessage (message : JSString) : Bool :=
  !message.isEmpty && decide (message.length ≥ 10) && decide (message.length ≤ 1000)
    && !Regex.test urlRegex message

end ContactSecurity

/-! ## `EnhancedFormValidation` validators (form-validation-enhanced.js) -/

namespace EnhancedFormValidation

/-- Method `containsSuspiciousPatterns`. -/
def containsSuspiciousPatterns (input : JSString) : Bool :=
  suspiciousPatterns.any (fun pattern => Regex.test pattern input)

/-- Method `validateName`, with the expression
`/^[a-zA-ZáéíóúÁÉÍÓÚñÑ\s]{2,100}$/`. -/
def validateName (name : JSString) : Bool :=
  !name.isEmpty && Regex.testWhole (.rep 2 100 (.cls isNameUnit)) name
    && !containsSuspiciousPatterns name

/-- Method `validateEmail`. -/
def validateEmail (email : JSString) : Bool :=
  !email.isEmpty && Regex.testWhole simpleEmailRegex email && decide (email.length ≤ 254)
    && !containsSuspiciousPatterns email

/-- Method `validateSubject`. -/
def validateSubject (subject : JSString) : Bool :=
  !subject.isEmpty && decide (subject ≠ [])

end EnhancedFormValidation

end CyberShield

namespace CyberShield

/-! ## Fields and their error decoration

A field is kept with what the validators read (`id`, `name`, `value`,
`required`) and what they write: its class list, its attributes, and the
other elements under its parent node, in document order. -/

/-- An element under the parent node of a field. -/
structure MessageElement where
  classes : List String
  id : String
  textContent : String
  attributes : List (String × String)
deriving DecidableEq, Repr

/-- A form field. -/
structure FieldDom where
  id : String
  name : String
  value : JSString
  required : Bool
  classList : List String
  attributes : List (String × String)
  siblings : List MessageElement
deriving DecidableEq, Repr

/-- Method `classList.add`. -/
def classListAdd (c : String) (l : List String) : List String :=
  if l.contains c then l else l ++ [c]

/-- Method `classList.remove`. -/
def classListRemove (c : String) (l : List String) : List String :=
  l.filter (fun d => d != c)

/-- Method `setAttribute`. -/
def setAttribute (name value : String) : List (String × String) → List (String × String)
  | [] => [(name, value)]
  | a :: rest => if a.1 = name then (name, value) :: rest else a :: setAttribute name value rest

/-- The call `parentNode.querySelector('.c')` followed, when it finds an
element, by `remove()`: the first element of class `c` is taken out. -/
def removeFirstOfClass (c : String) : List MessageElement → List MessageElement
  | [] => []
  | e :: rest => if e.classes.contains c then rest else e :: removeFirstOfClass c rest

/-- The number of elements of class `c` under the parent node. -/
def countOfClass (c : String) (l : List MessageElement) : Nat :=
  l.countP (fun e => e.classes.contains c)

/-! ## `FormValidator` field validators (form-validation.js) -/

namespace FormValidator

/-- Field `config.maxChars`. -/
def maxChars : Nat := 1000

/-- Field `config.minMessageLength`. -/
def minMessageLength : Nat := 10

/-- Field `config.minNameLength`. -/
def minNameLength : Nat := 2

/-- Method `clearFieldError`. -/
def clearFieldError (field : FieldDom) : FieldDom :=
  { field with
    classList := classListRemove "error" field.classList
    attributes := setAttribute "aria-invalid" "false" field.attributes
    siblings := removeFirstOfClass "error-message" field.siblings }

/-- Method `showFieldError`. -/
def showFieldError (field : FieldDom) (message : String) : FieldDom :=
  let field := clearFieldError field
  { field with
    classList := classListAdd "error" field.classList
    attributes := setAttribute "aria-invalid" "true" field.attributes
    siblings := field.siblings ++
      [{ classes := ["error-message"], id := field.id ++ "-error", textContent := message,
         attributes := [("role", "alert"), ("aria-live", "polite")] }] }

/-- Method `isValidEmail`. -/
def isValidEmail (email : JSString) : Bool :=
  Regex.testWhole emailRegex (toLowerCase email)

/-- The test `!value` on an argument that is a string or, when the caller
left it out, `undefined` (`none`). -/
def isFalsy : Option JSString → Bool
  | none => true
  | some v => v.isEmpty

/-- Method `validateNameField`: the verdict and the field afterwards. -/
def validateNameField (field : FieldDom) (value : Option JSString) : Bool × FieldDom :=
  if isFalsy value then (false, showFieldError field "El nombre completo es obligatorio.")
  else if (value.getD []).length < minNameLength then
    (false, showFieldError field
      ("El nombre debe tener al menos " ++ toString minNameLength ++ " caracteres."))
  else if !Regex.testWhole (Regex.atLeast 2 (.cls isNameUnit)) (value.getD []) then
    (false, showFieldError field "El nombre solo puede contener letras y espacios.")
  else (true, clearFieldError field)

/-- Method `validateEmailField`. -/
def validateEmailField (field : FieldDom) (value : Option JSString) : Bool × FieldDom :=
  if isFalsy value then (false, showFieldError field "El correo electrónico es obligatorio.")
  else if !isValidEmail (value.getD []) then
    (false, showFieldError field "Por favor ingrese un correo electrónico válido.")
  else (true, clearFieldError field)

/-- Method `validateSelectField`. -/
def validateSelectField (field : FieldDom) (value : Option JSString) : Bool × FieldDom :=
  if isFalsy value then (false, showFieldError field "Por favor selecciona un asunto.")
  else (true, clearFieldError field)

/-- Method `validateMessageField`. -/
def validateMessageField (field : FieldDom) (value : Option JSString) : Bool × FieldDom :=
  if isFalsy value then (false, showFieldError field "El mensaje es obligatorio.")
  else if (value.getD []).length < minMessageLength then
    (false, showFieldError field
      ("El mensaje debe tener al menos " ++ toString minMessageLength ++ " caracteres."))
  else if (value.getD []).length > maxChars then
    (false, showFieldError field
      ("El mensaje no puede exceder " ++ toString maxChars ++ " caracteres."))
  else (true, clearFieldError field)

/-- Method `validateRequiredField`. -/
def validateRequiredField (field : FieldDom) (value : Option JSString) : Bool × FieldDom :=
  if isFalsy value then (false, showFieldError field "Este campo es obligatorio.")
  else (true, clearFieldError field)

/-- Method `validateField`: the value is trimmed and the validator is chosen
by the `id` of the field. -/
def validateField (field : FieldDom) : Bool × FieldDom :=
  let value := trim field.value
  if field.id = "name" then validateNameField field (some value)
  else if field.id = "email" then validateEmailField field (some value)
  else if field.id = "subject" then validateSelectField field (some value)
  else if field.id = "message" then validateMessageField field (some value)
  else validateRequiredField field (some value)

end FormValidator

/-! ## `ContactForm` validation (script.js and Menú.js, same code) -/

/-- The constant `CONFIG.MAX_WORDS`. -/
def MAX_WORDS : Nat := 500

/-- The pieces of `text.split(/\s+/)`: the text between the runs of white
space, with an empty piece before a leading run and after a trailing one.
`inRun` says that the previous code unit was white space, `cur` is the piece
being read, reversed. -/
def splitSpacesLoop : Bool → JSString → JSString → List JSString
  | _, cur, [] => [cur.reverse]
  | inRun, cur, u :: s =>
    if isSpace u then
      if inRun then splitSpacesLoop true [] s else cur.reverse :: splitSpacesLoop true [] s
    else splitSpacesLoop false (u :: cur) s

/-- The expression `text === '' ? 0 : text.split(/\s+/).length`. -/
def wordCount (text : JSString) : Nat :=
  if text.isEmpty then 0 else (splitSpacesLoop false [] text).length

/-- Apply `g` to the first field that satisfies `p`. -/
def updateFirst (p : FieldDom → Bool) (g : FieldDom → FieldDom) : List FieldDom → List FieldDom
  | [] => []
  | f :: rest => if p f then g f :: rest else f :: updateFirst p g rest

namespace ContactForm

/-- Method `clearFieldError`. -/
def clearFieldError (field : FieldDom) : FieldDom :=
  { field with
    classList := classListRemove "error" field.classList
    siblings := removeFirstOfClass "field-error" field.siblings }

/-- Method `showFieldError`. -/
def showFieldError (field : FieldDom) (message : String) : FieldDom :=
  let field := clearFieldError field
  { field with
    classList := classListAdd "error" field.classList
    siblings := field.siblings ++
      [{ classes := ["field-error"], id := "", textContent := message,
         attributes := [("role", "alert")] }] }

/-- Method `validateEmail`. -/
def validateEmail (email : JSString) : Bool :=
  Regex.testWhole emailRegex (toLowerCase email)

/-- Whether a field fails the check of the required fields. -/
def requiredBlank (f : FieldDom) : Bool := f.required && (trim f.value).isEmpty

/-- Whether the e-mail check fails: there is a field `#email`, it is not
empty and `validateEmail` rejects it. -/
def emailFails (form : List FieldDom) : Bool :=
  match form.find? (fun f => decide (f.id = "email")) with
  | none => false
  | some f => !f.value.isEmpty && !validateEmail f.value

/-- Whether the word limit check fails: there is a field `#message` and its
trimmed value has more than `MAX_WORDS` words. -/
def wordLimitFails (form : List FieldDom) : Bool :=
  match form.find? (fun f => decide (f.id = "message")) with
  | none => false
  | some f => decide (wordCount (trim f.value) > MAX_WORDS)

/-- Method `validateForm` on the fields of the form in document order: the
verdict and the fields afterwards. -/
def validateForm (form : List FieldDom) : Bool × List FieldDom :=
  let isValid := !form.any requiredBlank
  let fields := form.map (fun f =>
    if requiredBlank f then showFieldError f "Este campo es obligatorio." else f)
  let isValid := isValid && !emailFails form
  let fields := if emailFails form then
      updateFirst (fun f => decide (f.id = "email"))
        (fun f => showFieldError f "Por favor ingrese un email válido.") fields
    else fields
  let isValid := isValid && !wordLimitFails form
  let fields := if wordLimitFails form then
      updateFirst (fun f => decide (f.id = "message"))
        (fun f => showFieldError f
          ("El mensaje excede el límite de " ++ toString MAX_WORDS ++ " palabras.")) fields
    else fields
  (isValid, fields)

end ContactForm

end CyberShield

namespace CyberShield

/-! ## `FormValidator` status messages as an event system -/

/-- What happens to the status element of a `FormValidator`: a call of
`showStatus`, an explicit call of `clearStatus`, the `k`-th pending
auto-dismiss timer firing, or time passing. -/
inductive StatusEvent where
  | showStatus (message : String) (type : StatusKind)
  | clearStatus
  | fire (k : Nat)
  | tick (dt : Nat)
deriving DecidableEq, Repr

namespace FormValidator

variable {F : Type}

/-- One event. A timer fires only when it is due; its callback is
`() => this.clearStatus()`. -/
def statusStep (s : FormValidator F) : StatusEvent → FormValidator F
  | .showStatus message type => s.showStatus message type
  | .clearStatus => s.clearStatus
  | .fire k =>
    match s.timers.get? k with
    | some due =>
      if due ≤ s.now then clearStatus { s with timers := s.timers.eraseIdx k } else s
    | none => s
  | .tick dt => { s with now := s.now + dt }

/-- The state after a sequence of events. -/
def statusRun (s : FormValidator F) (tr : List StatusEvent) : FormValidator F :=
  tr.foldl statusStep s

end FormValidator

/-! ## `EnhancedFormValidation.handleFormSubmission` -/

/-- What `showSecurityMessage` and `showSuccessMessage` write into the status
element. -/
inductive EnhancedNotice where
  | securityAlert (message : String)
  | successMessage (message : String)
deriving DecidableEq, Repr

/-- The state of an `EnhancedFormValidation` as far as a submission goes: the
form content, the rate limiter it owns, the time the form was first shown
(`none` while unset), the content of the status element (`none` when the
page has none, `some none` before any message), and the counts of `fetch`
calls and of runs of `validateCompleteForm`. Calls into the optional
`window.contactSecurity` object and the state of the submit button, which
the page is taken to have, are left out: they do not reach the limiter. -/
structure EnhancedFormValidation (κ F : Type) where
  form : F
  rateLimiter : AdvancedRateLimiter κ
  formStartTime : Option Int
  statusDiv : Option (Option EnhancedNotice)
  sends : Nat
  validations : Nat

namespace EnhancedFormValidation

variable {κ F : Type} [DecidableEq κ]

/-- Method `showSecurityMessage`. -/
def showSecurityMessage (s : EnhancedFormValidation κ F) (message : String) :
    EnhancedFormValidation κ F :=
  match s.statusDiv with
  | none => s
  | some _ => { s with statusDiv := some (some (EnhancedNotice.securityAlert message)) }

/-- Method `analyzeFillPattern`, field `suspicious` of its result. -/
def fillPatternSuspicious : Bool := false

/-- Method `analyzeSubmissionBehavior` at clock reading `now`. With
`formStartTime` unset the difference is `NaN` and the comparison false. -/
def analyzeSubmissionBehavior (formStartTime : Option Int) (now : Int) : Int :=
  let score : Int := 100
  let score := match formStartTime with
    | some start => if now - start < 5000 then score - 30 else score
    | none => score
  let score := if fillPatternSuspicious then score - 25 else score
  max 0 score

/-- Method `handleFormSubmission` up to the `fetch` of `submitFormSecurely`:
the rate check with the client fingerprint `clientId` at reading `now`, then
`validateCompleteForm` (the verdict `dom.validateForm`), then the behaviour
score at reading `later`, then the send. -/
def handleFormSubmission (dom : FormDom F) (clientId : κ) (now later : Int)
    (s : EnhancedFormValidation κ F) : EnhancedFormValidation κ F :=
  let rateCheck := s.rateLimiter.checkAttempt clientId now
  let s := { s with rateLimiter := rateCheck.2 }
  if !rateCheck.1.allowed then
    s.showSecurityMessage "Demasiados intentos. Por favor, espera 15 minutos."
  else
    let s := { s with validations := s.validations + 1 }
    if !dom.validateForm s.form then s
    else if analyzeSubmissionBehavior s.formStartTime later < 60 then s
    else { s with sends := s.sends + 1 }

end EnhancedFormValidation

/-- A form that is never valid. -/
def neverValid : FormDom Unit := { validateForm := fun _ => false, reset := fun f => f }

end CyberShield

namespace CyberShield

/-- Every class of the expression lies inside `P`, so that every code unit
of a matched piece satisfies `P`. -/
def Regex.within (P : Nat → Prop) : Regex → Prop
  | .cls p => ∀ u, p u = true → P u
  | .eps => True
  | .seq a b => Regex.within P a ∧ Regex.within P b
  | .alt a b => Regex.within P a ∧ Regex.within P b
  | .star r => Regex.within P r
  | .rep _ _ r => Regex.within P r
  | .wordBoundary => True
  | .notAhead _ => True

/-- A string with exactly one `@` (code 64), a non-empty part before it, a
non-empty part after it, and no white space. -/
def oneAtNoSpace (s : JSString) : Prop :=
  ∃ a b : JSString, s = a ++ 64 :: b ∧ a ≠ [] ∧ b ≠ [] ∧ 64 ∉ a ∧ 64 ∉ b
    ∧ ∀ u ∈ s, isSpace u = false

/-- A call on the error decoration of a field. -/
inductive FieldErrorOp where
  | showFieldError (message : String)
  | clearFieldError
deriving DecidableEq, Repr

/-- A sequence of calls of `FormValidator` on one field. -/
def FormValidator.applyOps (field : FieldDom) (ops : List FieldErrorOp) : FieldDom :=
  ops.foldl (fun f op =>
    match op with
    | .showFieldError m => FormValidator.showFieldError f m
    | .clearFieldError => FormValidator.clearFieldError f) field

/-- A sequence of calls of `ContactForm` on one field. -/
def ContactForm.applyOps (field : FieldDom) (ops : List FieldErrorOp) : FieldDom :=
  ops.foldl (fun f op =>
    match op with
    | .showFieldError m => ContactForm.showFieldError f m
    | .clearFieldError => ContactForm.clearFieldError f) field

/-- The elements of class `c` under the parent node, in document order. -/
def ofClass (c : String) (l : List MessageElement) : List MessageElement :=
  l.filter (fun e => e.classes.contains c)

end CyberShield

namespace CyberShield

/-- An expression without `\b` and without look-ahead: whether it matches a
piece does not depend on what stands around the piece. -/
def Regex.plain : Regex → Prop
  | .cls _ => True
  | .eps => True
  | .seq a b => Regex.plain a ∧ Regex.plain b
  | .alt a b => Regex.plain a ∧ Regex.plain b
  | .star r => Regex.plain r
  | .rep _ _ r => Regex.plain r
  | .wordBoundary => False
  | .notAhead _ => False

/-- An e-mail address with a local part of `n + 1` letters `a`:
`a...a@b.co`. -/
def longAddress (n : Nat) : JSString := List.replicate (n + 1) 97 ++ units "@b.co"

/-- A text field with the given `id` and value, not decorated. -/
def plainField (id : String) (value : JSString) (required : Bool) : FieldDom :=
  { id := id, name := id, value := value, required := required, classList := [],
    attributes := [], siblings := [] }

end CyberShield

namespace CyberShield

/-- A `FormValidator` at time 0 whose status element is empty. -/
def idleValidator : FormValidator Unit :=
  { form := (), statusElement := some { textContent := none, kind := none },
    isSubmitting := false, now := 0, timers := [], pendingFetches := 0, sends := 0,
    validations := 0 }

/-- An `EnhancedFormValidation` just constructed, with an empty status
element. -/
def freshEnhanced : EnhancedFormValidation Nat Unit :=
  { form := (), rateLimiter := AdvancedRateLimiter.new, formStartTime := none,
    statusDiv := some none, sends := 0, validations := 0 }

end CyberShield

namespace CyberShield

/-! ## `EnhancedFormValidation` field decoration (form-validation-enhanced.js) -/

/-- The style text both kinds of message element get, up to its colour and
font size. -/
def messageStyle (color size : String) : List (String × String) :=
  [("style", "color: " ++ color ++ "; font-size: " ++ size
      ++ "; margin-top: 5px; display: block;")]

/-- The two queries `parentNode.querySelector('.a')` and
`parentNode.querySelector('.b')`, both made before anything is removed,
followed by `remove()` on each element found: `needA` and `needB` say that
the first element of class `a`, of class `b`, has not been met yet. -/
def removeFoundLoop (a b : String) : Bool → Bool → List MessageElement → List MessageElement
  | _, _, [] => []
  | needA, needB, e :: rest =>
    if (needA && e.classes.contains a) || (needB && e.classes.contains b) then
      removeFoundLoop a b (needA && !e.classes.contains a) (needB && !e.classes.contains b) rest
    else
      e :: removeFoundLoop a b (needA && !e.classes.contains a)
        (needB && !e.classes.contains b) rest

namespace EnhancedFormValidation

/-- Method `clearFieldError`. -/
def clearFieldError (field : FieldDom) : FieldDom :=
  { field with
    classList := classListRemove "security-warning-field"
      (classListRemove "error-field" field.classList)
    siblings := removeFoundLoop "field-error-message" "security-warning-message" true true
      field.siblings }

/-- Method `showFieldError`. -/
def showFieldError (field : FieldDom) (message : String) : FieldDom :=
  let field := clearFieldError field
  { field with
    classList := classListAdd "error-field" field.classList
    siblings := field.siblings ++
      [{ classes := ["field-error-message"], id := "", textContent := message,
         attributes := messageStyle "#e74c3c" "0.85rem" }] }

/-- Method `showSecurityWarning`: nothing is cleared first. The text of the
new element is the message after the icon and a blank. -/
def showSecurityWarning (field : FieldDom) (message : String) : FieldDom :=
  { field with
    classList := classListAdd "security-warning-field" field.classList
    siblings := field.siblings ++
      [{ classes := ["security-warning-message"], id := "", textContent := " " ++ message,
         attributes := messageStyle "#f39c12" "0.8rem" }] }

end EnhancedFormValidation

/-! ## `FormValidator` blur listeners -/

/-- The blur listeners that `setupRealTimeValidation` registers on a field, in
the order of registration: `validateField(field)` when the field is
required, `validateEmailField(emailField)` on the field `#email` and
`validateMessageField(messageField)` on the field `#message`, the last two
called without a value. -/
def FormValidator.blur (field : FieldDom) : FieldDom :=
  let field := if field.required then (FormValidator.validateField field).2 else field
  let field := if field.id = "email" then (FormValidator.validateEmailField field none).2
    else field
  if field.id = "message" then (FormValidator.validateMessageField field none).2 else field

/-! ## `ErrorHandler.logError` (Menú.js) -/

/-- Method `logError` on the entry `clientErrors` of `localStorage`: `none`
when the entry is absent, otherwise the list it holds. `E` is the type of a
stored record and `entry` the record of this call, the error information
with its time stamp. -/
def logError {E : Type} (clientErrors : Option (List E)) (entry : E) : Option (List E) :=
  let errors := clientErrors.getD []
  let errors := errors ++ [entry]
  let errors := if errors.length > 10 then errors.tail else errors
  some errors

/-- A form whose content is its own verdict: the user can make it valid or
invalid by an edit, and `reset` leaves it invalid. -/
def verdictForm : FormDom Bool := { validateForm := fun f => f, reset := fun _ => false }

end CyberShield

namespace CyberShield

/-! ## `ContactSecurity.hashString` (contact-security.js) -/

/-- The conversion `ToInt32` of ECMAScript on an integer: the value modulo
`2^32`, taken in the range from `-2^31` to `2^31 - 1`. The operators `<<` and
`&` apply it to their operands and their result. -/
def toInt32 (x : Int) : Int :=
  let m := x % 4294967296
  if m ≥ 2147483648 then m - 4294967296 else m

/-- One turn of the loop of `hashString` on the code unit `char`:
`hash = ((hash << 5) - hash) + char`, then `hash = hash & hash`. The
subtraction and the addition are those of numbers, exact on integers of this
size. -/
def hashStep (hash : Int) (char : Nat) : Int :=
  let hash := (toInt32 (toInt32 hash * 32) - hash) + (char : Int)
  toInt32 hash

/-- Method `Number.prototype.toString(16)` on an integer. -/
def toString16 (x : Int) : String :=
  if x < 0 then "-" ++ String.mk (Nat.toDigits 16 x.natAbs)
  else String.mk (Nat.toDigits 16 x.natAbs)

/-- Method `hashString`. -/
def ContactSecurity.hashString (str : JSString) : String :=
  toString16 (str.foldl hashStep 0)

/-- The sum of `c_i * 31^(n-1-i)` over the code units `c_0 .. c_(n-1)` of a
string, as an integer without bound. -/
def weightedSum : JSString → Int
  | [] => 0
  | c :: rest => (c : Int) * 31 ^ rest.length + weightedSum rest

end CyberShield

namespace CyberShield

/-! ## `EnhancedFormValidation`: spam indicators and `validateMessage` -/

/-- The five expressions of `detectSpamContent`, in order, each an
alternation of words under the flag `i`. -/
def spamIndicators : List Regex :=
  [ -- /(?:viagra|cialis|pharmacy|drugs)/gi
    Regex.anyOf [Regex.litI (units "viagra"), Regex.litI (units "cialis"),
      Regex.litI (units "pharmacy"), Regex.litI (units "drugs")],
    -- /(?:casino|poker|betting)/gi
    Regex.anyOf [Regex.litI (units "casino"), Regex.litI (units "poker"),
      Regex.litI (units "betting")],
    -- /(?:lottery|prize|winner)/gi
    Regex.anyOf [Regex.litI (units "lottery"), Regex.litI (units "prize"),
      Regex.litI (units "winner")],
    -- /(?:urgent|important|attention)/gi
    Regex.anyOf [Regex.litI (units "urgent"), Regex.litI (units "important"),
      Regex.litI (units "attention")],
    -- /(?:click here|buy now|limited time)/gi
    Regex.anyOf [Regex.litI (units "click here"), Regex.litI (units "buy now"),
      Regex.litI (units "limited time")] ]

namespace EnhancedFormValidation

/-- Method `detectSpamContent`: more than two of the indicators match.
`matched` is the array `matches` of the source. -/
def detectSpamContent (message : JSString) : Bool :=
  let matched := spamIndicators.filter (fun pattern => Regex.test pattern message)
  decide (matched.length > 2)

/-- Method `validateMessage`. -/
def validateMessage (message : JSString) : Bool :=
  !message.isEmpty && decide (message.length ≥ 10) && decide (message.length ≤ 1000)
    && !containsSuspiciousPatterns message && !detectSpamContent message

end EnhancedFormValidation

end CyberShield

namespace CyberShield

/-! ## `sanitizeInput` (contact-security.js, form-validation-enhanced.js)

Both methods hold the same three expression literals. The third one,
`/(\b)(on\w+)=|javascript|script|alert|document|eval|expression)/gi`, closes
a group that was never opened. -/

/-- A value handed to `sanitizeInput`: a string, or a value of another type,
of which only its identity `v` matters here. -/
inductive JSValue where
  | string (s : JSString)
  | other (v : Nat)
deriving DecidableEq, Repr

/-- How reading a script can fail. -/
inductive ScriptError where
  | syntaxError (message : String)
deriving DecidableEq, Repr

/-- The text between the slashes of the third expression literal of
`sanitizeInput`, the same in both files. -/
def blacklistSource : String :=
  "(\\b)(on\\w+)=|javascript|script|alert|document|eval|expression)"

/-- Whether the parentheses of a pattern text are well nested, as the
grammar of patterns requires: a code unit after a backslash (92) is skipped,
the text from `[` (91) to `]` (93) is a class in which parentheses are plain
characters, and outside a class `(` (40) opens a group and `)` (41) closes
the last one opened. `depth` counts the open groups. -/
def groupsBalanced : List Nat → (depth : Nat) → (inClass escaped : Bool) → Bool
  | [], depth, inClass, escaped => decide (depth = 0) && !inClass && !escaped
  | u :: rest, depth, inClass, escaped =>
    if escaped then groupsBalanced rest depth inClass false
    else if u = 92 then groupsBalanced rest depth inClass true
    else if inClass then groupsBalanced rest depth (u != 93) false
    else if u = 91 then groupsBalanced rest depth true false
    else if u = 40 then groupsBalanced rest (depth + 1) false false
    else if u = 41 then
      match depth with
      | 0 => false
      | d + 1 => groupsBalanced rest d false false
    else groupsBalanced rest depth false false

/-- The error a script with the third literal is rejected with. -/
def unmatchedParenthesis : ScriptError :=
  .syntaxError "Invalid regular expression: Unmatched ')'"

/-- The first two replacements of `sanitizeInput`:
`.replace(/[<>]/g, '')` and `.replace(/[&<>"']/g, '')`. -/
def stripSpecial (input : JSString) : JSString :=
  (input.filter (fun u => !(decide (u = 60) || decide (u = 62)))).filter
    (fun u => !(decide (u = 38) || decide (u = 60) || decide (u = 62) || decide (u = 34)
      || decide (u = 39)))

/-- The statements of `ContactSecurity.sanitizeInput` on a string, with
`strip` for the replacement that a well-formed third expression would
make. -/
def ContactSecurity.sanitizeSteps (strip : JSString → JSString) (input : JSString) : JSString :=
  let sanitized := trim (strip (stripSpecial input))
  if sanitized.length > 1000 then sanitized.take 1000 else sanitized

/-- Method `ContactSecurity.sanitizeInput`. A malformed expression literal is
an early error: the script is rejected when it is read, before any call. -/
def ContactSecurity.sanitizeInput (strip : JSString → JSString) (input : JSValue) :
    Except ScriptError JSValue :=
  if !groupsBalanced (units blacklistSource) 0 false false then .error unmatchedParenthesis
  else match input with
    | .other v => .ok (.other v)
    | .string s => .ok (.string (ContactSecurity.sanitizeSteps strip s))

/-- The statements of `EnhancedFormValidation.sanitizeInput` on a string,
with `strip` as above. -/
def EnhancedFormValidation.sanitizeSteps (strip : JSString → JSString) (input : JSString) :
    JSString :=
  (trim (strip (stripSpecial input))).take 1000

/-- Method `EnhancedFormValidation.sanitizeInput`. -/
def EnhancedFormValidation.sanitizeInput (strip : JSString → JSString) (input : JSValue) :
    Except ScriptError JSValue :=
  if !groupsBalanced (units blacklistSource) 0 false false then .error unmatchedParenthesis
  else match input with
    | .other v => .ok (.other v)
    | .string s => .ok (.string (EnhancedFormValidation.sanitizeSteps strip s))

/-- The text of `n + 1` letters `a`, a blank and a letter `b`. -/
def overlong (n : Nat) : JSString := List.replicate (n + 1) 97 ++ [32, 98]

end CyberShield

namespace CyberShield

namespace AdvancedRateLimiter

variable {κ : Type} [DecidableEq κ]

/-- The objects returned to the `checkAttempt` calls for `identifier`, in
order, when the trace runs from state `s`. -/
def results (identifier : κ) :
    AdvancedRateLimiter κ → List (LimiterEvent κ) → List AttemptResult
  | _, [] => []
  | s, .check i now :: tr =>
    let r := s.checkAttempt i now
    if i = identifier then r.1 :: results identifier r.2 tr
    else results identifier r.2 tr
  | s, .expire i :: tr => results identifier (s.expire i) tr

/-- A trace with the `checkAttempt` calls for `identifier` taken out. The
timer events stay. -/
def withoutCalls (identifier : κ) (tr : List (LimiterEvent κ)) : List (LimiterEvent κ) :=
  tr.filter (fun e =>
    match e with
    | .check i _ => decide (i ≠ identifier)
    | .expire _ => true)

/-- Two states look the same to the calls for `identifier` made at clock
readings from `last` on: both hold well-formed maps, they agree on whether
the identifier is in the penalty box and on the number of its pending
timers, and the attempts stored for it agree once filtered at any such
reading. -/
def sameFor (identifier : κ) (last : Int) (s₁ s₂ : AdvancedRateLimiter κ) : Prop :=
  s₁.attempts.WF ∧ s₂.attempts.WF ∧ s₁.penaltyBox.WF ∧ s₂.penaltyBox.WF ∧
  s₁.penaltyBox.has identifier = s₂.penaltyBox.has identifier ∧
  s₁.timers.countP (fun t => decide (t.2 = identifier))
    = s₂.timers.countP (fun t => decide (t.2 = identifier)) ∧
  ∀ now, last ≤ now →
    ((s₁.attempts.get identifier).getD []).filter (isRecent now)
      = ((s₂.attempts.get identifier).getD []).filter (isRecent now)

end AdvancedRateLimiter

end CyberShield

/-! # Lemmas and theorems -/

namespace CyberShield

/-! ## Lemmas on entry lists -/

namespace JSMap
variable {κ ν : Type} [DecidableEq κ]

@[simp] theorem liveKeys_nil : liveKeys ([] : List (Option (κ × ν))) = [] := rfl

@[simp] theorem liveKeys_cons_none (l : List (Option (κ × ν))) :
    liveKeys (none :: l) = liveKeys l := rfl

@[simp] theorem liveKeys_cons_some (k : κ) (v : ν) (l : List (Option (κ × ν))) :
    liveKeys (some (k, v) :: l) = k :: liveKeys l := rfl

theorem liveKeys_append (a b : List (Option (κ × ν))) :
    liveKeys (a ++ b) = liveKeys a ++ liveKeys b := by
  simp [liveKeys, List.filterMap_append]

theorem getSlots_eq_none_iff (l : List (Option (κ × ν))) (k : κ) :
    getSlots l k = none ↔ k ∉ liveKeys l := by
  induction l with
  | nil => simp [getSlots]
  | cons slot rest ih =>
    cases slot with
    | none => simpa [getSlots] using ih
    | some e =>
      obtain ⟨k', v⟩ := e
      by_cases h : k' = k
      · simp [getSlots, h]
      · have h2 : ¬ k = k' := fun e => h e.symm
        simp [getSlots, h, h2, ih]

theorem deleteSlots_append_of_not_mem (a b : List (Option (κ × ν))) (k : κ) (v : ν)
    (h : k ∉ liveKeys a) : deleteSlots (a ++ some (k, v) :: b) k = a ++ none :: b := by
  induction a with
  | nil => simp [deleteSlots]
  | cons slot rest ih =>
    cases slot with
    | none => simpa [deleteSlots] using ih (by simpa using h)
    | some e =>
      obtain ⟨k', v'⟩ := e
      simp only [liveKeys_cons_some, List.mem_cons, not_or] at h
      have h2 : ¬ k' = k := fun e => h.1 e.symm
      simp [deleteSlots, h2, ih h.2]

theorem setSlots_append_of_not_mem (a b : List (Option (κ × ν))) (k : κ) (v w : ν)
    (h : k ∉ liveKeys a) :
    setSlots (a ++ some (k, v) :: b) k w = a ++ some (k, w) :: b := by
  induction a with
  | nil => simp [setSlots]
  | cons slot rest ih =>
    cases slot with
    | none => simpa [setSlots] using ih (by simpa using h)
    | some e =>
      obtain ⟨k', v'⟩ := e
      simp only [liveKeys_cons_some, List.mem_cons, not_or] at h
      have h2 : ¬ k' = k := fun e => h.1 e.symm
      simp [setSlots, h2, ih h.2]

end JSMap

namespace AdvancedRateLimiter
variable {κ : Type} [DecidableEq κ]
open JSMap

theorem liveKeys_map_pruneSlot_subset (now : Int) (l : List (Option (κ × List Int))) (k : κ)
    (h : k ∈ liveKeys (l.map (pruneSlot now))) : k ∈ liveKeys l := by
  induction l with
  | nil => simp at h
  | cons slot rest ih =>
    cases slot with
    | none => simpa [pruneSlot] using ih (by simpa [pruneSlot] using h)
    | some e =>
      obtain ⟨k', v⟩ := e
      by_cases hl : (v.filter (isRecent now)).length = 0
      · simp only [List.map_cons, pruneSlot, hl, if_true, liveKeys_cons_none] at h
        simp [ih h]
      · simp only [List.map_cons, pruneSlot, hl, if_false, liveKeys_cons_some,
          List.mem_cons] at h
        rcases h with h | h
        · simp [h]
        · simp [ih h]

theorem cleanupLoop_spec (now : Int) :
    ∀ (suf pre : List (Option (κ × List Int))) (fuel : Nat), suf.length ≤ fuel →
      (liveKeys (pre ++ suf)).Nodup →
      cleanupLoop now fuel pre.length ⟨pre.map (pruneSlot now) ++ suf⟩
        = ⟨(pre ++ suf).map (pruneSlot now)⟩ := by
  intro suf
  induction suf with
  | nil =>
    intro pre fuel _ _
    cases fuel with
    | zero => simp [cleanupLoop]
    | succ f => simp [cleanupLoop]
  | cons slot rest ih =>
    intro pre fuel hfuel hnd
    cases fuel with
    | zero => simp at hfuel
    | succ f =>
      have hlen : rest.length ≤ f := by simpa using hfuel
      have hget : (pre.map (pruneSlot now) ++ slot :: rest).get? pre.length = some slot := by
        rw [List.get?_eq_getElem?, List.getElem?_append_right (by simp)]
        simp
      have hnd2 : (liveKeys ((pre ++ [slot]) ++ rest)).Nodup := by simpa using hnd
      have hstep := ih (pre ++ [slot]) f hlen hnd2
      cases slot with
      | none =>
        simp only [cleanupLoop, hget]
        simpa [pruneSlot] using hstep
      | some e =>
        obtain ⟨k, l⟩ := e
        have hk : k ∉ liveKeys (pre.map (pruneSlot now)) := by
          intro hmem
          have hmem2 := liveKeys_map_pruneSlot_subset now pre k hmem
          rw [liveKeys_append, liveKeys_cons_some] at hnd
          have := List.nodup_append.mp hnd
          exact this.2.2 hmem2 (List.mem_cons_self _ _)
        simp only [cleanupLoop, hget]
        by_cases hl : (l.filter (isRecent now)).length = 0
        · simp only [hl, if_true, JSMap.delete]
          rw [deleteSlots_append_of_not_mem _ _ _ _ hk]
          simpa [pruneSlot, hl] using hstep
        · simp only [hl, if_false, JSMap.set]
          rw [setSlots_append_of_not_mem _ _ _ _ _ hk]
          simpa [pruneSlot, hl] using hstep

theorem cleanupOldAttempts_slots (s : AdvancedRateLimiter κ) (now : Int) (h : s.attempts.WF) :
    (s.cleanupOldAttempts now).attempts = ⟨s.attempts.slots.map (pruneSlot now)⟩ := by
  have := cleanupLoop_spec now s.attempts.slots [] s.attempts.slots.length (le_refl _)
    (by simpa [JSMap.WF] using h)
  simpa [cleanupOldAttempts] using this

end AdvancedRateLimiter
end CyberShield

namespace CyberShield

namespace JSMap
variable {κ ν : Type} [DecidableEq κ]

theorem getSlots_setSlots (l : List (Option (κ × ν))) (k k' : κ) (v : ν) :
    getSlots (setSlots l k v) k' = if k = k' then some v else getSlots l k' := by
  induction l with
  | nil => simp [setSlots, getSlots]
  | cons slot rest ih =>
    cases slot with
    | none => simpa [setSlots, getSlots] using ih
    | some e =>
      obtain ⟨k₀, v₀⟩ := e
      by_cases h : k₀ = k
      · subst h
        by_cases h2 : k₀ = k' <;> simp [setSlots, getSlots, h2]
      · by_cases h2 : k₀ = k'
        · subst h2
          have h3 : ¬ k = k₀ := fun e => h e.symm
          simp [setSlots, getSlots, h, h3]
        · simp [setSlots, getSlots, h, h2, ih]

theorem getSlots_deleteSlots_ne (l : List (Option (κ × ν))) (k k' : κ) (h : k ≠ k') :
    getSlots (deleteSlots l k) k' = getSlots l k' := by
  induction l with
  | nil => simp [deleteSlots, getSlots]
  | cons slot rest ih =>
    cases slot with
    | none => simpa [deleteSlots, getSlots] using ih
    | some e =>
      obtain ⟨k₀, v₀⟩ := e
      by_cases h1 : k₀ = k
      · subst h1
        simp [deleteSlots, getSlots, h]
      · by_cases h2 : k₀ = k'
        · subst h2
          simp [deleteSlots, getSlots, h1]
        · simp [deleteSlots, getSlots, h1, h2, ih]

theorem liveKeys_setSlots (l : List (Option (κ × ν))) (k : κ) (v : ν) :
    liveKeys (setSlots l k v) = if k ∈ liveKeys l then liveKeys l else liveKeys l ++ [k] := by
  induction l with
  | nil => simp [setSlots]
  | cons slot rest ih =>
    cases slot with
    | none => simpa [setSlots] using ih
    | some e =>
      obtain ⟨k₀, v₀⟩ := e
      by_cases h1 : k₀ = k
      · subst h1
        simp [setSlots]
      · have h3 : ¬ k = k₀ := fun e => h1 e.symm
        by_cases hm : k ∈ liveKeys rest <;> simp [setSlots, h1, h3, ih, hm]

theorem get_set (m : JSMap κ ν) (k k' : κ) (v : ν) :
    (m.set k v).get k' = if k = k' then some v else m.get k' :=
  getSlots_setSlots m.slots k k' v

theorem get_delete_ne (m : JSMap κ ν) (k k' : κ) (h : k ≠ k') :
    (m.delete k).get k' = m.get k' :=
  getSlots_deleteSlots_ne m.slots k k' h

theorem WF_set (m : JSMap κ ν) (k : κ) (v : ν) (h : m.WF) : (m.set k v).WF := by
  unfold WF at *
  simp only [set, liveKeys_setSlots]
  by_cases hm : k ∈ liveKeys m.slots
  · simpa [hm] using h
  · simp only [hm, if_false]
    exact List.nodup_append.mpr ⟨h, List.nodup_singleton k, by
      intro a ha hb
      simp only [List.mem_singleton] at hb
      exact hm (hb ▸ ha)⟩

end JSMap

namespace AdvancedRateLimiter
variable {κ : Type} [DecidableEq κ]
open JSMap

theorem liveKeys_map_pruneSlot_sublist (now : Int) (l : List (Option (κ × List Int))) :
    (liveKeys (l.map (pruneSlot now))).Sublist (liveKeys l) := by
  induction l with
  | nil => simp
  | cons slot rest ih =>
    cases slot with
    | none => simpa [pruneSlot] using ih
    | some e =>
      obtain ⟨k, v⟩ := e
      by_cases hl : (v.filter (isRecent now)).length = 0
      · simp only [List.map_cons, pruneSlot, hl, if_true, liveKeys_cons_none,
          liveKeys_cons_some]
        exact ih.trans (List.sublist_cons_self _ _)
      · simp only [List.map_cons, pruneSlot, hl, if_false, liveKeys_cons_some]
        exact ih.cons₂ _

theorem getSlots_map_pruneSlot (now : Int) (l : List (Option (κ × List Int))) (k : κ)
    (h : (liveKeys l).Nodup) :
    ((getSlots (l.map (pruneSlot now)) k).getD [])
      = ((getSlots l k).getD []).filter (isRecent now) := by
  induction l with
  | nil => simp [getSlots]
  | cons slot rest ih =>
    cases slot with
    | none => simpa [pruneSlot, getSlots] using ih (by simpa using h)
    | some e =>
      obtain ⟨k₀, v⟩ := e
      simp only [liveKeys_cons_some, List.nodup_cons] at h
      by_cases hk : k₀ = k
      · subst hk
        by_cases hl : (v.filter (isRecent now)).length = 0
        · have hnone : getSlots (rest.map (pruneSlot now)) k₀ = none := by
            rw [getSlots_eq_none_iff]
            exact fun hm => h.1 ((liveKeys_map_pruneSlot_sublist now rest).subset hm)
          simp only [List.map_cons, pruneSlot, hl, if_true, getSlots, hnone]
          simp [List.length_eq_zero.mp hl]
        · simp [pruneSlot, hl, getSlots]
      · by_cases hl : (v.filter (isRecent now)).length = 0
        · simpa [pruneSlot, hl, getSlots, hk] using ih h.2
        · simpa [pruneSlot, hl, getSlots, hk] using ih h.2

/-- After a cleanup pass the list of an identifier (empty when it has no
entry) is its previous list filtered to the recent attempts. -/
theorem get_cleanupOldAttempts (s : AdvancedRateLimiter κ) (now : Int) (k : κ)
    (h : s.attempts.WF) :
    (((s.cleanupOldAttempts now).attempts.get k).getD [])
      = ((s.attempts.get k).getD []).filter (isRecent now) := by
  rw [cleanupOldAttempts_slots s now h]
  exact getSlots_map_pruneSlot now s.attempts.slots k h

theorem WF_cleanupOldAttempts (s : AdvancedRateLimiter κ) (now : Int) (h : s.attempts.WF) :
    (s.cleanupOldAttempts now).attempts.WF := by
  rw [cleanupOldAttempts_slots s now h]
  exact (liveKeys_map_pruneSlot_sublist now s.attempts.slots).nodup h

theorem entries_map_pruneSlot (now : Int) (l : List (Option (κ × List Int))) :
    (l.map (pruneSlot now)).filterMap id = prunedEntries now (l.filterMap id) := by
  induction l with
  | nil => simp [prunedEntries]
  | cons slot rest ih =>
    cases slot with
    | none => simpa [pruneSlot] using ih
    | some e =>
      obtain ⟨k, v⟩ := e
      have hfun : (fun t => decide (now - t < timeWindow)) = isRecent now := rfl
      by_cases hl : (v.filter (isRecent now)).length = 0
      · have hnil := List.length_eq_zero.mp hl
        simp only [List.map_cons, pruneSlot, hl, if_true, List.filterMap_cons, id]
        rw [ih]
        simp [prunedEntries, hfun, hnil]
      · have hne : v.filter (isRecent now) ≠ [] := fun e => hl (by simp [e])
        simp only [List.map_cons, pruneSlot, hl, if_false, List.filterMap_cons, id]
        rw [ih]
        simp [prunedEntries, hfun, hne]

end AdvancedRateLimiter
end CyberShield

namespace CyberShield
namespace AdvancedRateLimiter
variable {κ : Type} [DecidableEq κ]
open JSMap

/-! ## Basic facts on `checkAttempt` -/

@[simp] theorem cleanupOldAttempts_penaltyBox (s : AdvancedRateLimiter κ) (now : Int) :
    (s.cleanupOldAttempts now).penaltyBox = s.penaltyBox := rfl

@[simp] theorem cleanupOldAttempts_timers (s : AdvancedRateLimiter κ) (now : Int) :
    (s.cleanupOldAttempts now).timers = s.timers := rfl

theorem checkAttempt_blocked (s : AdvancedRateLimiter κ) (i : κ) (now : Int)
    (h : s.penaltyBox.has i = true) :
    s.checkAttempt i now
      = ({ allowed := false, reason := some "IP en lista de bloqueo", remaining := none },
          s.cleanupOldAttempts now) := by
  simp [checkAttempt, h]

theorem checkAttempt_limit (s : AdvancedRateLimiter κ) (i : κ) (now : Int)
    (h : s.penaltyBox.has i = false)
    (hc : maxAttempts ≤ ((((s.cleanupOldAttempts now).attempts.get i).getD []).filter
      (isRecent now)).length) :
    s.checkAttempt i now
      = ({ allowed := false, reason := some "Límite de intentos excedido", remaining := none },
          (s.cleanupOldAttempts now).addToPenaltyBox i now) := by
  simp [checkAttempt, h, hc]

theorem checkAttempt_allowed (s : AdvancedRateLimiter κ) (i : κ) (now : Int)
    (h : s.penaltyBox.has i = false)
    (hc : ((((s.cleanupOldAttempts now).attempts.get i).getD []).filter
      (isRecent now)).length < maxAttempts) :
    s.checkAttempt i now
      = ({ allowed := true, reason := none,
           remaining := some ((maxAttempts : Int)
             - ((((s.cleanupOldAttempts now).attempts.get i).getD []).filter
                (isRecent now)).length - 1) },
          { s.cleanupOldAttempts now with
            attempts := (s.cleanupOldAttempts now).attempts.set i
              (((s.cleanupOldAttempts now).attempts.get i).getD [] ++ [now]) }) := by
  have hc2 : ¬ maxAttempts ≤ ((((s.cleanupOldAttempts now).attempts.get i).getD []).filter
      (isRecent now)).length := by omega
  simp [checkAttempt, h, hc2]

/-- The three outcomes of `checkAttempt`. -/
theorem checkAttempt_cases (s : AdvancedRateLimiter κ) (i : κ) (now : Int) :
    (s.penaltyBox.has i = true ∧ (s.checkAttempt i now).1.allowed = false
        ∧ (s.checkAttempt i now).2 = s.cleanupOldAttempts now)
    ∨ (s.penaltyBox.has i = false ∧ (s.checkAttempt i now).1.allowed = false
        ∧ maxAttempts ≤ ((((s.cleanupOldAttempts now).attempts.get i).getD []).filter
            (isRecent now)).length
        ∧ (s.checkAttempt i now).2 = (s.cleanupOldAttempts now).addToPenaltyBox i now)
    ∨ (s.penaltyBox.has i = false ∧ (s.checkAttempt i now).1.allowed = true
        ∧ ((((s.cleanupOldAttempts now).attempts.get i).getD []).filter
            (isRecent now)).length < maxAttempts
        ∧ (s.checkAttempt i now).2 = { s.cleanupOldAttempts now with
            attempts := (s.cleanupOldAttempts now).attempts.set i
              (((s.cleanupOldAttempts now).attempts.get i).getD [] ++ [now]) }) := by
  by_cases h : s.penaltyBox.has i = true
  · left
    rw [checkAttempt_blocked s i now h]
    exact ⟨h, rfl, rfl⟩
  · have h0 : s.penaltyBox.has i = false := by simpa using h
    right
    by_cases hc : maxAttempts ≤ ((((s.cleanupOldAttempts now).attempts.get i).getD []).filter
        (isRecent now)).length
    · left
      rw [checkAttempt_limit s i now h0 hc]
      exact ⟨h0, rfl, hc, rfl⟩
    · right
      have hc2 : ((((s.cleanupOldAttempts now).attempts.get i).getD []).filter
          (isRecent now)).length < maxAttempts := by omega
      rw [checkAttempt_allowed s i now h0 hc2]
      exact ⟨h0, rfl, hc2, rfl⟩

theorem filter_isRecent_idem (now : Int) (l : List Int) :
    (l.filter (isRecent now)).filter (isRecent now) = l.filter (isRecent now) := by
  simp [List.filter_filter]

theorem has_step_of_ne_expire (s : AdvancedRateLimiter κ) (i : κ) (e : LimiterEvent κ)
    (he : e ≠ .expire i) (h : s.penaltyBox.has i = true) : (s.step e).penaltyBox.has i = true := by
  cases e with
  | check j now =>
    simp only [step]
    rcases checkAttempt_cases s j now with ⟨_, _, h2⟩ | ⟨_, _, _, h2⟩ | ⟨_, _, _, h2⟩
    · rw [h2]; simpa using h
    · rw [h2]
      simp only [addToPenaltyBox, JSMap.has, JSMap.get_set, cleanupOldAttempts_penaltyBox]
      by_cases hji : j = i
      · simp [hji]
      · simpa [hji, JSMap.has] using h
    · rw [h2]; simpa using h
  | expire j =>
    have hji : j ≠ i := fun e => he (by rw [e])
    simp only [step, expire]
    cases s.timers.find? (fun t => decide (t.2 = j)) with
    | none => simpa using h
    | some t =>
      simp only [JSMap.has, JSMap.get_delete_ne _ _ _ hji]
      simpa [JSMap.has] using h

theorem has_run_of_no_expire (i : κ) (tr : List (LimiterEvent κ)) :
    ∀ s : AdvancedRateLimiter κ, LimiterEvent.expire i ∉ tr → s.penaltyBox.has i = true →
      (s.run tr).penaltyBox.has i = true := by
  induction tr with
  | nil => intro s _ h; simpa [run] using h
  | cons e rest ih =>
    intro s hne h
    simp only [List.mem_cons, not_or] at hne
    have h1 := has_step_of_ne_expire s i e (fun e2 => hne.1 e2.symm) h
    simpa [run] using ih (s.step e) hne.2 h1

theorem run_append (s : AdvancedRateLimiter κ) (a b : List (LimiterEvent κ)) :
    s.run (a ++ b) = (s.run a).run b := by
  simp [run, List.foldl_append]

end AdvancedRateLimiter
end CyberShield

namespace CyberShield
namespace AdvancedRateLimiter
open JSMap

/-- C5. A cleanup pass at time `now` on a well-formed attempts map leaves
exactly the previous entries, in order, each list filtered to the timestamps
`t` with `now - t < timeWindow`, with the identifiers whose filtered list is
empty removed: the iteration skips no entry although it deletes while it
iterates. Hence no remaining list is empty, none holds a timestamp aged
`timeWindow` or more (in particular not one exactly `timeWindow` old), and
the penalty box is untouched. -/
theorem cleanupOldAttempts_prunes {κ : Type} [DecidableEq κ] (s : AdvancedRateLimiter κ)
    (now : Int) (h : s.attempts.WF) :
    (s.cleanupOldAttempts now).attempts.entries = prunedEntries now s.attempts.entries
    ∧ (∀ e ∈ (s.cleanupOldAttempts now).attempts.entries,
        e.2 ≠ [] ∧ (∀ t ∈ e.2, now - t < timeWindow) ∧ (now - timeWindow) ∉ e.2)
    ∧ (s.cleanupOldAttempts now).penaltyBox = s.penaltyBox := by
  have heq : (s.cleanupOldAttempts now).attempts.entries
      = prunedEntries now s.attempts.entries := by
    rw [cleanupOldAttempts_slots s now h]
    exact entries_map_pruneSlot now s.attempts.slots
  refine ⟨heq, ?_, rfl⟩
  intro e he
  rw [heq] at he
  simp only [prunedEntries, List.mem_filter, List.mem_map] at he
  obtain ⟨⟨e0, _, rfl⟩, hne⟩ := he
  have hall : ∀ t ∈ (e0.2.filter (fun t => decide (now - t < timeWindow))),
      now - t < timeWindow := by
    intro t ht
    simpa using (List.mem_filter.mp ht).2
  refine ⟨?_, hall, ?_⟩
  · intro hnil
    rw [hnil] at hne
    simp at hne
  · intro hmem
    have := hall _ hmem
    omega

/-- Witness for C5: a map with an empty slot, an entry that is dropped and
two that are filtered, cleaned at `now = 900000`. -/
theorem cleanupOldAttempts_prunes_witness :
    (cleanupOldAttempts
        (⟨⟨[some (1, [0, 5]), none, some (2, [0]), some (3, [7, 0, 8])]⟩, ⟨[]⟩, []⟩ :
          AdvancedRateLimiter Nat) 900000).attempts.entries
      = [(1, [5]), (3, [7, 8])] :=
  (cleanupOldAttempts_prunes
    (⟨⟨[some (1, [0, 5]), none, some (2, [0]), some (3, [7, 0, 8])]⟩, ⟨[]⟩, []⟩ :
      AdvancedRateLimiter Nat) 900000 (by decide)).1.trans (by decide)

/-- C4. On a well-formed attempts map: when `checkAttempt` returns
`allowed = true`, the list of the identifier afterwards is its previous list
filtered to the in-window attempts with `now` appended as last element, and
`remaining` is `maxAttempts` minus the number of in-window attempts before
the call minus 1, a value between 0 and 4; when it returns `allowed = false`,
the attempts map is that of the cleanup pass alone: nothing is appended. -/
theorem checkAttempt_appends_iff_allowed {κ : Type} [DecidableEq κ]
    (s : AdvancedRateLimiter κ) (identifier : κ) (now : Int) (h : s.attempts.WF) :
    ((s.checkAttempt identifier now).1.allowed = true →
      (s.checkAttempt identifier now).2.attempts.get identifier
          = some (((s.attempts.get identifier).getD []).filter
              (fun t => decide (now - t < timeWindow)) ++ [now])
      ∧ (s.checkAttempt identifier now).1.remaining
          = some ((maxAttempts : Int)
              - (((s.attempts.get identifier).getD []).filter
                  (fun t => decide (now - t < timeWindow))).length - 1)
      ∧ (0 : Int) ≤ (maxAttempts : Int)
              - (((s.attempts.get identifier).getD []).filter
                  (fun t => decide (now - t < timeWindow))).length - 1
      ∧ (maxAttempts : Int)
              - (((s.attempts.get identifier).getD []).filter
                  (fun t => decide (now - t < timeWindow))).length - 1 ≤ 4)
    ∧ ((s.checkAttempt identifier now).1.allowed = false →
      (s.checkAttempt identifier now).2.attempts = (s.cleanupOldAttempts now).attempts) := by
  have hfun : (fun t => decide (now - t < timeWindow)) = isRecent now := rfl
  have hget := get_cleanupOldAttempts s now identifier h
  rw [hfun]
  rcases checkAttempt_cases s identifier now with
    ⟨_, ha, h2⟩ | ⟨_, ha, _, h2⟩ | ⟨_, ha, hc, h2⟩
  · refine ⟨fun ht => ?_, fun _ => by rw [h2]⟩
    rw [ha] at ht; cases ht
  · refine ⟨fun ht => ?_, fun _ => by rw [h2]; rfl⟩
    rw [ha] at ht; cases ht
  · refine ⟨fun _ => ?_, fun hf => ?_⟩
    · rw [hget, filter_isRecent_idem] at hc
      have hrem : (s.checkAttempt identifier now).1.remaining
          = some ((maxAttempts : Int)
              - (((s.attempts.get identifier).getD []).filter (isRecent now)).length - 1) := by
        rw [checkAttempt_allowed s identifier now (by assumption)
          (by rw [hget, filter_isRecent_idem]; exact hc)]
        simp only [hget, filter_isRecent_idem]
      refine ⟨?_, hrem, ?_, ?_⟩
      · rw [h2]
        simp only [JSMap.get_set, if_true, hget]
      · have : maxAttempts = 5 := rfl
        omega
      · have : maxAttempts = 5 := rfl
        omega
    · rw [ha] at hf; cases hf

/-- Witness for C4: the fifth attempt of identifier 1 at time 4. -/
theorem checkAttempt_appends_iff_allowed_witness :
    (checkAttempt (⟨⟨[some (1, [0, 1, 2, 3])]⟩, ⟨[]⟩, []⟩ : AdvancedRateLimiter Nat) 1 4).2.attempts.get 1
        = some [0, 1, 2, 3, 4]
      ∧ (checkAttempt (⟨⟨[some (1, [0, 1, 2, 3])]⟩, ⟨[]⟩, []⟩ : AdvancedRateLimiter Nat) 1 4).1.remaining
        = some 0 :=
  ⟨((checkAttempt_appends_iff_allowed
      (⟨⟨[some (1, [0, 1, 2, 3])]⟩, ⟨[]⟩, []⟩ : AdvancedRateLimiter Nat) 1 4
      (by decide)).1 (by decide)).1.trans (by decide),
   ((checkAttempt_appends_iff_allowed
      (⟨⟨[some (1, [0, 1, 2, 3])]⟩, ⟨[]⟩, []⟩ : AdvancedRateLimiter Nat) 1 4
      (by decide)).1 (by decide)).2.1.trans (by decide)⟩

/-- C2. With the one-hour timer as the explicit step `expire`: from any state
in which `identifier` has a penalty-box entry, along any sequence of events
that does not contain the expiry of that identifier, every `checkAttempt` for
it returns `allowed = false` with the block-list reason, leaves the attempts
map as the cleanup pass alone leaves it (nothing appended, whatever the list
of the identifier holds) and leaves the penalty entry in place. -/
theorem penaltyBox_blocks_until_expire {κ : Type} [DecidableEq κ]
    (s : AdvancedRateLimiter κ) (identifier : κ)
    (pre post : List (LimiterEvent κ)) (now : Int)
    (hp : s.penaltyBox.has identifier = true)
    (hne : LimiterEvent.expire identifier ∉ pre ++ LimiterEvent.check identifier now :: post) :
    ((s.run pre).checkAttempt identifier now).1
        = { allowed := false, reason := some "IP en lista de bloqueo", remaining := none }
    ∧ ((s.run pre).checkAttempt identifier now).2.attempts
        = ((s.run pre).cleanupOldAttempts now).attempts
    ∧ ((s.run pre).checkAttempt identifier now).2.penaltyBox.has identifier = true
    ∧ (s.run (pre ++ LimiterEvent.check identifier now :: post)).penaltyBox.has identifier
        = true := by
  have hpre : LimiterEvent.expire identifier ∉ pre := fun hm => hne (by simp [hm])
  have h1 := has_run_of_no_expire identifier pre s hpre hp
  have h2 := checkAttempt_blocked (s.run pre) identifier now h1
  refine ⟨by rw [h2], by rw [h2], by rw [h2]; simpa using h1, ?_⟩
  exact has_run_of_no_expire identifier _ s hne hp

/-- Witness for C2: identifier 7 is blocked, its list is empty; identifier 8
is rejected and its older block expires before the call for 7. -/
theorem penaltyBox_blocks_until_expire_witness :
    ((run (⟨⟨[]⟩, ⟨[some (7, 0), some (8, 0)]⟩, [(3600000, 7), (3600000, 8)]⟩ :
        AdvancedRateLimiter Nat) [.check 8 10, .expire 8]).checkAttempt 7 20).1
      = { allowed := false, reason := some "IP en lista de bloqueo", remaining := none } :=
  (penaltyBox_blocks_until_expire
    (⟨⟨[]⟩, ⟨[some (7, 0), some (8, 0)]⟩, [(3600000, 7), (3600000, 8)]⟩ :
      AdvancedRateLimiter Nat) 7 [.check 8 10, .expire 8] [.check 7 30] 20
    (by decide) (by decide)).1

end AdvancedRateLimiter
end CyberShield

namespace CyberShield
namespace AdvancedRateLimiter
variable {κ : Type} [DecidableEq κ]
open JSMap

/-! ## The sliding-window invariant -/

theorem isRecent_self (now : Int) : isRecent now now = true := by
  simp [isRecent, timeWindow]

theorem isRecent_mono {a b t : Int} (hab : a ≤ b) (h : isRecent b t = true) :
    isRecent a t = true := by
  simp only [isRecent, decide_eq_true_eq] at *
  omega

theorem filter_isRecent_of_le {a b : Int} (hab : a ≤ b) (l : List Int) :
    (l.filter (isRecent a)).filter (isRecent b) = l.filter (isRecent b) := by
  rw [List.filter_filter]
  congr 1
  funext t
  by_cases h : isRecent b t = true
  · simp [h, isRecent_mono hab h]
  · simp [h]

theorem length_filter_le_of_imp (p q : Int → Bool) (l : List Int)
    (h : ∀ t, p t = true → q t = true) : (l.filter p).length ≤ (l.filter q).length := by
  have : l.filter p = (l.filter q).filter p := by
    rw [List.filter_filter]
    congr 1
    funext t
    by_cases hp : p t = true
    · simp [hp, h t hp]
    · simp [hp]
  rw [this]
  exact List.length_filter_le _ _

theorem windowInv_init (i : κ) (s : AdvancedRateLimiter κ) (last : Int) (h : s.attempts.WF) :
    windowInv i s [] last := by
  refine ⟨h, by simp, by simp, ?_⟩
  intro lo
  simp

/-- After the cleanup pass at a later time the recent allowed calls are
still in the stored list. -/
theorem windowInv_cleanup (i : κ) (s : AdvancedRateLimiter κ) (A : List Int) (last now : Int)
    (hinv : windowInv i s A last) (hle : last ≤ now) :
    (A.filter (isRecent now)).Sublist
      ((((s.cleanupOldAttempts now).attempts.get i).getD []).filter (isRecent now)) := by
  obtain ⟨hwf, hsub, _, _⟩ := hinv
  rw [get_cleanupOldAttempts s now i hwf, filter_isRecent_idem,
    ← filter_isRecent_of_le hle A]
  exact hsub.filter _

theorem windowInv_checkAttempt (i j : κ) (s : AdvancedRateLimiter κ) (A : List Int)
    (last now : Int) (hinv : windowInv i s A last) (hle : last ≤ now) :
    windowInv i (s.checkAttempt j now).2
      (A ++ if j = i ∧ (s.checkAttempt j now).1.allowed = true then [now] else []) now := by
  have hcl := windowInv_cleanup i s A last now hinv hle
  obtain ⟨hwf, hsub, hlast, hbound⟩ := hinv
  have hwfc := WF_cleanupOldAttempts s now hwf
  have hget := get_cleanupOldAttempts s now i hwf
  have hsubc : (A.filter (isRecent now)).Sublist
      (((s.cleanupOldAttempts now).attempts.get i).getD []) := by
    have h1 := hcl
    rw [hget, filter_isRecent_idem] at h1
    rw [hget]
    exact h1
  have hlast2 : ∀ t ∈ A, t ≤ now := fun t ht => le_trans (hlast t ht) hle
  rcases checkAttempt_cases s j now with ⟨_, ha, h2⟩ | ⟨_, ha, _, h2⟩ | ⟨_, ha, hc, h2⟩
  · rw [h2, ha]
    simpa using ⟨hwfc, hsubc, hlast2, hbound⟩
  · rw [h2, ha]
    simpa [addToPenaltyBox] using ⟨hwfc, hsubc, hlast2, hbound⟩
  · rw [h2, ha]
    by_cases hji : j = i
    · subst hji
      simp only [and_self, if_true]
      refine ⟨WF_set _ _ _ hwfc, ?_, ?_, ?_⟩
      · simp only [JSMap.get_set, if_true, Option.getD_some, List.filter_append]
        have : [now].filter (isRecent now) = [now] := by simp [isRecent_self]
        rw [this]
        exact hsubc.append (List.Sublist.refl _)
      · intro t ht
        rcases List.mem_append.mp ht with h | h
        · exact hlast2 t h
        · simp only [List.mem_singleton] at h
          omega
      · intro lo
        by_cases hin : lo ≤ now ∧ now - lo < timeWindow
        · have h4 : (A.filter (fun t => decide (lo ≤ t ∧ t - lo < timeWindow))).length
              ≤ (A.filter (isRecent now)).length := by
            have hA : A.filter (fun t => decide (lo ≤ t ∧ t - lo < timeWindow))
                = (A.filter (isRecent now)).filter
                    (fun t => decide (lo ≤ t ∧ t - lo < timeWindow)) := by
              rw [List.filter_filter]
              apply List.filter_congr
              intro t ht
              have := hlast2 t ht
              by_cases hp : lo ≤ t ∧ t - lo < timeWindow
              · have hr : isRecent now t = true := by
                  simp only [isRecent, decide_eq_true_eq]
                  omega
                simp [hp, hr]
              · simp [hp]
            rw [hA]
            exact List.length_filter_le _ _
          have h5 := hcl.length_le
          simp only [List.filter_append, List.length_append]
          have h6 : ([now].filter (fun t => decide (lo ≤ t ∧ t - lo < timeWindow))).length
              ≤ 1 := (List.length_filter_le _ _)
          omega
        · have h6 : [now].filter (fun t => decide (lo ≤ t ∧ t - lo < timeWindow)) = [] := by
            simp [hin]
          simp only [List.filter_append, h6, List.append_nil]
          exact hbound lo
    · have hif : (if j = i ∧ true = true then [now] else []) = ([] : List Int) :=
        if_neg (fun h => hji h.1)
      rw [hif, List.append_nil]
      refine ⟨WF_set _ _ _ hwfc, ?_, hlast2, hbound⟩
      simp only [JSMap.get_set, hji, if_false]
      exact hsubc

theorem windowInv_expire (i j : κ) (s : AdvancedRateLimiter κ) (A : List Int) (last : Int)
    (hinv : windowInv i s A last) : windowInv i (s.expire j) A last := by
  unfold expire
  cases s.timers.find? (fun t => decide (t.2 = j)) with
  | none => exact hinv
  | some t => exact hinv

theorem windowInv_run (i : κ) (tr : List (LimiterEvent κ)) :
    ∀ (s : AdvancedRateLimiter κ) (A : List Int) (last : Int), windowInv i s A last →
      (∀ r ∈ readings tr, last ≤ r) → (readings tr).Pairwise (fun a b => a ≤ b) →
      windowInv i (s.run tr) (A ++ allowedTimes i s tr) ((readings tr).getLastD last) := by
  induction tr with
  | nil =>
    intro s A last hinv _ _
    simpa [run, allowedTimes, readings] using hinv
  | cons e rest ih =>
    intro s A last hinv hle hpw
    cases e with
    | check j now =>
      simp only [readings, List.mem_cons, forall_eq_or_imp, List.pairwise_cons] at hle hpw
      have hstep := windowInv_checkAttempt i j s A last now hinv hle.1
      have hrec := ih (s.checkAttempt j now).2 _ now hstep hpw.1 hpw.2
      have hlastD : (readings (LimiterEvent.check j now :: rest)).getLastD last
          = (readings rest).getLastD now := by
        simp only [readings]
        cases readings rest <;> simp [List.getLastD]
      rw [hlastD]
      have hrun : s.run (LimiterEvent.check j now :: rest)
          = (s.checkAttempt j now).2.run rest := by simp [run, step]
      rw [hrun]
      have hat : allowedTimes i s (LimiterEvent.check j now :: rest)
          = (if j = i ∧ (s.checkAttempt j now).1.allowed = true then [now] else [])
            ++ allowedTimes i (s.checkAttempt j now).2 rest := by
        simp only [allowedTimes]
        split <;> simp
      rw [hat, ← List.append_assoc]
      exact hrec
    | expire j =>
      simp only [readings] at hle hpw ⊢
      have hrec := ih (s.expire j) A last (windowInv_expire i j s A last hinv) hle hpw
      simpa [run, step, allowedTimes] using hrec

theorem allowedTimes_subset_readings (i : κ) (tr : List (LimiterEvent κ)) :
    ∀ (s : AdvancedRateLimiter κ), ∀ t ∈ allowedTimes i s tr, t ∈ readings tr := by
  induction tr with
  | nil => intro s t ht; simp [allowedTimes] at ht
  | cons e rest ih =>
    intro s t ht
    cases e with
    | check j now =>
      simp only [allowedTimes] at ht
      simp only [readings, List.mem_cons]
      split at ht
      · rcases List.mem_cons.mp ht with h | h
        · exact Or.inl h
        · exact Or.inr (ih _ t h)
      · exact Or.inr (ih _ t ht)
    | expire j =>
      simp only [allowedTimes] at ht
      simpa [readings] using ih _ t ht

theorem readings_append (a b : List (LimiterEvent κ)) :
    readings (a ++ b) = readings a ++ readings b := by
  induction a with
  | nil => simp [readings]
  | cons e rest ih =>
    cases e <;> simp [readings, ih]

end AdvancedRateLimiter
end CyberShield

namespace CyberShield
namespace AdvancedRateLimiter
open JSMap

/-- C1. From any well-formed state, along any sequence of events whose clock
readings are non-decreasing and lie pairwise less than `timeWindow` apart:
once `maxAttempts` (5) calls for `identifier` have been allowed, a later
call for it returns `allowed = false`, the identifier has a penalty-box entry
right after that call, and it keeps it for the rest of the sequence as long
as its expiry timer does not fire. -/
theorem checkAttempt_rejects_after_limit {κ : Type} [DecidableEq κ]
    (s : AdvancedRateLimiter κ) (identifier : κ)
    (pre post : List (LimiterEvent κ)) (now : Int)
    (hwf : s.attempts.WF)
    (hmono : (readings (pre ++ LimiterEvent.check identifier now :: post)).Pairwise
      (fun a b => a ≤ b))
    (hwin : ∀ a ∈ readings (pre ++ LimiterEvent.check identifier now :: post),
      ∀ b ∈ readings (pre ++ LimiterEvent.check identifier now :: post), b - a < timeWindow)
    (hfive : maxAttempts ≤ (allowedTimes identifier s pre).length) :
    ((s.run pre).checkAttempt identifier now).1.allowed = false
    ∧ ((s.run pre).checkAttempt identifier now).2.penaltyBox.has identifier = true
    ∧ (LimiterEvent.expire identifier ∉ post →
        (s.run (pre ++ LimiterEvent.check identifier now :: post)).penaltyBox.has identifier
          = true) := by
  rw [readings_append] at hmono hwin
  simp only [readings] at hmono hwin
  have hpre : (readings pre).Pairwise (fun a b => a ≤ b) := (List.pairwise_append.mp hmono).1
  have hnow : ∀ r ∈ readings pre, r ≤ now := fun r hr =>
    (List.pairwise_append.mp hmono).2.2 r hr now (List.mem_cons_self _ _)
  -- the invariant after `pre`, started at the first reading
  have hinv : ∃ last, last ≤ now
      ∧ windowInv identifier (s.run pre) (allowedTimes identifier s pre) last := by
    cases hr : readings pre with
    | nil =>
      refine ⟨now, le_refl _, ?_⟩
      have := windowInv_run identifier pre s [] now (windowInv_init identifier s now hwf)
        (by simp [hr]) hpre
      simpa [hr] using this
    | cons r0 rest =>
      have hr0 : ∀ r ∈ readings pre, r0 ≤ r := by
        intro r hmem
        rw [hr] at hmem hpre
        rcases List.mem_cons.mp hmem with h | h
        · omega
        · exact (List.pairwise_cons.mp hpre).1 r h
      refine ⟨(readings pre).getLastD r0, ?_, ?_⟩
      · have hmem : (readings pre).getLastD r0 ∈ readings pre := by
          rw [hr]
          simp only [List.getLastD_cons]
          exact List.getLastD_mem_cons _ _
        exact hnow _ hmem
      · simpa using windowInv_run identifier pre s [] r0
          (windowInv_init identifier s r0 hwf) hr0 hpre
  obtain ⟨last, hle, hI⟩ := hinv
  have hsub := windowInv_cleanup identifier (s.run pre) _ last now hI hle
  have hall : (allowedTimes identifier s pre).filter (isRecent now)
      = allowedTimes identifier s pre := by
    rw [List.filter_eq_self]
    intro t ht
    have hmem := allowedTimes_subset_readings identifier pre s t ht
    have := hwin t (List.mem_append_left _ hmem) now
      (List.mem_append_right _ (List.mem_cons_self _ _))
    simpa [isRecent] using this
  rw [hall] at hsub
  have hcount := hsub.length_le
  have key : ((s.run pre).checkAttempt identifier now).1.allowed = false
      ∧ ((s.run pre).checkAttempt identifier now).2.penaltyBox.has identifier = true := by
    rcases checkAttempt_cases (s.run pre) identifier now with
      ⟨hp, ha, h2⟩ | ⟨_, ha, _, h2⟩ | ⟨_, _, hc, _⟩
    · exact ⟨ha, by rw [h2]; simpa using hp⟩
    · refine ⟨ha, ?_⟩
      rw [h2]
      simp [addToPenaltyBox, JSMap.has, JSMap.get_set]
    · omega
  refine ⟨key.1, key.2, fun hne => ?_⟩
  rw [run_append]
  have : (s.run pre).run (LimiterEvent.check identifier now :: post)
      = ((s.run pre).checkAttempt identifier now).2.run post := by simp [run, step]
  rw [this]
  exact has_run_of_no_expire identifier post _ hne key.2

/-- Witness for C1: five allowed calls for identifier 1 (and one for 2), then
a sixth call for 1, all inside one window. -/
theorem checkAttempt_rejects_after_limit_witness :
    ((run (new : AdvancedRateLimiter Nat)
        [.check 1 0, .check 1 1, .check 2 1, .check 1 2, .check 1 3, .check 1 4]).checkAttempt
        1 5).1.allowed = false :=
  (checkAttempt_rejects_after_limit (new : AdvancedRateLimiter Nat) 1
    [.check 1 0, .check 1 1, .check 2 1, .check 1 2, .check 1 3, .check 1 4] [.check 1 9] 5
    (by decide) (by decide) (by decide) (by decide)).1

/-- C3. From any well-formed state, along any sequence of events with
non-decreasing clock readings (one reading per call), a time interval
`[lo, hi]` shorter than `timeWindow` contains at most `maxAttempts` (5) calls
for `identifier` that returned `allowed = true`. -/
theorem allowed_calls_in_window_le {κ : Type} [DecidableEq κ]
    (s : AdvancedRateLimiter κ) (identifier : κ) (tr : List (LimiterEvent κ)) (lo hi : Int)
    (hwf : s.attempts.WF)
    (hmono : (readings tr).Pairwise (fun a b => a ≤ b))
    (hshort : hi - lo < timeWindow) :
    ((allowedTimes identifier s tr).filter (inInterval lo hi)).length ≤ maxAttempts := by
  have hinv : ∃ last, windowInv identifier (s.run tr) (allowedTimes identifier s tr) last := by
    cases hr : readings tr with
    | nil =>
      refine ⟨0, ?_⟩
      have := windowInv_run identifier tr s [] 0 (windowInv_init identifier s 0 hwf)
        (by simp [hr]) hmono
      simpa [hr] using this
    | cons r0 rest =>
      have hr0 : ∀ r ∈ readings tr, r0 ≤ r := by
        intro r hmem
        rw [hr] at hmem hmono
        rcases List.mem_cons.mp hmem with h | h
        · omega
        · exact (List.pairwise_cons.mp hmono).1 r h
      have := windowInv_run identifier tr s [] r0 (windowInv_init identifier s r0 hwf)
        hr0 hmono
      exact ⟨(readings tr).getLastD r0, by simpa using this⟩
  obtain ⟨last, _, _, _, hbound⟩ := hinv
  refine le_trans (length_filter_le_of_imp _ _ _ ?_) (hbound lo)
  intro t ht
  simp only [inInterval, decide_eq_true_eq] at ht ⊢
  omega

/-- Witness for C3: eight calls for identifier 1 inside `[0, 899999]`, five
of them allowed. -/
theorem allowed_calls_in_window_le_witness :
    ((allowedTimes 1 (new : AdvancedRateLimiter Nat)
        [.check 1 0, .check 1 1, .check 1 2, .check 1 3, .check 1 4, .check 1 5,
          .check 1 6, .check 1 899999]).filter (inInterval 0 899999)).length ≤ maxAttempts :=
  allowed_calls_in_window_le (new : AdvancedRateLimiter Nat) 1
    [.check 1 0, .check 1 1, .check 1 2, .check 1 3, .check 1 4, .check 1 5,
      .check 1 6, .check 1 899999] 0 899999 (by decide) (by decide) (by decide)

end AdvancedRateLimiter
end CyberShield

namespace CyberShield
namespace ContactForm
variable {F : Type}

/-! ## The retrying `ContactForm` -/

theorem formRun_append (dom : FormDom F) (s : ContactForm F) (a b : List (FormEvent F)) :
    run dom s (a ++ b) = run dom (run dom s a) b := by
  simp [run, List.foldl_append]

theorem flightInv_step (dom : FormDom F) (s : ContactForm F) (e : FormEvent F)
    (h : flightInv s) : flightInv (step dom s e) := by
  obtain ⟨form, status, isSubmitting, retryCount, now, timers, flights, sends, validations⟩ := s
  have hshow : ∀ (s : ContactForm F) (m : ContactMessage) (k : StatusKind),
      (s.showStatus m k).isSubmitting = s.isSubmitting
      ∧ (s.showStatus m k).flights = s.flights := by
    intro s m k
    unfold showStatus
    cases s.status with
    | none => exact ⟨rfl, rfl⟩
    | some r => by_cases hk : k = StatusKind.success <;> simp [hk]
  have hsubmit : ∀ s : ContactForm F, flightInv s → flightInv (s.handleSubmit dom) := by
    intro s hs
    unfold handleSubmit
    by_cases h1 : s.isSubmitting = true
    · simpa [h1] using hs
    · by_cases h2 : dom.validateForm s.form = true
      · rcases hs with ⟨hs1, _⟩ | ⟨_, hs2⟩
        · exact absurd hs1 h1
        · simp [h1, h2, flightInv, hs2]
      · rcases hs with ⟨hs1, _⟩ | ⟨hs1, hs2⟩
        · exact absurd hs1 h1
        · simp [h1, h2, flightInv, hs1, hs2]
  have hcatch : ∀ (s : ContactForm F) (k : Nat), s.flights.length = 1 → k < 1 →
      flightInv (s.handleSubmitCatch k) := by
    intro s k hlen hk
    have hk0 : k = 0 := by omega
    subst hk0
    obtain ⟨f, hf⟩ := List.length_eq_one.mp hlen
    right
    unfold handleSubmitCatch
    by_cases hr : s.retryCount < RETRY_ATTEMPTS
    · rw [if_pos hr]
      refine ⟨rfl, ?_⟩
      simp [(hshow _ _ _).2, hf]
    · rw [if_neg hr]
      refine ⟨rfl, ?_⟩
      simp [(hshow _ _ _).2, hf]
  cases e with
  | submit => exact hsubmit _ h
  | edit f => exact h
  | tick dt => exact h
  | settle k outcome =>
    simp only [step]
    rcases h with ⟨h1, h2⟩ | ⟨h1, h2⟩
    · simp only at h1 h2
      obtain ⟨f, hf⟩ := List.length_eq_one.mp h2
      subst hf
      cases k with
      | succ k => simpa [flightInv] using h1
      | zero =>
        cases f with
        | awaitingDelay due => simpa [flightInv] using h1
        | awaitingFetch =>
          cases outcome with
          | rejected =>
            simp only [List.get?_cons_zero, sendWithRetryCatch]
            split
            · left
              exact ⟨h1, by simp⟩
            · exact hcatch _ 0 (by simp) (by omega)
          | response st =>
            simp only [List.get?_cons_zero, handleSubmitResponse]
            split
            · right
              refine ⟨rfl, ?_⟩
              simp [(hshow _ _ _).2]
            · exact hcatch _ 0 (by simp) (by omega)
    · simp only at h1 h2
      subst h2
      simpa [flightInv] using h1
  | delayDone k =>
    simp only [step]
    rcases h with ⟨h1, h2⟩ | ⟨h1, h2⟩
    · simp only at h1 h2
      obtain ⟨f, hf⟩ := List.length_eq_one.mp h2
      subst hf
      cases k with
      | succ k => simpa [flightInv] using h1
      | zero =>
        cases f with
        | awaitingFetch => simpa [flightInv] using h1
        | awaitingDelay due =>
          simp only [List.get?_cons_zero]
          split
          · left
            exact ⟨h1, by simp [sendWithRetryAgain]⟩
          · simpa [flightInv] using h1
    · simp only at h1 h2
      subst h2
      simpa [flightInv] using h1
  | fire k =>
    simp only [step]
    cases hget : timers.get? k with
    | none => simpa [hget] using h
    | some t =>
      simp only [hget]
      split
      · cases t.action with
        | retrySubmit => exact hsubmit _ h
        | clearStatus => exact h
      · exact h

theorem flightInv_run (dom : FormDom F) (tr : List (FormEvent F)) :
    ∀ s : ContactForm F, flightInv s → flightInv (run dom s tr) := by
  induction tr with
  | nil => intro s h; simpa [run] using h
  | cons e rest ih =>
    intro s h
    simpa [run] using ih _ (flightInv_step dom s e h)

end ContactForm
end CyberShield

namespace CyberShield
namespace ContactForm

/-- C6 (the code departs from the claim). On an always-valid form, from the
constructor state, when `fetch` rejects on every call the submission never
reaches a terminal outcome: after `n` rounds of rejection, delay and retry
inside `sendWithRetry`, for every `n`, `n + 1` sends have been made, the
call is still suspended on a `fetch`, `isSubmitting` is still `true`,
`retryCount` is still 0 and the status element is untouched. -/
theorem sendWithRetry_rejections_never_end (status : Option (StatusRegion ContactMessage))
    (now n : Nat) :
    run alwaysValid (ContactForm.new () status now) (rejectRounds n)
      = { form := (), status := status, isSubmitting := true, retryCount := 0,
          now := now + n * RETRY_DELAY, timers := [], flights := [Flight.awaitingFetch],
          sends := n + 1, validations := 1 } := by
  induction n with
  | zero => simp [rejectRounds, run, step, handleSubmit, ContactForm.new, alwaysValid]
  | succ n ih =>
    rw [rejectRounds, formRun_append, ih]
    simp [rejectRound, run, step, sendWithRetryCatch, sendWithRetryAgain, RETRY_ATTEMPTS,
      RETRY_DELAY]
    ring

/-- C7 as stated fails: after three consecutive HTTP 500 responses, starting
from the constructor state with a valid form, a third retry is scheduled,
`retryCount` is 3 and the notice is the retry warning, not the final error. -/
theorem three_failures_not_terminal :
    (run alwaysValid (ContactForm.new () (some ⟨none, none⟩) 0)
        (failureTrace [500, 500, 500])).retryScheduled = true
    ∧ (run alwaysValid (ContactForm.new () (some ⟨none, none⟩) 0)
        (failureTrace [500, 500, 500])).retryCount = 3
    ∧ (run alwaysValid (ContactForm.new () (some ⟨none, none⟩) 0)
        (failureTrace [500, 500, 500])).status
        = some ⟨some (ContactMessage.retrying 3), some StatusKind.warning⟩
    ∧ ¬ ((run alwaysValid (ContactForm.new () (some ⟨none, none⟩) 0)
          (failureTrace [500, 500, 500])).status
          = some ⟨some ContactMessage.failed, some StatusKind.error⟩
        ∧ (run alwaysValid (ContactForm.new () (some ⟨none, none⟩) 0)
          (failureTrace [500, 500, 500])).retryScheduled = false
        ∧ (run alwaysValid (ContactForm.new () (some ⟨none, none⟩) 0)
          (failureTrace [500, 500, 500])).isSubmitting = false
        ∧ (run alwaysValid (ContactForm.new () (some ⟨none, none⟩) 0)
          (failureTrace [500, 500, 500])).retryCount = 0) := by
  decide

/-- C7 amended. Starting from the constructor state with a status element
and a form that is valid and stays unchanged, if four consecutive sends (the
first one and `RETRY_ATTEMPTS` = 3 retries, each fired `RETRY_DELAY` after
the failure before it) get a non-2xx response, then after the fourth failure
the pipeline is in terminal failure: the final error notice is shown, no
timer is pending (so no retry is scheduled), no call is suspended,
`isSubmitting` is false, `retryCount` is 0 and four sends were made. -/
theorem four_failures_terminal {F : Type} (dom : FormDom F) (form : F)
    (region : StatusRegion ContactMessage) (now c₁ c₂ c₃ c₄ : Nat)
    (hvalid : dom.validateForm form = true)
    (h₁ : responseOk c₁ = false) (h₂ : responseOk c₂ = false)
    (h₃ : responseOk c₃ = false) (h₄ : responseOk c₄ = false) :
    run dom (ContactForm.new form (some region) now) (failureTrace [c₁, c₂, c₃, c₄])
      = { form := form,
          status := some ⟨some ContactMessage.failed, some StatusKind.error⟩,
          isSubmitting := false, retryCount := 0, now := now + 3 * RETRY_DELAY,
          timers := [], flights := [], sends := 4, validations := 4 } := by
  simp [failureTrace, run, step, handleSubmit, handleSubmitResponse, handleSubmitCatch,
    showStatus, ContactForm.new, hvalid, h₁, h₂, h₃, h₄, RETRY_ATTEMPTS, RETRY_DELAY]

/-- Witness for the amended C7: statuses 500, 502, 503, 404. -/
theorem four_failures_terminal_witness :
    run alwaysValid (ContactForm.new () (some ⟨none, none⟩) 0)
        (failureTrace [500, 502, 503, 404])
      = { form := (),
          status := some ⟨some ContactMessage.failed, some StatusKind.error⟩,
          isSubmitting := false, retryCount := 0, now := 0 + 3 * RETRY_DELAY,
          timers := [], flights := [], sends := 4, validations := 4 } :=
  four_failures_terminal alwaysValid () ⟨none, none⟩ 0 500 502 503 404 rfl
    (by decide) (by decide) (by decide) (by decide)

end ContactForm
end CyberShield

namespace CyberShield
namespace ContactForm

/-- C8. Starting from the constructor state with a status element and a form
that is valid and stays unchanged: when the first send gets a non-2xx
response (such as 500) exactly one retry is scheduled, due `RETRY_DELAY`
(1000 ms) after the failure; when that timer fires and the second send gets
a 2xx response (such as 200), the pipeline has made exactly two sends and
ends in success with the form reset, `retryCount = 0`,
`isSubmitting = false`, nothing suspended and the success notice shown with
a single clearing timer due 5000 ms later; that timer does not fire earlier,
and when it fires the notice is cleared. -/
theorem retry_then_success {F : Type} (dom : FormDom F) (form : F)
    (region : StatusRegion ContactMessage) (now c₁ c₂ : Nat)
    (hvalid : dom.validateForm form = true)
    (h₁ : responseOk c₁ = false) (h₂ : responseOk c₂ = true) :
    run dom (ContactForm.new form (some region) now) (failureTrace [c₁])
      = { form := form,
          status := some ⟨some (ContactMessage.retrying 1), some StatusKind.warning⟩,
          isSubmitting := false, retryCount := 1, now := now,
          timers := [⟨now + RETRY_DELAY, TimerAction.retrySubmit⟩], flights := [],
          sends := 1, validations := 1 }
    ∧ run dom (ContactForm.new form (some region) now) (failureTrace [c₁, c₂])
      = { form := dom.reset form,
          status := some ⟨some ContactMessage.sent, some StatusKind.success⟩,
          isSubmitting := false, retryCount := 0, now := now + RETRY_DELAY,
          timers := [⟨now + RETRY_DELAY + 5000, TimerAction.clearStatus⟩], flights := [],
          sends := 2, validations := 2 }
    ∧ (∀ dt, dt < 5000 →
        (run dom (ContactForm.new form (some region) now)
          (failureTrace [c₁, c₂] ++ [.tick dt, .fire 0])).status
          = some ⟨some ContactMessage.sent, some StatusKind.success⟩)
    ∧ run dom (ContactForm.new form (some region) now)
          (failureTrace [c₁, c₂] ++ [.tick 5000, .fire 0])
      = { form := dom.reset form, status := some ⟨none, none⟩,
          isSubmitting := false, retryCount := 0, now := now + RETRY_DELAY + 5000,
          timers := [], flights := [], sends := 2, validations := 2 } := by
  have hfirst : run dom (ContactForm.new form (some region) now) (failureTrace [c₁])
      = { form := form,
          status := some ⟨some (ContactMessage.retrying 1), some StatusKind.warning⟩,
          isSubmitting := false, retryCount := 1, now := now,
          timers := [⟨now + RETRY_DELAY, TimerAction.retrySubmit⟩], flights := [],
          sends := 1, validations := 1 } := by
    simp [failureTrace, run, step, handleSubmit, handleSubmitResponse, handleSubmitCatch,
      showStatus, ContactForm.new, hvalid, h₁, RETRY_ATTEMPTS, RETRY_DELAY]
  have hsecond : run dom (ContactForm.new form (some region) now) (failureTrace [c₁, c₂])
      = { form := dom.reset form,
          status := some ⟨some ContactMessage.sent, some StatusKind.success⟩,
          isSubmitting := false, retryCount := 0, now := now + RETRY_DELAY,
          timers := [⟨now + RETRY_DELAY + 5000, TimerAction.clearStatus⟩], flights := [],
          sends := 2, validations := 2 } := by
    simp [failureTrace, run, step, handleSubmit, handleSubmitResponse, handleSubmitCatch,
      showStatus, ContactForm.new, hvalid, h₁, h₂, RETRY_ATTEMPTS, RETRY_DELAY]
  refine ⟨hfirst, hsecond, ?_, ?_⟩
  · intro dt hdt
    rw [formRun_append, hsecond]
    have hnot : ¬ (now + RETRY_DELAY + 5000 ≤ now + RETRY_DELAY + dt) := by omega
    simp [run, step, hnot]
  · rw [formRun_append, hsecond]
    simp [run, step, clearStatus]

/-- Witness for C8: HTTP 500 then HTTP 200 on an always-valid form. -/
theorem retry_then_success_witness :
    (run alwaysValid (ContactForm.new () (some ⟨none, none⟩) 0)
        (failureTrace [500, 200])).sends = 2
    ∧ (run alwaysValid (ContactForm.new () (some ⟨none, none⟩) 0)
        (failureTrace [500, 200])).status
        = some ⟨some ContactMessage.sent, some StatusKind.success⟩ :=
  ⟨congrArg ContactForm.sends
      (retry_then_success alwaysValid () ⟨none, none⟩ 0 500 200 rfl (by decide)
        (by decide)).2.1,
   congrArg ContactForm.status
      (retry_then_success alwaysValid () ⟨none, none⟩ 0 500 200 rfl (by decide)
        (by decide)).2.1⟩

/-- C10. In every state reachable from the constructor state by user
submits, form edits, settlements of a `fetch`, retry and delay timers firing
and time passing, at most one `fetch` is outstanding. In particular, when the
user submits by hand during the retry delay and the scheduled retry then
fires, the retry makes no second send: one `fetch` is outstanding and two
sends were made in all. -/
theorem outstanding_le_one {F : Type} (dom : FormDom F) (form : F)
    (status : Option (StatusRegion ContactMessage)) (now : Nat) (tr : List (FormEvent F)) :
    (run dom (ContactForm.new form status now) tr).outstanding ≤ 1
    ∧ (run alwaysValid (ContactForm.new () none 0)
        [.submit, .settle 0 (.response 500), .tick 400, .submit, .tick 600, .fire 0]).outstanding
        = 1
    ∧ (run alwaysValid (ContactForm.new () none 0)
        [.submit, .settle 0 (.response 500), .tick 400, .submit, .tick 600, .fire 0]).sends
        = 2 := by
  refine ⟨?_, by decide, by decide⟩
  have hinit : flightInv (ContactForm.new form status now) := Or.inr ⟨rfl, rfl⟩
  have hinv := flightInv_run dom tr _ hinit
  have hle : (run dom (ContactForm.new form status now) tr).outstanding
      ≤ (run dom (ContactForm.new form status now) tr).flights.length :=
    List.countP_le_length _
  rcases hinv with ⟨_, h⟩ | ⟨_, h⟩
  · omega
  · rw [h] at hle
    simp at hle
    omega

end ContactForm

/-- C9. A `handleSubmit` that finds `isSubmitting` true is a no-op on the
pipeline, whatever the form holds. In `ContactForm` (Menú.js) the state is
left exactly as it was: no send, no validation, no timer, same
`isSubmitting` and `retryCount`. In `FormValidator` (form-validation.js) no
send is started, no validation runs, no call is suspended, `isSubmitting`
stays true and the form is untouched; that class has no retry at all. -/
theorem handleSubmit_while_submitting {F : Type} (dom : FormDom F) (s : ContactForm F)
    (v : FormValidator F) (hs : s.isSubmitting = true) (hv : v.isSubmitting = true) :
    s.handleSubmit dom = s
    ∧ (v.handleSubmit dom).sends = v.sends
    ∧ (v.handleSubmit dom).validations = v.validations
    ∧ (v.handleSubmit dom).pendingFetches = v.pendingFetches
    ∧ (v.handleSubmit dom).isSubmitting = true
    ∧ (v.handleSubmit dom).form = v.form := by
  have hshow : ∀ (m : String) (k : StatusKind),
      (v.showStatus m k).sends = v.sends ∧ (v.showStatus m k).validations = v.validations
      ∧ (v.showStatus m k).pendingFetches = v.pendingFetches
      ∧ (v.showStatus m k).isSubmitting = v.isSubmitting
      ∧ (v.showStatus m k).form = v.form := by
    intro m k
    unfold FormValidator.showStatus
    cases v.statusElement with
    | none => exact ⟨rfl, rfl, rfl, rfl, rfl⟩
    | some r =>
      by_cases hk : k = StatusKind.success ∨ k = StatusKind.warning
      · simp [hk]
      · simp [hk]
  refine ⟨by simp [ContactForm.handleSubmit, hs], ?_⟩
  unfold FormValidator.handleSubmit
  rw [if_pos hv]
  obtain ⟨h1, h2, h3, h4, h5⟩ := hshow
    "Por favor espera... estamos procesando tu envío anterior." StatusKind.warning
  exact ⟨h1, h2, h3, h4.trans hv, h5⟩

/-- Witness for C9: both forms are in the middle of a submission. -/
theorem handleSubmit_while_submitting_witness :
    ContactForm.handleSubmit alwaysValid
        ({ form := (), status := some ⟨none, none⟩, isSubmitting := true, retryCount := 1,
           now := 10, timers := [], flights := [Flight.awaitingFetch], sends := 2,
           validations := 2 } : ContactForm Unit)
      = { form := (), status := some ⟨none, none⟩, isSubmitting := true, retryCount := 1,
          now := 10, timers := [], flights := [Flight.awaitingFetch], sends := 2,
          validations := 2 } :=
  (handleSubmit_while_submitting alwaysValid
    ({ form := (), status := some ⟨none, none⟩, isSubmitting := true, retryCount := 1,
       now := 10, timers := [], flights := [Flight.awaitingFetch], sends := 2,
       validations := 2 } : ContactForm Unit)
    ({ form := (), statusElement := some ⟨none, none⟩, isSubmitting := true, now := 10,
       timers := [], pendingFetches := 1, sends := 1, validations := 1 } : FormValidator Unit)
    rfl rfl).1

end CyberShield

namespace CyberShield
namespace Regex

/-! ## Lemmas on regular expressions -/

theorem mem_splits (s x y : JSString) : (x, y) ∈ splits s ↔ x ++ y = s := by
  induction s generalizing x with
  | nil => simp [splits]
  | cons u s ih =>
    simp only [splits, List.mem_cons, List.mem_map, Prod.mk.injEq]
    constructor
    · rintro (⟨rfl, rfl⟩ | ⟨⟨a, b⟩, hab, rfl, rfl⟩)
      · rfl
      · simp [(ih a).mp hab]
    · intro h
      cases x with
      | nil => left; exact ⟨rfl, by simpa using h⟩
      | cons v x =>
        right
        simp only [List.cons_append, List.cons.injEq] at h
        exact ⟨(x, y), (ih x).mpr h.2, by simp [h.1], rfl⟩

theorem any_splits (s : JSString) (f : JSString × JSString → Bool) :
    (splits s).any f = true ↔ ∃ x y, x ++ y = s ∧ f (x, y) = true := by
  simp only [List.any_eq_true]
  constructor
  · rintro ⟨⟨x, y⟩, hm, hf⟩
    exact ⟨x, y, (mem_splits s x y).mp hm, hf⟩
  · rintro ⟨x, y, hs, hf⟩
    exact ⟨(x, y), (mem_splits s x y).mpr hs, hf⟩

theorem accepts_cls (p : Nat → Bool) (pre s post : JSString) :
    accepts (cls p) pre s post = true ↔ ∃ u, s = [u] ∧ p u = true := by
  cases s with
  | nil => simp [accepts]
  | cons u t =>
    cases t with
    | nil => simp [accepts]
    | cons v w => simp [accepts]

theorem accepts_seq (a b : Regex) (pre s post : JSString) :
    accepts (seq a b) pre s post = true ↔
      ∃ x y, x ++ y = s ∧ accepts a pre x (y ++ post) = true
        ∧ accepts b (pre ++ x) y post = true := by
  simp only [accepts, any_splits, Bool.and_eq_true]

theorem accepts_alt (a b : Regex) (pre s post : JSString) :
    accepts (alt a b) pre s post = true ↔
      accepts a pre s post = true ∨ accepts b pre s post = true := by
  simp [accepts]

theorem accepts_star (r : Regex) (pre s post : JSString) :
    accepts (star r) pre s post = starLoop (accepts r) s.length pre s post := rfl

theorem accepts_rep (lo hi : Nat) (r : Regex) (pre s post : JSString) :
    accepts (rep lo hi r) pre s post = repLoop (accepts r) hi lo pre s post := rfl

theorem starLoop_forall (P : Nat → Prop) (f : JSString → JSString → JSString → Bool)
    (hf : ∀ pre s post, f pre s post = true → ∀ u ∈ s, P u) :
    ∀ (n : Nat) (pre s post : JSString), starLoop f n pre s post = true → ∀ u ∈ s, P u := by
  intro n
  induction n with
  | zero =>
    intro pre s post h u hu
    simp only [starLoop, List.isEmpty_iff] at h
    simp [h] at hu
  | succ n ih =>
    intro pre s post h u hu
    simp only [starLoop, Bool.or_eq_true, List.isEmpty_iff, any_splits,
      Bool.and_eq_true] at h
    rcases h with h | ⟨x, y, hxy, ⟨_, hfx⟩, hrest⟩
    · simp [h] at hu
    · rw [← hxy] at hu
      rcases List.mem_append.mp hu with hu | hu
      · exact hf _ _ _ hfx u hu
      · exact ih _ _ _ hrest u hu

theorem repLoop_forall (P : Nat → Prop) (f : JSString → JSString → JSString → Bool)
    (hf : ∀ pre s post, f pre s post = true → ∀ u ∈ s, P u) :
    ∀ (hi lo : Nat) (pre s post : JSString), repLoop f hi lo pre s post = true →
      ∀ u ∈ s, P u := by
  intro hi
  induction hi with
  | zero =>
    intro lo pre s post h u hu
    simp only [repLoop, Bool.and_eq_true, List.isEmpty_iff] at h
    simp [h.2] at hu
  | succ hi ih =>
    intro lo pre s post h u hu
    simp only [repLoop, Bool.or_eq_true, Bool.and_eq_true, List.isEmpty_iff, any_splits] at h
    rcases h with h | ⟨x, y, hxy, hfx, hrest⟩
    · simp [h.2] at hu
    · rw [← hxy] at hu
      rcases List.mem_append.mp hu with hu | hu
      · exact hf _ _ _ hfx u hu
      · exact ih _ _ _ _ hrest u hu

/-- Every code unit of a matched piece lies in a class of the expression. -/
theorem accepts_within (P : Nat → Prop) (r : Regex) :
    within P r → ∀ pre s post, accepts r pre s post = true → ∀ u ∈ s, P u := by
  induction r with
  | cls p =>
    intro hw pre s post h u hu
    obtain ⟨v, rfl, hv⟩ := (accepts_cls p pre s post).mp h
    simp only [List.mem_singleton] at hu
    exact hu ▸ hw v hv
  | eps =>
    intro _ pre s post h u hu
    simp only [accepts, List.isEmpty_iff] at h
    simp [h] at hu
  | seq a b iha ihb =>
    intro hw pre s post h u hu
    obtain ⟨x, y, hxy, hx, hy⟩ := (accepts_seq a b pre s post).mp h
    rw [← hxy] at hu
    rcases List.mem_append.mp hu with hu | hu
    · exact iha hw.1 _ _ _ hx u hu
    · exact ihb hw.2 _ _ _ hy u hu
  | alt a b iha ihb =>
    intro hw pre s post h u hu
    rcases (accepts_alt a b pre s post).mp h with h | h
    · exact iha hw.1 _ _ _ h u hu
    · exact ihb hw.2 _ _ _ h u hu
  | star r ih =>
    intro hw pre s post h
    exact starLoop_forall P _ (ih hw) _ _ _ _ h
  | rep lo hi r ih =>
    intro hw pre s post h
    exact repLoop_forall P _ (ih hw) _ _ _ _ _ h
  | wordBoundary =>
    intro _ pre s post h u hu
    simp only [accepts, Bool.and_eq_true, List.isEmpty_iff] at h
    simp [h.1] at hu
  | notAhead r _ =>
    intro _ pre s post h u hu
    simp only [accepts, Bool.and_eq_true, List.isEmpty_iff] at h
    simp [h.1] at hu

/-- Zero or more code units of one class: all of them are in the class. -/
theorem starLoop_cls (p : Nat → Bool) :
    ∀ (n : Nat) (pre s post : JSString), s.length ≤ n →
      (starLoop (accepts (cls p)) n pre s post = true ↔ ∀ u ∈ s, p u = true) := by
  intro n
  induction n with
  | zero =>
    intro pre s post hn
    have : s = [] := List.length_eq_zero.mp (by omega)
    simp [this, starLoop]
  | succ n ih =>
    intro pre s post hn
    cases s with
    | nil => simp [starLoop]
    | cons v t =>
      simp only [starLoop, List.isEmpty_cons, Bool.false_or, any_splits, Bool.and_eq_true,
        Bool.not_eq_true', List.isEmpty_eq_false, accepts_cls]
      have hlen : t.length ≤ n := by simpa using hn
      constructor
      · rintro ⟨x, y, hxy, ⟨_, w, rfl, hw⟩, hrest⟩
        simp only [List.singleton_append, List.cons.injEq] at hxy
        obtain ⟨rfl, rfl⟩ := hxy
        have := (ih _ y post hlen).mp hrest
        intro u hu
        rcases List.mem_cons.mp hu with rfl | hu
        · exact hw
        · exact this u hu
      · intro h
        refine ⟨[v], t, rfl, ⟨by simp, v, rfl, h v (List.mem_cons_self _ _)⟩, ?_⟩
        exact (ih _ t post hlen).mpr (fun u hu => h u (List.mem_cons_of_mem _ hu))

theorem accepts_star_cls (p : Nat → Bool) (pre s post : JSString) :
    accepts (star (cls p)) pre s post = true ↔ ∀ u ∈ s, p u = true :=
  starLoop_cls p s.length pre s post (le_refl _)

/-- Between `lo` and `hi` code units of one class. -/
theorem repLoop_cls (p : Nat → Bool) :
    ∀ (hi lo : Nat) (pre s post : JSString),
      (repLoop (accepts (cls p)) hi lo pre s post = true ↔
        lo ≤ s.length ∧ s.length ≤ hi ∧ ∀ u ∈ s, p u = true) := by
  intro hi
  induction hi with
  | zero =>
    intro lo pre s post
    simp only [repLoop, Bool.and_eq_true, decide_eq_true_eq, List.isEmpty_iff]
    constructor
    · rintro ⟨rfl, rfl⟩
      simp
    · rintro ⟨h1, h2, _⟩
      have hs : s = [] := List.length_eq_zero.mp (by omega)
      subst hs
      exact ⟨by simpa using h1, rfl⟩
  | succ hi ih =>
    intro lo pre s post
    simp only [repLoop, Bool.or_eq_true, Bool.and_eq_true, decide_eq_true_eq,
      List.isEmpty_iff, any_splits, accepts_cls]
    constructor
    · rintro (⟨rfl, rfl⟩ | ⟨x, y, hxy, ⟨w, rfl, hw⟩, hrest⟩)
      · simp
      · obtain ⟨h1, h2, h3⟩ := (ih _ _ _ _).mp hrest
        subst hxy
        refine ⟨by simp; omega, by simp; omega, ?_⟩
        intro u hu
        rcases List.mem_cons.mp hu with rfl | hu
        · exact hw
        · exact h3 u hu
    · rintro ⟨h1, h2, h3⟩
      cases s with
      | nil =>
        left
        exact ⟨by simpa using h1, rfl⟩
      | cons v t =>
        right
        refine ⟨[v], t, rfl, ⟨v, rfl, h3 v (List.mem_cons_self _ _)⟩, ?_⟩
        refine (ih _ _ _ _).mpr ⟨?_, ?_, fun u hu => h3 u (List.mem_cons_of_mem _ hu)⟩
        · simp only [List.length_cons] at h1
          omega
        · simpa using h2

theorem accepts_rep_cls (p : Nat → Bool) (lo hi : Nat) (pre s post : JSString) :
    accepts (rep lo hi (cls p)) pre s post = true ↔
      lo ≤ s.length ∧ s.length ≤ hi ∧ ∀ u ∈ s, p u = true :=
  repLoop_cls p hi lo pre s post

/-- One or more code units of one class. -/
theorem accepts_plus_cls (p : Nat → Bool) (pre s post : JSString) :
    accepts (plus (cls p)) pre s post = true ↔ s ≠ [] ∧ ∀ u ∈ s, p u = true := by
  simp only [plus, accepts_seq, accepts_cls, accepts_star_cls]
  constructor
  · rintro ⟨x, y, rfl, ⟨w, rfl, hw⟩, hy⟩
    refine ⟨by simp, ?_⟩
    intro u hu
    rcases List.mem_cons.mp hu with rfl | hu
    · exact hw
    · exact hy u hu
  · rintro ⟨hne, h⟩
    cases s with
    | nil => exact absurd rfl hne
    | cons v t =>
      exact ⟨[v], t, rfl, ⟨v, rfl, h v (List.mem_cons_self _ _)⟩,
        fun u hu => h u (List.mem_cons_of_mem _ hu)⟩

/-- At least `n` code units of one class. -/
theorem accepts_atLeast_cls (p : Nat → Bool) (n : Nat) (pre s post : JSString) :
    accepts (atLeast n (cls p)) pre s post = true ↔ n ≤ s.length ∧ ∀ u ∈ s, p u = true := by
  simp only [atLeast, accepts_seq, accepts_rep_cls, accepts_star_cls]
  constructor
  · rintro ⟨x, y, rfl, ⟨h1, _, h3⟩, hy⟩
    refine ⟨by simp; omega, ?_⟩
    intro u hu
    rcases List.mem_append.mp hu with hu | hu
    · exact h3 u hu
    · exact hy u hu
  · rintro ⟨hn, h⟩
    refine ⟨s.take n, s.drop n, List.take_append_drop n s, ⟨?_, ?_, ?_⟩, ?_⟩
    · simp [List.length_take]; omega
    · simp [List.length_take]
    · exact fun u hu => h u (List.mem_of_mem_take hu)
    · exact fun u hu => h u (List.mem_of_mem_drop hu)

theorem test_iff (r : Regex) (s : JSString) :
    test r s = true ↔ ∃ x y z, x ++ (y ++ z) = s ∧ accepts r x y z = true := by
  simp only [test, any_splits]
  constructor
  · rintro ⟨x, yz, hs, y, z, hyz, h⟩
    exact ⟨x, y, z, by rw [hyz]; exact hs, h⟩
  · rintro ⟨x, y, z, hs, h⟩
    exact ⟨x, y ++ z, hs, y, z, rfl, h⟩

end Regex
end CyberShield

namespace CyberShield

/-! ## The e-mail validators -/

theorem isAlnum_not_space_at (u : Nat) (h : isAlnum u = true) :
    isSpace u = false ∧ u ≠ 64 := by
  simp only [isAlnum, isAlpha, isUpper, isLower, isDigit, Bool.or_eq_true, Bool.and_eq_true,
    decide_eq_true_eq] at h
  refine ⟨?_, by omega⟩
  simp only [isSpace, Bool.or_eq_false_iff, Bool.and_eq_false_iff, decide_eq_false_iff_not,
    beq_eq_false_iff_ne, ne_eq]
  omega

theorem isLocalPart_not_space_at (u : Nat) (h : isLocalPart u = true) :
    isSpace u = false ∧ u ≠ 64 := by
  simp only [isLocalPart, Bool.or_eq_true, List.contains_eq_any_beq, List.any_eq_true,
    beq_iff_eq] at h
  rcases h with h | ⟨v, hv, rfl⟩
  · exact isAlnum_not_space_at u h
  · simp only [List.mem_cons, List.mem_singleton, List.not_mem_nil, or_false] at hv
    rcases hv with h | h | h | h | h | h | h | h | h | h | h | h | h | h | h | h | h | h | h | h <;>
      subst h <;> exact ⟨by decide, by decide⟩

theorem isNotSpaceNorAt_iff (u : Nat) :
    isNotSpaceNorAt u = true ↔ isSpace u = false ∧ u ≠ 64 := by
  simp [isNotSpaceNorAt]

/-- The domain part of `emailRegex` stays clear of white space and `@`. -/
theorem domain_within :
    Regex.within (fun u => isSpace u = false ∧ u ≠ 64)
      (.seq labelRegex (.star (.seq (Regex.unit 46) labelRegex))) := by
  have hA : ∀ u, isAlnum u = true → isSpace u = false ∧ u ≠ 64 := isAlnum_not_space_at
  have hH : ∀ u, isAlnumHyphen u = true → isSpace u = false ∧ u ≠ 64 := by
    intro u h
    simp only [isAlnumHyphen, Bool.or_eq_true, beq_iff_eq] at h
    rcases h with h | h
    · exact hA u h
    · simp only [decide_eq_true_eq] at h
      subst h; exact ⟨by decide, by decide⟩
  have hdot : ∀ u : Nat, decide (u = 46) = true → isSpace u = false ∧ u ≠ 64 := by
    intro u h
    simp only [decide_eq_true_eq] at h
    subst h; exact ⟨by decide, by decide⟩
  have hlabel : Regex.within (fun u => isSpace u = false ∧ u ≠ 64) labelRegex :=
    ⟨hA, hH, hA⟩
  exact ⟨hlabel, hdot, hlabel⟩

theorem emailRegex_oneAt (t : JSString) (h : Regex.testWhole emailRegex t = true) :
    oneAtNoSpace t := by
  simp only [Regex.testWhole, emailRegex, Regex.accepts_seq, Regex.accepts_plus_cls] at h
  obtain ⟨a, y, hay, ⟨hane, ha⟩, c, b, hcb, hc, hb⟩ := h
  obtain ⟨w, rfl, hw⟩ := (Regex.accepts_cls _ _ _ _).mp hc
  simp only [decide_eq_true_eq] at hw
  subst hw
  have hb2 : Regex.accepts (.seq labelRegex (.star (.seq (Regex.unit 46) labelRegex)))
      (([] ++ a) ++ [64]) b [] = true := by
    simpa [Regex.accepts_seq] using hb
  have hball := Regex.accepts_within _ _ domain_within _ _ _ hb2
  have hbne : b ≠ [] := by
    obtain ⟨x, y2, hxy, hx, _⟩ := (Regex.accepts_seq _ _ _ _ _).mp hb2
    simp only [labelRegex] at hx
    obtain ⟨x1, x2, hx12, hx1, _⟩ := (Regex.accepts_seq _ _ _ _ _).mp hx
    obtain ⟨v, rfl, _⟩ := (Regex.accepts_cls _ _ _ _).mp hx1
    intro hnil
    rw [hnil] at hxy
    rw [← hx12] at hxy
    simp at hxy
  refine ⟨a, b, ?_, hane, hbne, ?_, ?_, ?_⟩
  · rw [← hay, ← hcb]; rfl
  · intro hm
    exact (isLocalPart_not_space_at 64 (ha 64 hm)).2 rfl
  · intro hm
    exact (hball 64 hm).2 rfl
  · intro u hu
    rw [← hay, ← hcb] at hu
    simp only [List.mem_append, List.mem_cons, List.mem_singleton, List.not_mem_nil,
      or_false] at hu
    rcases hu with hu | hu | hu
    · exact (isLocalPart_not_space_at u (ha u hu)).1
    · subst hu; decide
    · exact (hball u hu).1

theorem simpleEmailRegex_oneAt (t : JSString) (h : Regex.testWhole simpleEmailRegex t = true) :
    oneAtNoSpace t := by
  simp only [Regex.testWhole, simpleEmailRegex, Regex.accepts_seq, Regex.accepts_plus_cls] at h
  obtain ⟨a, y, hay, ⟨hane, ha⟩, c, b, hcb, hc, b1, y2, hb12, ⟨hb1ne, hb1⟩, d, b2, hdb, hd,
    _, hb2⟩ := h
  obtain ⟨w, rfl, hw⟩ := (Regex.accepts_cls _ _ _ _).mp hc
  simp only [decide_eq_true_eq] at hw
  subst hw
  obtain ⟨w, rfl, hw⟩ := (Regex.accepts_cls _ _ _ _).mp hd
  simp only [decide_eq_true_eq] at hw
  subst hw
  have hball : ∀ u ∈ b, isSpace u = false ∧ u ≠ 64 := by
    intro u hu
    rw [← hb12, ← hdb] at hu
    simp only [List.mem_append, List.mem_cons, List.mem_singleton, List.not_mem_nil,
      or_false] at hu
    rcases hu with hu | hu | hu
    · exact (isNotSpaceNorAt_iff u).mp (hb1 u hu)
    · subst hu; exact ⟨by decide, by decide⟩
    · exact (isNotSpaceNorAt_iff u).mp (hb2 u hu)
  have hbne : b ≠ [] := by
    intro hnil
    rw [hnil] at hb12
    exact hb1ne (List.append_eq_nil.mp hb12).1
  refine ⟨a, b, ?_, hane, hbne, ?_, ?_, ?_⟩
  · rw [← hay, ← hcb]; rfl
  · intro hm
    exact ((isNotSpaceNorAt_iff 64).mp (ha 64 hm)).2 rfl
  · intro hm
    exact (hball 64 hm).2 rfl
  · intro u hu
    rw [← hay, ← hcb] at hu
    simp only [List.mem_append, List.mem_cons, List.mem_singleton, List.not_mem_nil,
      or_false] at hu
    rcases hu with hu | hu | hu
    · exact ((isNotSpaceNorAt_iff u).mp (ha u hu)).1
    · subst hu; decide
    · exact (hball u hu).1

end CyberShield

namespace CyberShield

/-- What `toLowerCase` does to one code unit. -/
theorem toLowerCase_eq_map (s : JSString) :
    toLowerCase s
      = s.map (fun u => if isUpper u then u + 32 else if u = 8490 then 107 else u) := rfl

theorem lowerUnit_eq_at (u : Nat)
    (h : (if isUpper u then u + 32 else if u = 8490 then 107 else u) = 64) : u = 64 := by
  by_cases h1 : isUpper u = true
  · rw [if_pos h1] at h
    simp only [isUpper, Bool.and_eq_true, decide_eq_true_eq] at h1
    omega
  · rw [if_neg h1] at h
    by_cases h2 : u = 8490
    · rw [if_pos h2] at h
      omega
    · rw [if_neg h2] at h
      exact h

theorem lowerUnit_space (u : Nat) (h : isSpace u = true) :
    (if isUpper u then u + 32 else if u = 8490 then 107 else u) = u := by
  have h1 : isUpper u = false := by
    simp only [isSpace, Bool.or_eq_true, Bool.and_eq_true, decide_eq_true_eq,
      beq_iff_eq] at h
    simp only [isUpper, Bool.and_eq_false_iff, decide_eq_false_iff_not]
    omega
  have h2 : u ≠ 8490 := by
    simp only [isSpace, Bool.or_eq_true, Bool.and_eq_true, decide_eq_true_eq,
      beq_iff_eq] at h
    omega
  simp [h1, h2]

/-- The shape of a lower-cased address is the shape of the address. -/
theorem oneAtNoSpace_of_toLowerCase (s : JSString) (h : oneAtNoSpace (toLowerCase s)) :
    oneAtNoSpace s := by
  obtain ⟨a', b', hs, hane, hbne, ha, hb, hsp⟩ := h
  rw [toLowerCase_eq_map] at hs hsp
  obtain ⟨a, r, rfl, haeq, hreq⟩ := List.map_eq_append_iff.mp hs
  obtain ⟨c, b, rfl, hc, hbeq⟩ := List.map_eq_cons_iff.mp hreq
  have hc64 : c = 64 := lowerUnit_eq_at c hc
  subst hc64
  refine ⟨a, b, rfl, ?_, ?_, ?_, ?_, ?_⟩
  · intro hnil
    rw [hnil] at haeq
    exact hane (by simpa using haeq.symm)
  · intro hnil
    rw [hnil] at hbeq
    exact hbne (by simpa using hbeq.symm)
  · intro hm
    apply ha
    rw [← haeq]
    exact List.mem_map.mpr ⟨64, hm, by decide⟩
  · intro hm
    apply hb
    rw [← hbeq]
    exact List.mem_map.mpr ⟨64, hm, by decide⟩
  · intro u hu
    by_contra hne
    have hsu : isSpace u = true := by simpa using hne
    have hmem : u ∈ (a ++ 64 :: b).map
        (fun u => if isUpper u then u + 32 else if u = 8490 then 107 else u) :=
      List.mem_map.mpr ⟨u, hu, lowerUnit_space u hsu⟩
    have := hsp u hmem
    rw [hsu] at this
    exact Bool.noConfusion this

set_option maxRecDepth 100000 in
/-- C12. Each of the three e-mail validators accepts `a@b.co` and rejects
`not-an-email`, and every string that one of them accepts has exactly one
`@`, with a non-empty part before it and a non-empty part after it, and no
white space. -/
theorem email_validators_shape :
    (FormValidator.isValidEmail (units "a@b.co") = true
      ∧ ContactSecurity.validateEmail (units "a@b.co") = true
      ∧ EnhancedFormValidation.validateEmail (units "a@b.co") = true
      ∧ FormValidator.isValidEmail (units "not-an-email") = false
      ∧ ContactSecurity.validateEmail (units "not-an-email") = false
      ∧ EnhancedFormValidation.validateEmail (units "not-an-email") = false)
    ∧ ∀ s : JSString,
        (FormValidator.isValidEmail s = true ∨ ContactSecurity.validateEmail s = true
          ∨ EnhancedFormValidation.validateEmail s = true) → oneAtNoSpace s := by
  refine ⟨⟨by decide, by decide, by decide, by decide, by decide, by decide⟩, ?_⟩
  intro s h
  rcases h with h | h | h
  · exact oneAtNoSpace_of_toLowerCase s (emailRegex_oneAt _ h)
  · simp only [ContactSecurity.validateEmail, Bool.and_eq_true] at h
    exact simpleEmailRegex_oneAt s h.1.2
  · simp only [EnhancedFormValidation.validateEmail, Bool.and_eq_true] at h
    exact simpleEmailRegex_oneAt s h.1.1.2

/-- Witness for C12: the address `a@b.co`, accepted by `isValidEmail`. -/
theorem email_validators_shape_witness : oneAtNoSpace (units "a@b.co") :=
  email_validators_shape.2 (units "a@b.co") (Or.inl email_validators_shape.1.1)

end CyberShield

namespace CyberShield
namespace Regex

theorem starLoop_congr (f : JSString → JSString → JSString → Bool)
    (hf : ∀ pre s post, f pre s post = f [] s []) :
    ∀ (n : Nat) (pre s post : JSString), starLoop f n pre s post = starLoop f n [] s [] := by
  intro n
  induction n with
  | zero => intro pre s post; rfl
  | succ n ih =>
    intro pre s post
    simp only [starLoop]
    congr 2
    funext xy
    rw [hf pre xy.1 (xy.2 ++ post), hf [] xy.1 (xy.2 ++ []), ih (pre ++ xy.1) xy.2 post,
      ih ([] ++ xy.1) xy.2 []]

theorem repLoop_congr (f : JSString → JSString → JSString → Bool)
    (hf : ∀ pre s post, f pre s post = f [] s []) :
    ∀ (hi lo : Nat) (pre s post : JSString),
      repLoop f hi lo pre s post = repLoop f hi lo [] s [] := by
  intro hi
  induction hi with
  | zero => intro lo pre s post; rfl
  | succ hi ih =>
    intro lo pre s post
    simp only [repLoop]
    congr 2
    funext xy
    rw [hf pre xy.1 (xy.2 ++ post), hf [] xy.1 (xy.2 ++ []), ih (lo - 1) (pre ++ xy.1) xy.2 post,
      ih (lo - 1) ([] ++ xy.1) xy.2 []]

/-- A plain expression matches a piece whatever stands around it. -/
theorem accepts_plain (r : Regex) :
    plain r → ∀ pre s post, accepts r pre s post = accepts r [] s [] := by
  induction r with
  | cls p => intro _ pre s post; rfl
  | eps => intro _ pre s post; rfl
  | seq a b iha ihb =>
    intro hp pre s post
    simp only [accepts]
    congr 1
    funext xy
    rw [iha hp.1 pre xy.1 (xy.2 ++ post), iha hp.1 [] xy.1 (xy.2 ++ []),
      ihb hp.2 (pre ++ xy.1) xy.2 post, ihb hp.2 ([] ++ xy.1) xy.2 []]
  | alt a b iha ihb =>
    intro hp pre s post
    simp only [accepts]
    rw [iha hp.1 pre s post, ihb hp.2 pre s post]
  | star r ih =>
    intro hp pre s post
    exact starLoop_congr _ (ih hp) _ _ _ _
  | rep lo hi r ih =>
    intro hp pre s post
    exact repLoop_congr _ (ih hp) _ _ _ _ _
  | wordBoundary => intro hp; exact absurd hp id
  | notAhead r _ => intro hp; exact absurd hp id

end Regex

/-! ## Length limits of the e-mail validators -/

theorem toLowerCase_longAddress (n : Nat) : toLowerCase (longAddress n) = longAddress n := by
  simp only [toLowerCase, longAddress, List.map_append, List.map_replicate]
  congr 1

/-- `isValidEmail` accepts `a...a@b.co` however long the local part is. -/
theorem isValidEmail_longAddress (n : Nat) : FormValidator.isValidEmail (longAddress n) = true := by
  unfold FormValidator.isValidEmail
  rw [toLowerCase_longAddress]
  simp only [Regex.testWhole, emailRegex, longAddress]
  rw [Regex.accepts_seq]
  refine ⟨List.replicate (n + 1) 97, units "@b.co", rfl, ?_, ?_⟩
  · rw [Regex.accepts_plus_cls]
    refine ⟨by simp [List.replicate_succ], ?_⟩
    intro u hu
    rw [List.eq_of_mem_replicate hu]
    decide
  · rw [Regex.accepts_plain _
      (by exact ⟨trivial, ⟨trivial, trivial, trivial⟩, trivial, trivial, trivial, trivial⟩)]
    decide

theorem length_longAddress (n : Nat) : (longAddress n).length = n + 6 := by
  simp [longAddress, units]

theorem trim_longAddress (n : Nat) : trim (longAddress n) = longAddress n := by
  have h1 : (longAddress n).dropWhile isSpace = longAddress n := by
    unfold longAddress
    rw [List.replicate_succ, List.cons_append, List.dropWhile_cons_of_neg (by decide)]
  have h2 : (longAddress n).reverse.dropWhile isSpace = (longAddress n).reverse := by
    unfold longAddress
    rw [List.reverse_append]
    have : (units "@b.co").reverse = 111 :: [99, 46, 98, 64] := by decide
    rw [this, List.cons_append, List.dropWhile_cons_of_neg (by decide)]
  simp only [trim, h1, h2, List.reverse_reverse]

/-- C13 as stated fails for `FormValidator`: the address `a...a@b.co` with
250 letters `a` has 255 characters, and `isValidEmail` and
`validateEmailField` accept it. -/
theorem validateEmailField_accepts_255 :
    (longAddress 249).length = 255
    ∧ FormValidator.isValidEmail (longAddress 249) = true
    ∧ (FormValidator.validateEmailField (plainField "email" (longAddress 249) true)
        (some (longAddress 249))).1 = true
    ∧ (FormValidator.validateField (plainField "email" (longAddress 249) true)).1 = true := by
  have hlen := length_longAddress 249
  have hv := isValidEmail_longAddress 249
  have hne : (longAddress 249).isEmpty = false := by
    cases h : longAddress 249 with
    | nil => rw [h] at hlen; simp at hlen
    | cons u t => rfl
  have hfield : (FormValidator.validateEmailField (plainField "email" (longAddress 249) true)
      (some (longAddress 249))).1 = true := by
    have hf : FormValidator.isFalsy (some (longAddress 249)) = false := hne
    unfold FormValidator.validateEmailField
    rw [hf, Option.getD_some, hv]
    rfl
  have htrim := trim_longAddress 249
  refine ⟨hlen, hv, hfield, ?_⟩
  simp only [FormValidator.validateField, plainField]
  rw [if_neg (by decide), if_pos trivial, htrim]
  exact hfield

/-- C13 amended. `ContactSecurity.validateEmail` and
`EnhancedFormValidation.validateEmail` reject every string longer than 254
characters. `FormValidator.isValidEmail` has no limit on the whole address:
it accepts `a...a@b.co` with a local part of any length. -/
theorem validateEmail_length_limit (s : JSString) (h : 254 < s.length) :
    ContactSecurity.validateEmail s = false
    ∧ EnhancedFormValidation.validateEmail s = false
    ∧ ∀ n, FormValidator.isValidEmail (longAddress n) = true
        ∧ (longAddress n).length = n + 6 := by
  have hlen : decide (s.length ≤ 254) = false := by simpa using h
  refine ⟨?_, ?_, fun n => ⟨isValidEmail_longAddress n, length_longAddress n⟩⟩
  · simp [ContactSecurity.validateEmail, hlen]
  · simp [EnhancedFormValidation.validateEmail, hlen]

/-- Witness for the amended C13: the 255-character address. -/
theorem validateEmail_length_limit_witness :
    ContactSecurity.validateEmail (longAddress 249) = false
    ∧ EnhancedFormValidation.validateEmail (longAddress 249) = false :=
  ⟨(validateEmail_length_limit (longAddress 249)
      (by rw [length_longAddress]; decide)).1,
   (validateEmail_length_limit (longAddress 249)
      (by rw [length_longAddress]; decide)).2.1⟩

end CyberShield

namespace CyberShield

/-! ## Message, name and subject validators -/

theorem accepts_lit_colon (pre s post : JSString)
    (h : Regex.accepts (Regex.lit (units "://")) pre s post = true) : 58 ∈ s := by
  have hu : units "://" = [58, 47, 47] := by decide
  rw [hu] at h
  simp only [Regex.lit, Regex.unit, Regex.accepts_seq, Regex.accepts_cls,
    decide_eq_true_eq] at h
  obtain ⟨x, y, hxy, ⟨w, rfl, rfl⟩, _⟩ := h
  rw [← hxy]
  simp

/-- A text matched by the URL expression holds a colon. -/
theorem test_urlRegex_colon (m : JSString) (h : Regex.test urlRegex m = true) : 58 ∈ m := by
  obtain ⟨x, y, z, hm, hy⟩ := (Regex.test_iff _ _).mp h
  simp only [urlRegex] at hy
  obtain ⟨p, q, hpq, _, hq⟩ := (Regex.accepts_seq _ _ _ _ _).mp hy
  obtain ⟨c, t, hct, hc, _⟩ := (Regex.accepts_seq _ _ _ _ _).mp hq
  have h58 := accepts_lit_colon _ _ _ hc
  rw [← hm, ← hpq, ← hct]
  simp [h58]

theorem validateMessageField_verdict (field : FieldDom) (value : JSString) :
    (FormValidator.validateMessageField field (some value)).1 = true ↔
      10 ≤ value.length ∧ value.length ≤ 1000 := by
  unfold FormValidator.validateMessageField
  simp only [FormValidator.isFalsy, Option.getD_some, FormValidator.minMessageLength,
    FormValidator.maxChars]
  by_cases h0 : value.isEmpty = true
  · have : value = [] := List.isEmpty_iff.mp h0
    subst this
    simp
  · rw [if_neg h0]
    by_cases h1 : value.length < 10
    · rw [if_pos h1]
      simp only [Bool.false_eq_true, false_iff]
      omega
    · rw [if_neg h1]
      by_cases h2 : value.length > 1000
      · rw [if_pos h2]
        simp only [Bool.false_eq_true, false_iff]
        omega
      · rw [if_neg h2]
        simp only [true_iff]
        omega

theorem validateField_message (field : FieldDom) (hid : field.id = "message") :
    FormValidator.validateField field
      = FormValidator.validateMessageField field (some (trim field.value)) := by
  unfold FormValidator.validateField
  simp only [hid]
  rw [if_neg (by decide), if_neg (by decide), if_neg (by decide), if_pos trivial]

theorem validateMessage_verdict (m : JSString) :
    ContactSecurity.validateMessage m = true ↔
      10 ≤ m.length ∧ m.length ≤ 1000 ∧ Regex.test urlRegex m = false := by
  unfold ContactSecurity.validateMessage
  simp only [Bool.and_eq_true, Bool.not_eq_true', decide_eq_true_eq, List.isEmpty_eq_false,
    ge_iff_le]
  constructor
  · rintro ⟨⟨⟨_, h1⟩, h2⟩, h3⟩
    exact ⟨h1, h2, h3⟩
  · rintro ⟨h1, h2, h3⟩
    refine ⟨⟨⟨?_, h1⟩, h2⟩, h3⟩
    intro hnil
    rw [hnil] at h1
    simp at h1

/-- C14. `FormValidator.validateField` on the message field accepts every
value whose trimmed length is exactly 1000 and rejects every value whose
trimmed length is 1001; `ContactSecurity.validateMessage` accepts every
message of length exactly 1000 that the URL expression does not match and
rejects every message of length 1001. -/
theorem message_length_boundary (field : FieldDom) (m : JSString)
    (hid : field.id = "message") :
    ((trim field.value).length = 1000 → (FormValidator.validateField field).1 = true)
    ∧ ((trim field.value).length = 1001 → (FormValidator.validateField field).1 = false)
    ∧ (m.length = 1000 → Regex.test urlRegex m = false →
        ContactSecurity.validateMessage m = true)
    ∧ (m.length = 1001 → ContactSecurity.validateMessage m = false) := by
  rw [validateField_message field hid]
  refine ⟨?_, ?_, ?_, ?_⟩
  · intro h
    exact (validateMessageField_verdict field _).mpr (by omega)
  · intro h
    have := (validateMessageField_verdict field (trim field.value)).not
    simp only [Bool.not_eq_true] at this
    exact this.mpr (by omega)
  · intro h hu
    exact (validateMessage_verdict m).mpr ⟨by omega, by omega, hu⟩
  · intro h
    have := (validateMessage_verdict m).not
    simp only [Bool.not_eq_true] at this
    exact this.mpr (by omega)

theorem trim_replicate_a (n : Nat) : trim (List.replicate n 97) = List.replicate n 97 := by
  have h : ∀ k, (List.replicate k 97).dropWhile isSpace = List.replicate k 97 := by
    intro k
    cases k with
    | zero => rfl
    | succ k => rw [List.replicate_succ, List.dropWhile_cons_of_neg (by decide)]
  simp only [trim, h, List.reverse_replicate, List.reverse_reverse]

/-- Witness for C14: a message of 1000 letters `a`. -/
theorem message_length_boundary_witness :
    (FormValidator.validateField
        (plainField "message" (List.replicate 1000 97) true)).1 = true
    ∧ ContactSecurity.validateMessage (List.replicate 1000 97) = true :=
  ⟨(message_length_boundary (plainField "message" (List.replicate 1000 97) true)
      (List.replicate 1000 97) rfl).1
      (by simp only [plainField]; rw [trim_replicate_a]; exact List.length_replicate _ _),
   (message_length_boundary (plainField "message" (List.replicate 1000 97) true)
      (List.replicate 1000 97) rfl).2.2.1 (List.length_replicate _ _)
      (by
        cases h : Regex.test urlRegex (List.replicate 1000 97) with
        | false => rfl
        | true =>
          have := List.eq_of_mem_replicate (test_urlRegex_colon _ h)
          omega)⟩

end CyberShield

namespace CyberShield

theorem validateNameField_verdict (field : FieldDom) (value : JSString) :
    (FormValidator.validateNameField field (some value)).1 = true ↔
      2 ≤ value.length ∧ ∀ u ∈ value, isNameUnit u = true := by
  unfold FormValidator.validateNameField
  simp only [FormValidator.isFalsy, Option.getD_some, FormValidator.minNameLength]
  by_cases h0 : value.isEmpty = true
  · have : value = [] := List.isEmpty_iff.mp h0
    subst this
    simp
  · rw [if_neg h0]
    by_cases h1 : value.length < 2
    · rw [if_pos h1]
      simp only [Bool.false_eq_true, false_iff]
      omega
    · rw [if_neg h1]
      by_cases h2 : Regex.testWhole (Regex.atLeast 2 (.cls isNameUnit)) value = true
      · have h3 := (Regex.accepts_atLeast_cls isNameUnit 2 [] value []).mp h2
        simp only [h2, Bool.not_true, Bool.false_eq_true, if_false, true_iff]
        exact h3
      · have h3 := (Regex.accepts_atLeast_cls isNameUnit 2 [] value []).not.mp h2
        have h4 : Regex.testWhole (Regex.atLeast 2 (.cls isNameUnit)) value = false := by
          simpa using h2
        simp only [h4, Bool.not_false, if_true, Bool.false_eq_true, false_iff]
        exact h3

/-- C15 as stated fails: a name of 101 letters `a` is longer than 100
characters and `validateNameField` accepts it, also through
`validateField`. -/
theorem validateNameField_accepts_101 :
    (List.replicate 101 97).length = 101
    ∧ (FormValidator.validateNameField (plainField "name" (List.replicate 101 97) true)
        (some (List.replicate 101 97))).1 = true
    ∧ (FormValidator.validateField (plainField "name" (List.replicate 101 97) true)).1
        = true := by
  have hv : (FormValidator.validateNameField (plainField "name" (List.replicate 101 97) true)
      (some (List.replicate 101 97))).1 = true := by
    rw [validateNameField_verdict]
    refine ⟨by rw [List.length_replicate]; decide, ?_⟩
    intro u hu
    rw [List.eq_of_mem_replicate hu]
    decide
  refine ⟨List.length_replicate _ _, hv, ?_⟩
  unfold FormValidator.validateField
  simp only [plainField]
  rw [if_pos trivial, trim_replicate_a]
  exact hv

/-- C15 amended. `FormValidator.validateNameField` accepts a (trimmed) value
exactly when it has at least 2 characters and each of them is in the class
`[a-zA-ZáéíóúÁÉÍÓÚñÑ\s]`: every name shorter than 2 is rejected, and there is
no upper bound on the length. -/
theorem validateNameField_accepts_iff (field : FieldDom) (value : JSString) :
    ((FormValidator.validateNameField field (some value)).1 = true ↔
      2 ≤ value.length ∧ ∀ u ∈ value, isNameUnit u = true)
    ∧ (value.length < 2 → (FormValidator.validateNameField field (some value)).1 = false)
    ∧ ∀ n, (FormValidator.validateNameField field (some (List.replicate (n + 2) 97))).1
        = true := by
  refine ⟨validateNameField_verdict field value, ?_, ?_⟩
  · intro h
    have := (validateNameField_verdict field value).not
    simp only [Bool.not_eq_true] at this
    exact this.mpr (by omega)
  · intro n
    rw [validateNameField_verdict]
    refine ⟨by rw [List.length_replicate]; omega, ?_⟩
    intro u hu
    rw [List.eq_of_mem_replicate hu]
    decide

/-- Witness for the amended C15: the one-letter name `a` is rejected. -/
theorem validateNameField_accepts_iff_witness :
    (FormValidator.validateNameField (plainField "name" [97] true) (some [97])).1 = false :=
  (validateNameField_accepts_iff (plainField "name" [97] true) [97]).2.1 (by decide)

theorem validateName_verdict (name : JSString) :
    ContactSecurity.validateName name = true ↔
      2 ≤ name.length ∧ name.length ≤ 100 ∧ ∀ u ∈ name, isNameUnit u = true := by
  unfold ContactSecurity.validateName
  simp only [Bool.and_eq_true, Bool.not_eq_true', decide_eq_true_eq, List.isEmpty_eq_false,
    ge_iff_le, Regex.testWhole, Regex.accepts_plus_cls]
  constructor
  · rintro ⟨⟨⟨_, h1⟩, h2⟩, _, h3⟩
    exact ⟨h1, h2, h3⟩
  · rintro ⟨h1, h2, h3⟩
    have hne : name ≠ [] := by
      intro hnil
      rw [hnil] at h1
      simp at h1
    exact ⟨⟨⟨hne, h1⟩, h2⟩, hne, h3⟩

/-- C16 as stated fails: `Jürgen` (with `ü`, a letter of the Latin-1
Supplement) is rejected, while `a`, tab, `b` and a name of two spaces are
accepted. -/
theorem validateName_latin1_and_space :
    ContactSecurity.validateName (units "Jürgen") = false
    ∧ ContactSecurity.validateName (units "François") = false
    ∧ ContactSecurity.validateName [97, 9, 98] = true
    ∧ ContactSecurity.validateName [97, 10, 98] = true
    ∧ ContactSecurity.validateName (units "  ") = true := by
  decide

/-- C16 amended. `ContactSecurity.validateName` accepts a string exactly when
it has 2 to 100 code units and each of them is an ASCII letter, one of
`á é í ó ú Á É Í Ó Ú ñ Ñ`, or a white-space code unit of the class `\s`. -/
theorem validateName_accepts_iff (name : JSString) :
    ContactSecurity.validateName name = true ↔
      2 ≤ name.length ∧ name.length ≤ 100
      ∧ ∀ u ∈ name, (isAlpha u = true
          ∨ u ∈ [225, 233, 237, 243, 250, 193, 201, 205, 211, 218, 241, 209]
          ∨ isSpace u = true) := by
  rw [validateName_verdict]
  have hcls : ∀ u, isNameUnit u = true ↔ (isAlpha u = true
      ∨ u ∈ [225, 233, 237, 243, 250, 193, 201, 205, 211, 218, 241, 209]
      ∨ isSpace u = true) := by
    intro u
    simp only [isNameUnit, Bool.or_eq_true, List.contains_eq_any_beq, List.any_eq_true,
      beq_iff_eq, or_assoc]
    have hmem : (∃ x ∈ [225, 233, 237, 243, 250, 193, 201, 205, 211, 218, 241, 209], u = x)
        ↔ u ∈ [225, 233, 237, 243, 250, 193, 201, 205, 211, 218, 241, 209] :=
      ⟨fun ⟨x, hx, e⟩ => e ▸ hx, fun h => ⟨u, h, rfl⟩⟩
    rw [hmem]
  constructor
  · rintro ⟨h1, h2, h3⟩
    exact ⟨h1, h2, fun u hu => (hcls u).mp (h3 u hu)⟩
  · rintro ⟨h1, h2, h3⟩
    exact ⟨h1, h2, fun u hu => (hcls u).mpr (h3 u hu)⟩

theorem length_le_sum_of_mem (subjects : List JSString) (v : JSString) (h : v ∈ subjects) :
    v.length ≤ (subjects.map List.length).sum := by
  induction subjects with
  | nil => simp at h
  | cons s rest ih =>
    simp only [List.map_cons, List.sum_cons]
    rcases List.mem_cons.mp h with rfl | h
    · omega
    · have := ih h
      omega

theorem validateSubject_verdict (subject : JSString) :
    EnhancedFormValidation.validateSubject subject = true ↔ subject ≠ [] := by
  cases subject <;> simp [EnhancedFormValidation.validateSubject]

theorem validateSelectField_verdict (field : FieldDom) (value : JSString) :
    (FormValidator.validateSelectField field (some value)).1 = true ↔ value ≠ [] := by
  cases value <;> simp [FormValidator.validateSelectField, FormValidator.isFalsy]

/-- C17 as stated fails: there is no set of subjects such that the
validators reject every non-empty value outside it. Whatever the set, a
value longer than all of its members is accepted. -/
theorem no_subject_set :
    (¬ ∃ subjects : List JSString, ∀ v : JSString, v ≠ [] → v ∉ subjects →
        EnhancedFormValidation.validateSubject v = false)
    ∧ (¬ ∃ subjects : List JSString, ∀ v : JSString, v ≠ [] → v ∉ subjects →
        (FormValidator.validateSelectField (plainField "subject" v true) (some v)).1
          = false) := by
  have hpick : ∀ subjects : List JSString,
      List.replicate ((subjects.map List.length).sum + 1) 97 ≠ []
      ∧ List.replicate ((subjects.map List.length).sum + 1) 97 ∉ subjects := by
    intro subjects
    refine ⟨by simp [List.replicate_succ], ?_⟩
    intro hm
    have := length_le_sum_of_mem subjects _ hm
    rw [List.length_replicate] at this
    omega
  constructor
  · rintro ⟨subjects, h⟩
    obtain ⟨hne, hnm⟩ := hpick subjects
    have h1 := h _ hne hnm
    rw [(validateSubject_verdict _).mpr hne] at h1
    exact Bool.noConfusion h1
  · rintro ⟨subjects, h⟩
    obtain ⟨hne, hnm⟩ := hpick subjects
    have h1 := h _ hne hnm
    rw [(validateSelectField_verdict _ _).mpr hne] at h1
    exact Bool.noConfusion h1

/-- C17 amended. The subject validators accept a value exactly when it is not
empty: `EnhancedFormValidation.validateSubject` on the value as it is,
`FormValidator.validateSelectField` on the value it is given, which
`validateField` takes from the field `subject` after trimming. Membership
in a set of subjects is not checked. -/
theorem subject_accepted_iff_nonempty (field : FieldDom) (value : JSString) :
    (EnhancedFormValidation.validateSubject value = true ↔ value ≠ [])
    ∧ ((FormValidator.validateSelectField field (some value)).1 = true ↔ value ≠ [])
    ∧ (field.id = "subject" →
        ((FormValidator.validateField field).1 = true ↔ trim field.value ≠ [])) := by
  refine ⟨validateSubject_verdict value, validateSelectField_verdict field value, ?_⟩
  intro hid
  unfold FormValidator.validateField
  simp only [hid]
  rw [if_neg (by decide), if_neg (by decide), if_pos trivial]
  exact validateSelectField_verdict field _

/-- Witness for the amended C17: the field `subject` holding `zzz`, which is
no subject of any list, is accepted. -/
theorem subject_accepted_iff_nonempty_witness :
    (FormValidator.validateField (plainField "subject" (units "zzz") true)).1 = true :=
  ((subject_accepted_iff_nonempty (plainField "subject" (units "zzz") true)
    (units "zzz")).2.2 rfl).mpr (by decide)

end CyberShield

namespace CyberShield

/-! ## `ContactForm.validateForm` -/

theorem validateForm_verdict (form : List FieldDom) :
    (ContactForm.validateForm form).1
      = (!form.any ContactForm.requiredBlank && !ContactForm.emailFails form
          && !ContactForm.wordLimitFails form) := rfl

theorem find_message (pre post : List FieldDom) (msg : FieldDom) (hid : msg.id = "message")
    (hpre : ∀ f ∈ pre, f.id ≠ "message") :
    (pre ++ msg :: post).find? (fun f => decide (f.id = "message")) = some msg := by
  induction pre with
  | nil => simp [hid]
  | cons f rest ih =>
    have hf : f.id ≠ "message" := hpre f (List.mem_cons_self _ _)
    simp only [List.cons_append, List.find?_cons, hf, decide_False]
    exact ih (fun g hg => hpre g (List.mem_cons_of_mem _ hg))

set_option maxRecDepth 100000 in
/-- C18 as stated fails: with a valid name and e-mail address, the message
`hola` (4 characters, fewer than 10) is accepted by `validateForm`. -/
theorem validateForm_accepts_short_message :
    (trim (units "hola")).length = 4
    ∧ (ContactForm.validateForm
        [plainField "name" (units "Ana") true, plainField "email" (units "a@b.co") true,
          plainField "message" (units "hola") true]).1 = true := by
  decide

/-- C18 amended. In `ContactForm.validateForm` (script.js and Menú.js), when
the other fields are valid (no other required field is blank and the e-mail
check passes), the form is accepted exactly when the message has at most
`MAX_WORDS` (500) words separated by white space and, if the message field
is required, its trimmed value is not empty. So a message of exactly 500
words is accepted and one of 501 words is rejected; no minimum length is
checked. -/
theorem validateForm_accepts_iff (pre post : List FieldDom) (msg : FieldDom)
    (hid : msg.id = "message") (hpre : ∀ f ∈ pre, f.id ≠ "message")
    (hreq : ∀ f ∈ pre ++ post, ContactForm.requiredBlank f = false)
    (hemail : ContactForm.emailFails (pre ++ msg :: post) = false) :
    ((ContactForm.validateForm (pre ++ msg :: post)).1 = true ↔
      wordCount (trim msg.value) ≤ MAX_WORDS
        ∧ (msg.required = true → trim msg.value ≠ []))
    ∧ (wordCount (trim msg.value) = 500 → trim msg.value ≠ [] →
        (ContactForm.validateForm (pre ++ msg :: post)).1 = true)
    ∧ (wordCount (trim msg.value) = 501 →
        (ContactForm.validateForm (pre ++ msg :: post)).1 = false) := by
  have hany : (pre ++ msg :: post).any ContactForm.requiredBlank
      = ContactForm.requiredBlank msg := by
    have h1 : pre.any ContactForm.requiredBlank = false := by
      rw [List.any_eq_false]
      intro f hf
      simp [hreq f (List.mem_append_left _ hf)]
    have h2 : post.any ContactForm.requiredBlank = false := by
      rw [List.any_eq_false]
      intro f hf
      simp [hreq f (List.mem_append_right _ hf)]
    simp [List.any_append, h1, h2]
  have hword : ContactForm.wordLimitFails (pre ++ msg :: post)
      = decide (wordCount (trim msg.value) > MAX_WORDS) := by
    simp only [ContactForm.wordLimitFails, find_message pre post msg hid hpre]
  have hiff : (ContactForm.validateForm (pre ++ msg :: post)).1 = true ↔
      wordCount (trim msg.value) ≤ MAX_WORDS
        ∧ (msg.required = true → trim msg.value ≠ []) := by
    rw [validateForm_verdict, hany, hemail, hword]
    simp only [ContactForm.requiredBlank, Bool.not_false, Bool.and_true, Bool.and_eq_true,
      Bool.not_eq_true', Bool.and_eq_false_iff, decide_eq_false_iff_not, not_lt,
      List.isEmpty_eq_false, gt_iff_lt]
    constructor
    · rintro ⟨h1, h2⟩
      refine ⟨h2, fun hr => ?_⟩
      rcases h1 with h1 | h1
      · rw [hr] at h1; exact Bool.noConfusion h1
      · intro hnil
        rw [hnil] at h1
        simp at h1
    · rintro ⟨h1, h2⟩
      refine ⟨?_, h1⟩
      by_cases hr : msg.required = true
      · right
        exact h2 hr
      · left
        simpa using hr
  refine ⟨hiff, ?_, ?_⟩
  · intro h500 hne
    exact hiff.mpr ⟨by rw [h500]; decide, fun _ => hne⟩
  · intro h501
    have := hiff.not
    simp only [Bool.not_eq_true] at this
    apply this.mpr
    intro h
    rw [h501] at h
    exact absurd h.1 (by decide)

set_option maxRecDepth 100000 in
/-- Witness for the amended C18: a valid name and address, and the two-word
message `hola mundo`. -/
theorem validateForm_accepts_iff_witness :
    (ContactForm.validateForm
        ([plainField "name" (units "Ana") true, plainField "email" (units "a@b.co") true]
          ++ plainField "message" (units "hola mundo") true :: [])).1 = true :=
  ((validateForm_accepts_iff
      [plainField "name" (units "Ana") true, plainField "email" (units "a@b.co") true] []
      (plainField "message" (units "hola mundo") true) rfl (by decide) (by decide)
      (by decide)).1).mpr (by decide)

end CyberShield

namespace CyberShield

/-! ## Status messages, field errors and the enhanced submission -/

/-- C19 (the code departs from the claim). A warning is shown at time 0, an
error at time 1000. Up to time 7999 the error is displayed and the timer of
the warning cannot fire. At time 8000 that timer fires and clears the status
element, although `clearStatus` was not called and no later `showStatus`
overwrote the error. -/
theorem stale_timer_clears_error :
    (FormValidator.statusRun idleValidator
        [.showStatus "Por favor espera... estamos procesando tu envío anterior." .warning,
          .tick 1000,
          .showStatus "Por favor corrige los errores en el formulario antes de enviar." .error,
          .tick 6999, .fire 0]).statusElement
      = some { textContent :=
                some "Por favor corrige los errores en el formulario antes de enviar.",
               kind := some StatusKind.error }
    ∧ (FormValidator.statusRun idleValidator
        [.showStatus "Por favor espera... estamos procesando tu envío anterior." .warning,
          .tick 1000,
          .showStatus "Por favor corrige los errores en el formulario antes de enviar." .error,
          .tick 7000, .fire 0]).statusElement
      = some { textContent := none, kind := none } := by
  decide

theorem ofClass_removeFirstOfClass (c : String) (l : List MessageElement) :
    ofClass c (removeFirstOfClass c l) = (ofClass c l).tail := by
  induction l with
  | nil => rfl
  | cons e rest ih =>
    by_cases h : e.classes.contains c = true
    · have hm : c ∈ e.classes := by simpa using h
      simp [ofClass, removeFirstOfClass, hm]
    · have h' : e.classes.contains c = false := by simpa using h
      simp only [removeFirstOfClass, h', Bool.false_eq_true, if_false]
      simp only [ofClass, List.filter_cons, h', Bool.false_eq_true, if_false]
      exact ih

theorem ofClass_append_single (c : String) (l : List MessageElement) (id text : String)
    (attrs : List (String × String)) :
    ofClass c (l ++ [{ classes := [c], id := id, textContent := text, attributes := attrs }])
      = ofClass c l ++ [{ classes := [c], id := id, textContent := text, attributes := attrs }] := by
  simp [ofClass, List.filter_append]

theorem countOfClass_eq (c : String) (l : List MessageElement) :
    countOfClass c l = (ofClass c l).length := by
  simp [countOfClass, ofClass, List.countP_eq_length_filter]

theorem formValidator_show_ofClass (field : FieldDom) (m : String) :
    ofClass "error-message" (FormValidator.showFieldError field m).siblings
      = (ofClass "error-message" field.siblings).tail ++
          [{ classes := ["error-message"], id := field.id ++ "-error", textContent := m,
             attributes := [("role", "alert"), ("aria-live", "polite")] }] := by
  simp only [FormValidator.showFieldError, FormValidator.clearFieldError]
  rw [ofClass_append_single, ofClass_removeFirstOfClass]

theorem contactForm_show_ofClass (field : FieldDom) (m : String) :
    ofClass "field-error" (ContactForm.showFieldError field m).siblings
      = (ofClass "field-error" field.siblings).tail ++
          [{ classes := ["field-error"], id := "", textContent := m,
             attributes := [("role", "alert")] }] := by
  simp only [ContactForm.showFieldError, ContactForm.clearFieldError]
  rw [ofClass_append_single, ofClass_removeFirstOfClass]

theorem formValidator_applyOps_le (ops : List FieldErrorOp) :
    ∀ field : FieldDom, (ofClass "error-message" field.siblings).length ≤ 1 →
      (ofClass "error-message" (FormValidator.applyOps field ops).siblings).length ≤ 1 := by
  induction ops with
  | nil => intro field h; exact h
  | cons op rest ih =>
    intro field h
    simp only [FormValidator.applyOps, List.foldl_cons]
    apply ih
    cases op with
    | showFieldError m =>
      rw [formValidator_show_ofClass]
      simp only [List.length_append, List.length_tail, List.length_singleton]
      omega
    | clearFieldError =>
      simp only [FormValidator.clearFieldError, ofClass_removeFirstOfClass, List.length_tail]
      omega

theorem contactForm_applyOps_le (ops : List FieldErrorOp) :
    ∀ field : FieldDom, (ofClass "field-error" field.siblings).length ≤ 1 →
      (ofClass "field-error" (ContactForm.applyOps field ops).siblings).length ≤ 1 := by
  induction ops with
  | nil => intro field h; exact h
  | cons op rest ih =>
    intro field h
    simp only [ContactForm.applyOps, List.foldl_cons]
    apply ih
    cases op with
    | showFieldError m =>
      rw [contactForm_show_ofClass]
      simp only [List.length_append, List.length_tail, List.length_singleton]
      omega
    | clearFieldError =>
      simp only [ContactForm.clearFieldError, ofClass_removeFirstOfClass, List.length_tail]
      omega

theorem tail_append_single_of_le_one {α : Type} (l : List α) (e : α) (h : l.length ≤ 1) :
    (l.tail ++ [e]).tail = [] := by
  cases l with
  | nil => rfl
  | cons a t =>
    have : t = [] := List.length_eq_zero.mp (by simpa using h)
    subst this
    rfl

/-- C20. Starting from a field whose parent holds no error message, after any
sequence of `showFieldError` and `clearFieldError` calls on that field the
parent holds at most one error-message element, in `FormValidator` (class
`error-message`) and in `ContactForm` (class `field-error`); and when two
further calls `showFieldError(field, m₁)`, `showFieldError(field, m₂)`
follow, it holds exactly one, whose text is `m₂`. -/
theorem showFieldError_replaces (field : FieldDom) (ops : List FieldErrorOp) (m₁ m₂ : String)
    (hv : countOfClass "error-message" field.siblings = 0)
    (hc : countOfClass "field-error" field.siblings = 0) :
    countOfClass "error-message" (FormValidator.applyOps field ops).siblings ≤ 1
    ∧ countOfClass "field-error" (ContactForm.applyOps field ops).siblings ≤ 1
    ∧ (ofClass "error-message" (FormValidator.applyOps field
          (ops ++ [.showFieldError m₁, .showFieldError m₂])).siblings).map
        MessageElement.textContent = [m₂]
    ∧ (ofClass "field-error" (ContactForm.applyOps field
          (ops ++ [.showFieldError m₁, .showFieldError m₂])).siblings).map
        MessageElement.textContent = [m₂] := by
  rw [countOfClass_eq] at hv hc
  have h1 := formValidator_applyOps_le ops field (by omega)
  have h2 := contactForm_applyOps_le ops field (by omega)
  refine ⟨by rw [countOfClass_eq]; exact h1, by rw [countOfClass_eq]; exact h2, ?_, ?_⟩
  · have e : FormValidator.applyOps field (ops ++ [.showFieldError m₁, .showFieldError m₂])
        = FormValidator.showFieldError
            (FormValidator.showFieldError (FormValidator.applyOps field ops) m₁) m₂ := by
      simp [FormValidator.applyOps, List.foldl_append]
    rw [e, formValidator_show_ofClass, formValidator_show_ofClass,
      tail_append_single_of_le_one _ _ h1]
    rfl
  · have e : ContactForm.applyOps field (ops ++ [.showFieldError m₁, .showFieldError m₂])
        = ContactForm.showFieldError
            (ContactForm.showFieldError (ContactForm.applyOps field ops) m₁) m₂ := by
      simp [ContactForm.applyOps, List.foldl_append]
    rw [e, contactForm_show_ofClass, contactForm_show_ofClass,
      tail_append_single_of_le_one _ _ h2]
    rfl

/-- Witness for C20: an error, a clearing and two more errors on a fresh
name field. -/
theorem showFieldError_replaces_witness :
    (ofClass "error-message" (FormValidator.applyOps (plainField "name" [] true)
        ([.showFieldError "a", .clearFieldError]
          ++ [.showFieldError "b", .showFieldError "c"])).siblings).map
      MessageElement.textContent = ["c"] :=
  (showFieldError_replaces (plainField "name" [] true)
    [.showFieldError "a", .clearFieldError] "b" "c" (by decide) (by decide)).2.2.1

/-- C11 as stated fails: on a form that `validateCompleteForm` rejects, a
submit with fingerprint 7 at time 0 on a fresh limiter does call
`checkAttempt`: the attempt is recorded in the attempts map, and only then
does the validation run. Nothing is sent. -/
theorem invalid_submit_is_rate_checked :
    (EnhancedFormValidation.handleFormSubmission neverValid 7 0 0
        freshEnhanced).rateLimiter.attempts.get 7 = some [0]
    ∧ (EnhancedFormValidation.handleFormSubmission neverValid 7 0 0
        freshEnhanced).rateLimiter.attempts ≠ freshEnhanced.rateLimiter.attempts
    ∧ (EnhancedFormValidation.handleFormSubmission neverValid 7 0 0
        freshEnhanced).validations = 1
    ∧ (EnhancedFormValidation.handleFormSubmission neverValid 7 0 0
        freshEnhanced).sends = 0 := by
  decide

/-- C11 amended. `handleFormSubmission` runs the rate check first, whatever
the form holds: the limiter ends as `checkAttempt` leaves it. The form is
validated exactly when the check allowed the attempt. For a form that
`validateCompleteForm` rejects nothing is sent, and when the attempt was
allowed its time is the last element of the list of the fingerprint. -/
theorem rate_check_precedes_validation {κ F : Type} [DecidableEq κ] (dom : FormDom F)
    (clientId : κ) (now later : Int) (s : EnhancedFormValidation κ F) :
    (EnhancedFormValidation.handleFormSubmission dom clientId now later s).rateLimiter
        = (s.rateLimiter.checkAttempt clientId now).2
    ∧ (EnhancedFormValidation.handleFormSubmission dom clientId now later s).validations
        = (if (s.rateLimiter.checkAttempt clientId now).1.allowed then s.validations + 1
            else s.validations)
    ∧ (dom.validateForm s.form = false →
        (EnhancedFormValidation.handleFormSubmission dom clientId now later s).sends = s.sends
        ∧ ((s.rateLimiter.checkAttempt clientId now).1.allowed = true →
            (EnhancedFormValidation.handleFormSubmission dom clientId now later
                s).rateLimiter.attempts.get clientId
              = some ((((s.rateLimiter.cleanupOldAttempts now).attempts.get clientId).getD [])
                  ++ [now]))) := by
  have hshow : ∀ (t : EnhancedFormValidation κ F) (m : String),
      (t.showSecurityMessage m).rateLimiter = t.rateLimiter
      ∧ (t.showSecurityMessage m).validations = t.validations
      ∧ (t.showSecurityMessage m).sends = t.sends := by
    intro t m
    unfold EnhancedFormValidation.showSecurityMessage
    cases t.statusDiv with
    | none => exact ⟨rfl, rfl, rfl⟩
    | some d => exact ⟨rfl, rfl, rfl⟩
  by_cases ha : (s.rateLimiter.checkAttempt clientId now).1.allowed = true
  · have hrl : (EnhancedFormValidation.handleFormSubmission dom clientId now later
        s).rateLimiter = (s.rateLimiter.checkAttempt clientId now).2 := by
      unfold EnhancedFormValidation.handleFormSubmission
      simp only [ha, Bool.not_true, Bool.false_eq_true, if_false]
      split
      · rfl
      · split <;> rfl
    refine ⟨hrl, ?_, ?_⟩
    · unfold EnhancedFormValidation.handleFormSubmission
      simp only [ha, Bool.not_true, Bool.false_eq_true, if_false, if_true]
      split
      · rfl
      · split <;> rfl
    · intro hinv
      refine ⟨?_, fun _ => ?_⟩
      · unfold EnhancedFormValidation.handleFormSubmission
        simp [ha, hinv]
      · rw [hrl]
        rcases AdvancedRateLimiter.checkAttempt_cases s.rateLimiter clientId now with
          ⟨_, hf, _⟩ | ⟨_, hf, _, _⟩ | ⟨_, _, _, h2⟩
        · rw [hf] at ha; exact Bool.noConfusion ha
        · rw [hf] at ha; exact Bool.noConfusion ha
        · rw [h2]
          simp [JSMap.get_set]
  · have ha' : (s.rateLimiter.checkAttempt clientId now).1.allowed = false := by
      simpa using ha
    have hall : EnhancedFormValidation.handleFormSubmission dom clientId now later s
        = EnhancedFormValidation.showSecurityMessage
            { s with rateLimiter := (s.rateLimiter.checkAttempt clientId now).2 }
            "Demasiados intentos. Por favor, espera 15 minutos." := by
      unfold EnhancedFormValidation.handleFormSubmission
      simp [ha']
    rw [hall]
    obtain ⟨h1, h2, h3⟩ := hshow
      { s with rateLimiter := (s.rateLimiter.checkAttempt clientId now).2 }
      "Demasiados intentos. Por favor, espera 15 minutos."
    refine ⟨h1, ?_, fun _ => ⟨h3, fun hc => ?_⟩⟩
    · rw [h2]
      simp [ha']
    · rw [ha'] at hc
      exact Bool.noConfusion hc

/-- Witness for the amended C11: the rejected form on a fresh limiter. -/
theorem rate_check_precedes_validation_witness :
    (EnhancedFormValidation.handleFormSubmission neverValid 7 0 0 freshEnhanced).sends = 0 :=
  ((rate_check_precedes_validation neverValid 7 0 0 freshEnhanced).2.2 rfl).1

end CyberShield

namespace CyberShield

/-! ## `ErrorHandler.logError` -/

theorem logError_stored {E : Type} (s : Option (List E)) (e : E)
    (h : (s.getD []).length ≤ 10) :
    (logError s e).getD [] = (s.getD [] ++ [e]).drop ((s.getD []).length + 1 - 10) := by
  unfold logError
  simp only [Option.getD_some, List.length_append, List.length_singleton]
  by_cases hl : (s.getD []).length + 1 > 10
  · have h10 : (s.getD []).length + 1 - 10 = 1 := by omega
    rw [if_pos hl, h10, List.drop_one]
  · have h0 : (s.getD []).length + 1 - 10 = 0 := by omega
    rw [if_neg hl, h0, List.drop_zero]

theorem logError_foldl {E : Type} (s : Option (List E)) (h : (s.getD []).length ≤ 10)
    (entries : List E) :
    (entries.foldl logError s).getD [] =
      (s.getD [] ++ entries).drop ((s.getD []).length + entries.length - 10) := by
  induction entries using List.reverseRecOn with
  | nil =>
    have h0 : (s.getD []).length + ([] : List E).length - 10 = 0 := by
      simp only [List.length_nil]; omega
    rw [h0]; simp
  | append_singleton es e ih =>
    have hlen : ((es.foldl logError s).getD []).length ≤ 10 := by
      rw [ih, List.length_drop, List.length_append]; omega
    rw [List.foldl_append, List.foldl_cons, List.foldl_nil, logError_stored _ _ hlen, ih,
      List.length_drop, List.length_append, List.length_append, List.length_singleton,
      ← List.append_assoc]
    by_cases hn : (s.getD []).length + es.length ≤ 10
    · have h0 : (s.getD []).length + es.length - 10 = 0 := by omega
      rw [h0, List.drop_zero]
      congr 1
    · have hk : (s.getD []).length + es.length - 10 ≤ (s.getD [] ++ es).length := by
        rw [List.length_append]; omega
      rw [← List.drop_append_of_le_length hk, List.drop_drop]
      congr 1
      omega

/-- Claim C22: starting from an absent or an empty entry `clientErrors`,
after `logError` has been called once for each of `entries` the stored list
has `min n 10` records, and they are the last `min n 10` of `entries` in the
order of the calls. -/
theorem logError_keeps_last_ten {E : Type} (start : Option (List E))
    (h : start = none ∨ start = some []) (entries : List E) :
    ((entries.foldl logError start).getD []).length = min entries.length 10 ∧
    (entries.foldl logError start).getD [] = entries.drop (entries.length - 10) ∧
    (entries.foldl logError start).getD [] <:+ entries := by
  have hs : start.getD [] = [] := by
    rcases h with h | h <;> rw [h] <;> rfl
  have hl : (start.getD []).length ≤ 10 := by rw [hs]; simp
  have key := logError_foldl start hl entries
  rw [hs, List.nil_append, List.length_nil, Nat.zero_add] at key
  refine ⟨?_, key, ?_⟩
  · rw [key, List.length_drop]; omega
  · rw [key]; exact List.drop_suffix _ _

theorem logError_keeps_last_ten_witness :
    ((([1, 2, 3, 4, 5, 6, 7, 8, 9, 10, 11, 12] : List Nat).foldl logError none).getD []).length
        = min 12 10 ∧
    (([1, 2, 3, 4, 5, 6, 7, 8, 9, 10, 11, 12] : List Nat).foldl logError none).getD []
        = [3, 4, 5, 6, 7, 8, 9, 10, 11, 12] :=
  ⟨(logError_keeps_last_ten none (Or.inl rfl) [1, 2, 3, 4, 5, 6, 7, 8, 9, 10, 11, 12]).1,
   (logError_keeps_last_ten none (Or.inl rfl) [1, 2, 3, 4, 5, 6, 7, 8, 9, 10, 11, 12]).2.1⟩

end CyberShield

namespace CyberShield

/-! ## Field decoration: `clearFieldError` once and twice -/

theorem classListRemove_idem (c : String) (l : List String) :
    classListRemove c (classListRemove c l) = classListRemove c l := by
  simp [classListRemove, List.filter_filter]

theorem setAttribute_idem (name value : String) (l : List (String × String)) :
    setAttribute name value (setAttribute name value l) = setAttribute name value l := by
  induction l with
  | nil => simp [setAttribute]
  | cons a rest ih =>
    by_cases h : a.1 = name
    · simp [setAttribute, h]
    · simp [setAttribute, h, ih]

theorem removeFirstOfClass_of_count_zero (c : String) (l : List MessageElement)
    (h : countOfClass c l = 0) : removeFirstOfClass c l = l := by
  induction l with
  | nil => rfl
  | cons e rest ih =>
    unfold countOfClass at h
    rw [List.countP_cons] at h
    by_cases he : e.classes.contains c = true
    · rw [if_pos he] at h
      omega
    · have he' : e.classes.contains c = false := by simpa using he
      have hr : countOfClass c rest = 0 := by
        unfold countOfClass; omega
      simp only [removeFirstOfClass, he', Bool.false_eq_true, if_false, ih hr]

theorem countOfClass_removeFirstOfClass (c : String) (l : List MessageElement) :
    countOfClass c (removeFirstOfClass c l) = countOfClass c l - 1 := by
  rw [countOfClass_eq, countOfClass_eq, ofClass_removeFirstOfClass, List.length_tail]

/-- With at most one element of class `error-message` under the parent node,
`FormValidator.clearFieldError` twice is the same as once. -/
theorem formValidator_clearFieldError_idem (field : FieldDom)
    (h : countOfClass "error-message" field.siblings ≤ 1) :
    FormValidator.clearFieldError (FormValidator.clearFieldError field)
      = FormValidator.clearFieldError field := by
  have hz : countOfClass "error-message" (removeFirstOfClass "error-message" field.siblings)
      = 0 := by
    rw [countOfClass_removeFirstOfClass]; omega
  simp only [FormValidator.clearFieldError, classListRemove_idem, setAttribute_idem,
    removeFirstOfClass_of_count_zero _ _ hz]

/-- Claim C21: after a paste of suspicious content into the message field
the parent node holds two warning elements (one from the input listener, one
from the paste listener); `EnhancedFormValidation.clearFieldError` then
leaves one of them, and a second call removes it, so twice is not the same
as once. -/
theorem clearFieldError_twice_differs :
    (EnhancedFormValidation.clearFieldError
      (EnhancedFormValidation.showSecurityWarning
        (EnhancedFormValidation.showSecurityWarning (plainField "message" [] true)
          "Entrada sospechosa detectada")
        "Contenido pegado bloqueado por seguridad")).siblings.map (fun e => e.textContent)
      = [" Contenido pegado bloqueado por seguridad"] ∧
    (EnhancedFormValidation.clearFieldError (EnhancedFormValidation.clearFieldError
      (EnhancedFormValidation.showSecurityWarning
        (EnhancedFormValidation.showSecurityWarning (plainField "message" [] true)
          "Entrada sospechosa detectada")
        "Contenido pegado bloqueado por seguridad"))).siblings = [] := by
  decide

/-! ## The retry counter of the retrying `ContactForm` -/

/-- Claim C25: a send answered with status 500 schedules a retry; the user
empties the form during the delay; the retry timer fires and `handleSubmit`
returns at `validateForm`. Nothing is then outstanding or scheduled, yet
`retryCount` is 1. -/
theorem retryCount_left_nonzero :
    ContactForm.outstanding (ContactForm.run verdictForm (ContactForm.new true (some ⟨none, none⟩) 0)
      [.submit, .settle 0 (.response 500), .edit false, .tick 1000, .fire 0]) = 0 ∧
    (ContactForm.run verdictForm (ContactForm.new true (some ⟨none, none⟩) 0)
      [.submit, .settle 0 (.response 500), .edit false, .tick 1000, .fire 0]).timers = [] ∧
    (ContactForm.run verdictForm (ContactForm.new true (some ⟨none, none⟩) 0)
      [.submit, .settle 0 (.response 500), .edit false, .tick 1000, .fire 0]).flights = [] ∧
    (ContactForm.run verdictForm (ContactForm.new true (some ⟨none, none⟩) 0)
      [.submit, .settle 0 (.response 500), .edit false, .tick 1000, .fire 0]).isSubmitting
        = false ∧
    (ContactForm.run verdictForm (ContactForm.new true (some ⟨none, none⟩) 0)
      [.submit, .settle 0 (.response 500), .edit false, .tick 1000, .fire 0]).retryCount = 1 := by
  decide

end CyberShield

namespace CyberShield

/-! ## Blur validation in `FormValidator` -/

set_option maxRecDepth 100000 in
/-- Claim C26: on the required field `#email` holding `a@b.co` the verdict
of `validateField` is true and it leaves no message, but the blur listeners
together leave the class `error` and the message that the address is
obligatory: the second listener calls `validateEmailField` without a
value. -/
theorem blur_rejects_valid_email :
    (FormValidator.validateField (plainField "email" (units "a@b.co") true)).1 = true ∧
    (FormValidator.validateField (plainField "email" (units "a@b.co") true)).2.siblings = [] ∧
    (FormValidator.blur (plainField "email" (units "a@b.co") true)).classList = ["error"] ∧
    (FormValidator.blur (plainField "email" (units "a@b.co") true)).siblings.map
      (fun e => e.textContent) = ["El correo electrónico es obligatorio."] := by
  decide

/-! ## The behaviour score of `EnhancedFormValidation` -/

/-- Claim C29: `analyzeSubmissionBehavior` returns 100 or 70 whatever
`formStartTime` and the clock are, never less than 60, and
`handleFormSubmission` is the function without the branch on the score: a
submission that passes the rate check and `validateCompleteForm` is sent. -/
theorem analyzeSubmissionBehavior_never_rejects {κ F : Type} [DecidableEq κ]
    (dom : FormDom F) (clientId : κ) (now later : Int) (s : EnhancedFormValidation κ F) :
    (EnhancedFormValidation.analyzeSubmissionBehavior s.formStartTime later = 100 ∨
      EnhancedFormValidation.analyzeSubmissionBehavior s.formStartTime later = 70) ∧
    ¬ EnhancedFormValidation.analyzeSubmissionBehavior s.formStartTime later < 60 ∧
    EnhancedFormValidation.handleFormSubmission dom clientId now later s =
      (if !(s.rateLimiter.checkAttempt clientId now).1.allowed then
        EnhancedFormValidation.showSecurityMessage
          { s with rateLimiter := (s.rateLimiter.checkAttempt clientId now).2 }
          "Demasiados intentos. Por favor, espera 15 minutos."
      else if !dom.validateForm s.form then
        { s with rateLimiter := (s.rateLimiter.checkAttempt clientId now).2,
                 validations := s.validations + 1 }
      else
        { s with rateLimiter := (s.rateLimiter.checkAttempt clientId now).2,
                 validations := s.validations + 1, sends := s.sends + 1 }) := by
  have hv : EnhancedFormValidation.analyzeSubmissionBehavior s.formStartTime later = 100 ∨
      EnhancedFormValidation.analyzeSubmissionBehavior s.formStartTime later = 70 := by
    unfold EnhancedFormValidation.analyzeSubmissionBehavior
    simp only [EnhancedFormValidation.fillPatternSuspicious, Bool.false_eq_true, if_false]
    cases s.formStartTime with
    | none => left; show max (0 : Int) 100 = 100; decide
    | some start =>
      by_cases h : later - start < 5000
      · right; simp only [h, if_true]; decide
      · left; simp only [h, if_false]; decide
  have hn : ¬ EnhancedFormValidation.analyzeSubmissionBehavior s.formStartTime later < 60 := by
    rcases hv with h | h <;> rw [h] <;> decide
  refine ⟨hv, hn, ?_⟩
  unfold EnhancedFormValidation.handleFormSubmission
  simp only [if_neg hn]

end CyberShield

namespace CyberShield

/-! ## `hashString` -/

theorem toInt32_range (x : Int) : -2147483648 ≤ toInt32 x ∧ toInt32 x < 2147483648 := by
  unfold toInt32
  simp only
  split_ifs <;> omega

theorem toInt32_idem (x : Int) : toInt32 (toInt32 x) = toInt32 x := by
  unfold toInt32
  simp only
  split_ifs <;> omega

theorem hashStep_toInt32 (w : Int) (c : Nat) :
    hashStep (toInt32 w) c = toInt32 (31 * w + c) := by
  unfold hashStep toInt32
  simp only
  split_ifs <;> omega

theorem weightedSum_append (s : JSString) (c : Nat) :
    weightedSum (s ++ [c]) = 31 * weightedSum s + c := by
  induction s with
  | nil => simp [weightedSum]
  | cons a rest ih =>
    show (a : Int) * 31 ^ (rest ++ [c]).length + weightedSum (rest ++ [c])
      = 31 * ((a : Int) * 31 ^ rest.length + weightedSum rest) + c
    rw [ih, List.length_append, List.length_singleton, pow_succ]
    ring

theorem foldl_hashStep (s : JSString) : s.foldl hashStep 0 = toInt32 (weightedSum s) := by
  induction s using List.reverseRecOn with
  | nil => decide
  | append_singleton s c ih =>
    rw [List.foldl_append, List.foldl_cons, List.foldl_nil, ih, hashStep_toInt32,
      weightedSum_append]

/-- Claim C30: `hashString` renders in base 16, with a leading `-` when
negative, the sum of `c_i * 31^(n-1-i)` reduced to a signed 32-bit integer;
the empty string gives `0`, and the two different strings `Aa` and `BB` give
the same result. -/
theorem hashString_weightedSum (str : JSString) :
    ContactSecurity.hashString str = toString16 (toInt32 (weightedSum str)) ∧
    (-2147483648 ≤ toInt32 (weightedSum str) ∧ toInt32 (weightedSum str) < 2147483648 ∧
      (toInt32 (weightedSum str) - weightedSum str) % 4294967296 = 0) ∧
    ContactSecurity.hashString [] = "0" ∧
    units "Aa" ≠ units "BB" ∧
    ContactSecurity.hashString (units "Aa") = "840" ∧
    ContactSecurity.hashString (units "BB") = "840" := by
  refine ⟨?_, ⟨(toInt32_range _).1, (toInt32_range _).2, ?_⟩, ?_, ?_, ?_, ?_⟩
  · unfold ContactSecurity.hashString
    rw [foldl_hashStep]
  · unfold toInt32
    simp only
    split_ifs <;> omega
  · decide
  · decide
  · decide
  · decide

end CyberShield

namespace CyberShield

/-! ## The enhanced validators against the base ones -/

theorem Regex.accepts_litI_of_lit (w : JSString) : ∀ (pre s post : JSString),
    Regex.accepts (Regex.lit w) pre s post = true →
    Regex.accepts (Regex.litI w) pre s post = true := by
  induction w with
  | nil => intro pre s post h; exact h
  | cons u t ih =>
    have hu : ∀ (pre s post : JSString), Regex.accepts (Regex.unit u) pre s post = true →
        Regex.accepts (Regex.unitI u) pre s post = true := by
      intro pre s post h
      obtain ⟨v, rfl, hv⟩ := (Regex.accepts_cls _ _ _ _).mp h
      exact (Regex.accepts_cls _ _ _ _).mpr ⟨v, rfl, by simp [hv]⟩
    cases t with
    | nil => exact hu
    | cons v t' =>
      intro pre s post h
      obtain ⟨x, y, hxy, hx, hy⟩ := (Regex.accepts_seq _ _ _ _ _).mp h
      exact (Regex.accepts_seq _ _ _ _ _).mpr ⟨x, y, hxy, hu _ _ _ hx, ih _ _ _ hy⟩

theorem containsSuspiciousPatterns_of_url (m : JSString)
    (h : Regex.test urlRegex m = true) :
    EnhancedFormValidation.containsSuspiciousPatterns m = true := by
  obtain ⟨x, y, z, hs, hacc⟩ := (Regex.test_iff _ _).mp h
  unfold urlRegex at hacc
  obtain ⟨a, b, hab, ha, hb⟩ := (Regex.accepts_seq _ _ _ _ _).mp hacc
  have ha' : Regex.accepts (Regex.anyOf [Regex.litI (units "http"), Regex.litI (units "https"),
      Regex.litI (units "ftp"), Regex.litI (units "ftps")]) x a (b ++ z) = true := by
    simp only [Regex.anyOf, Regex.accepts_alt] at ha ⊢
    rcases ha with ha | ha | ha | ha
    · exact Or.inl (Regex.accepts_litI_of_lit _ _ _ _ ha)
    · exact Or.inr (Or.inl (Regex.accepts_litI_of_lit _ _ _ _ ha))
    · exact Or.inr (Or.inr (Or.inl (Regex.accepts_litI_of_lit _ _ _ _ ha)))
    · exact Or.inr (Or.inr (Or.inr (Regex.accepts_litI_of_lit _ _ _ _ ha)))
  have h7 : Regex.test (.seq (Regex.anyOf [Regex.litI (units "http"),
      Regex.litI (units "https"), Regex.litI (units "ftp"), Regex.litI (units "ftps")])
      (.seq (Regex.lit (units "://")) urlTail)) m = true :=
    (Regex.test_iff _ _).mpr ⟨x, y, z, hs, (Regex.accepts_seq _ _ _ _ _).mpr ⟨a, b, hab, ha', hb⟩⟩
  unfold EnhancedFormValidation.containsSuspiciousPatterns suspiciousPatterns
  simp only [List.any_cons, Bool.or_eq_true]
  right; right; right; right; right; right; left
  exact h7

/-- Claim C27: whatever the enhanced `validateName`, `validateEmail` and
`validateMessage` accept, the validator of the same name in
`ContactSecurity` accepts too. -/
theorem enhanced_validators_refine (name email message : JSString) :
    (EnhancedFormValidation.validateName name = true →
      ContactSecurity.validateName name = true) ∧
    (EnhancedFormValidation.validateEmail email = true →
      ContactSecurity.validateEmail email = true) ∧
    (EnhancedFormValidation.validateMessage message = true →
      ContactSecurity.validateMessage message = true) := by
  refine ⟨?_, ?_, ?_⟩
  · intro h
    unfold EnhancedFormValidation.validateName at h
    simp only [Bool.and_eq_true, Regex.testWhole, Regex.accepts_rep_cls] at h
    exact (validateName_verdict name).mpr h.1.2
  · intro h
    unfold EnhancedFormValidation.validateEmail at h
    unfold ContactSecurity.validateEmail
    simp only [Bool.and_eq_true] at h ⊢
    exact h.1
  · intro h
    unfold EnhancedFormValidation.validateMessage at h
    simp only [Bool.and_eq_true, Bool.not_eq_true', decide_eq_true_eq, ge_iff_le] at h
    refine (validateMessage_verdict message).mpr ⟨h.1.1.1.2, h.1.1.2, ?_⟩
    cases hu : Regex.test urlRegex message with
    | false => rfl
    | true =>
      have := containsSuspiciousPatterns_of_url message hu
      rw [h.1.2] at this
      exact absurd this (by decide)

set_option maxRecDepth 100000 in
theorem enhanced_validators_refine_witness :
    (EnhancedFormValidation.validateName (units "Ana") = true ∧
      ContactSecurity.validateName (units "Ana") = true) ∧
    (EnhancedFormValidation.validateEmail (units "a@b.co") = true ∧
      ContactSecurity.validateEmail (units "a@b.co") = true) ∧
    (EnhancedFormValidation.validateMessage (units "hola mundo") = true ∧
      ContactSecurity.validateMessage (units "hola mundo") = true) :=
  ⟨⟨by decide, (enhanced_validators_refine (units "Ana") (units "a@b.co")
      (units "hola mundo")).1 (by decide)⟩,
   ⟨by decide, (enhanced_validators_refine (units "Ana") (units "a@b.co")
      (units "hola mundo")).2.1 (by decide)⟩,
   ⟨by decide, (enhanced_validators_refine (units "Ana") (units "a@b.co")
      (units "hola mundo")).2.2 (by decide)⟩⟩

end CyberShield

namespace CyberShield

/-! ## `sanitizeInput` -/

theorem mem_of_mem_trim (s : JSString) (u : Nat) (h : u ∈ trim s) : u ∈ s := by
  unfold trim at h
  rw [List.mem_reverse] at h
  have h1 := (List.dropWhile_suffix isSpace).subset h
  rw [List.mem_reverse] at h1
  exact (List.dropWhile_suffix isSpace).subset h1

theorem not_special_of_mem_stripSpecial (input : JSString) (u : Nat)
    (h : u ∈ stripSpecial input) : u ≠ 60 ∧ u ≠ 62 ∧ u ≠ 38 ∧ u ≠ 34 ∧ u ≠ 39 := by
  unfold stripSpecial at h
  simp only [List.mem_filter, Bool.not_eq_true', Bool.or_eq_false_iff,
    decide_eq_false_iff_not] at h
  exact ⟨h.1.2.1, h.1.2.2, h.2.1.1.1.1, h.2.1.2, h.2.2⟩

/-- With any replacement in the place of the third expression that only
takes code units away, the statements of `sanitizeInput` give a string
without the five special characters and of at most 1000 code units. -/
theorem sanitizeSteps_clean (strip : JSString → JSString)
    (hs : ∀ s u, u ∈ strip s → u ∈ s) (input : JSString) :
    (∀ u ∈ ContactSecurity.sanitizeSteps strip input,
      u ≠ 60 ∧ u ≠ 62 ∧ u ≠ 38 ∧ u ≠ 34 ∧ u ≠ 39) ∧
    (ContactSecurity.sanitizeSteps strip input).length ≤ 1000 ∧
    (∀ u ∈ EnhancedFormValidation.sanitizeSteps strip input,
      u ≠ 60 ∧ u ≠ 62 ∧ u ≠ 38 ∧ u ≠ 34 ∧ u ≠ 39) ∧
    (EnhancedFormValidation.sanitizeSteps strip input).length ≤ 1000 := by
  have hm : ∀ u ∈ trim (strip (stripSpecial input)),
      u ≠ 60 ∧ u ≠ 62 ∧ u ≠ 38 ∧ u ≠ 34 ∧ u ≠ 39 := fun u hu =>
    not_special_of_mem_stripSpecial input u (hs _ _ (mem_of_mem_trim _ _ hu))
  refine ⟨?_, ?_, ?_, ?_⟩
  · intro u hu
    unfold ContactSecurity.sanitizeSteps at hu
    simp only at hu
    split_ifs at hu
    · exact hm u (List.mem_of_mem_take hu)
    · exact hm u hu
  · unfold ContactSecurity.sanitizeSteps
    simp only
    split_ifs with h
    · rw [List.length_take]; omega
    · omega
  · intro u hu
    exact hm u (List.mem_of_mem_take hu)
  · unfold EnhancedFormValidation.sanitizeSteps
    rw [List.length_take]; omega

/-- Claim C23: the third expression literal of `sanitizeInput` has an
unmatched closing parenthesis, so in both classes the call has no result,
whatever the input, a string or not: the script is rejected. -/
theorem sanitizeInput_rejected (strip : JSString → JSString) (input : JSValue) :
    groupsBalanced (units blacklistSource) 0 false false = false ∧
    ContactSecurity.sanitizeInput strip input = .error unmatchedParenthesis ∧
    EnhancedFormValidation.sanitizeInput strip input = .error unmatchedParenthesis := by
  have h : groupsBalanced (units blacklistSource) 0 false false = false := by decide
  refine ⟨h, ?_, ?_⟩
  · unfold ContactSecurity.sanitizeInput
    rw [h]; rfl
  · unfold EnhancedFormValidation.sanitizeInput
    rw [h]; rfl

end CyberShield

namespace CyberShield

/-! ## One pass of `sanitizeInput` against two -/

theorem stripSpecial_eq_self (s : JSString)
    (h : ∀ u ∈ s, u ≠ 60 ∧ u ≠ 62 ∧ u ≠ 38 ∧ u ≠ 34 ∧ u ≠ 39) : stripSpecial s = s := by
  unfold stripSpecial
  have h1 : s.filter (fun u => !(decide (u = 60) || decide (u = 62))) = s := by
    rw [List.filter_eq_self]
    intro u hu
    obtain ⟨a, b, _, _, _⟩ := h u hu
    simp [a, b]
  rw [h1, List.filter_eq_self]
  intro u hu
  obtain ⟨a, b, c, d, e⟩ := h u hu
  simp [a, b, c, d, e]

theorem stripSpecial_overlong (n : Nat) : stripSpecial (overlong n) = overlong n := by
  apply stripSpecial_eq_self
  intro u hu
  unfold overlong at hu
  simp only [List.mem_append, List.mem_replicate, List.mem_cons, List.mem_singleton,
    List.not_mem_nil, or_false] at hu
  omega

theorem stripSpecial_blankEnd (n : Nat) :
    stripSpecial (List.replicate (n + 1) 97 ++ [32]) = List.replicate (n + 1) 97 ++ [32] := by
  apply stripSpecial_eq_self
  intro u hu
  simp only [List.mem_append, List.mem_replicate, List.mem_singleton] at hu
  omega

theorem dropWhile_replicate_a (n : Nat) (t : JSString) :
    (List.replicate (n + 1) 97 ++ t).dropWhile isSpace = List.replicate (n + 1) 97 ++ t := by
  rw [List.replicate_succ, List.cons_append, List.dropWhile_cons_of_neg (by decide)]

theorem trim_overlong (n : Nat) : trim (overlong n) = overlong n := by
  unfold trim overlong
  rw [dropWhile_replicate_a, List.reverse_append]
  show (List.dropWhile isSpace (98 :: ([32] ++ (List.replicate (n + 1) 97).reverse))).reverse = _
  rw [List.dropWhile_cons_of_neg (by decide)]
  simp

theorem trim_blankEnd (n : Nat) :
    trim (List.replicate (n + 1) 97 ++ [32]) = List.replicate (n + 1) 97 := by
  unfold trim
  rw [dropWhile_replicate_a, List.reverse_append, List.reverse_replicate]
  show (List.dropWhile isSpace (32 :: List.replicate (n + 1) 97)).reverse = _
  rw [List.dropWhile_cons_of_pos (by decide), List.replicate_succ,
    List.dropWhile_cons_of_neg (by decide), ← List.replicate_succ, List.reverse_replicate]

theorem take_overlong (n : Nat) :
    (overlong n).take (n + 2) = List.replicate (n + 1) 97 ++ [32] := by
  unfold overlong
  rw [List.take_append_eq_append_take, List.length_replicate,
    List.take_of_length_le (by rw [List.length_replicate]; omega)]
  have : n + 2 - (n + 1) = 1 := by omega
  rw [this]
  rfl

/-- Claim C28: `sanitizeInput` has no result to apply it to again, the
script being rejected for the unmatched parenthesis; and the statements
around the third expression are not idempotent by themselves. With any
replacement `strip` in its place that leaves the two texts below as they
are, one pass on 999 letters `a`, a blank and a letter `b` cuts after the
blank, so the result ends in a blank, and a second pass trims it away. -/
theorem sanitizeInput_not_idempotent (strip : JSString → JSString)
    (h1 : strip (overlong 998) = overlong 998)
    (h2 : strip (List.replicate 999 97 ++ [32]) = List.replicate 999 97 ++ [32]) :
    ContactSecurity.sanitizeInput strip (.string (overlong 998))
      = .error unmatchedParenthesis ∧
    ContactSecurity.sanitizeSteps strip (overlong 998) = List.replicate 999 97 ++ [32] ∧
    ContactSecurity.sanitizeSteps strip (ContactSecurity.sanitizeSteps strip (overlong 998))
      = List.replicate 999 97 ∧
    EnhancedFormValidation.sanitizeSteps strip (overlong 998)
      = List.replicate 999 97 ++ [32] ∧
    EnhancedFormValidation.sanitizeSteps strip
      (EnhancedFormValidation.sanitizeSteps strip (overlong 998)) = List.replicate 999 97 := by
  have hb : groupsBalanced (units blacklistSource) 0 false false = false := by decide
  have e1 : trim (strip (stripSpecial (overlong 998))) = overlong 998 := by
    rw [stripSpecial_overlong, h1, trim_overlong]
  have e2 : trim (strip (stripSpecial (List.replicate 999 97 ++ [32])))
      = List.replicate 999 97 := by
    rw [stripSpecial_blankEnd 998, h2]
    exact trim_blankEnd 998
  have l1 : (overlong 998).length = 1001 := by
    rw [overlong, List.length_append, List.length_replicate]; rfl
  have l2 : (List.replicate 999 97 : JSString).length = 999 := List.length_replicate _ _
  have t1 : (overlong 998).take 1000 = List.replicate 999 97 ++ [32] := take_overlong 998
  have c1 : ContactSecurity.sanitizeSteps strip (overlong 998)
      = List.replicate 999 97 ++ [32] := by
    unfold ContactSecurity.sanitizeSteps
    simp only [e1, l1]
    rw [if_pos (by decide), t1]
  have c2 : EnhancedFormValidation.sanitizeSteps strip (overlong 998)
      = List.replicate 999 97 ++ [32] := by
    unfold EnhancedFormValidation.sanitizeSteps
    rw [e1, t1]
  refine ⟨?_, c1, ?_, c2, ?_⟩
  · unfold ContactSecurity.sanitizeInput
    rw [hb]; rfl
  · rw [c1]
    unfold ContactSecurity.sanitizeSteps
    simp only [e2, l2]
    rw [if_neg (by decide)]
  · rw [c2]
    unfold EnhancedFormValidation.sanitizeSteps
    rw [e2, List.take_of_length_le (by rw [l2]; decide)]

theorem sanitizeInput_not_idempotent_witness :
    id (overlong 998) = overlong 998 ∧
    ContactSecurity.sanitizeSteps id (overlong 998) = List.replicate 999 97 ++ [32] ∧
    ContactSecurity.sanitizeSteps id (ContactSecurity.sanitizeSteps id (overlong 998))
      = List.replicate 999 97 :=
  ⟨rfl, (sanitizeInput_not_idempotent id rfl rfl).2.1,
    (sanitizeInput_not_idempotent id rfl rfl).2.2.1⟩

end CyberShield

namespace CyberShield

/-! ## Independence of identifiers in the rate limiter -/

namespace JSMap

variable {κ ν : Type} [DecidableEq κ]

theorem liveKeys_deleteSlots (l : List (Option (κ × ν))) (k : κ) :
    liveKeys (deleteSlots l k) = (liveKeys l).erase k := by
  induction l with
  | nil => simp [deleteSlots, liveKeys]
  | cons slot rest ih =>
    cases slot with
    | none => simpa [deleteSlots, liveKeys] using ih
    | some e =>
      obtain ⟨k₀, v₀⟩ := e
      by_cases h1 : k₀ = k
      · subst h1
        simp [deleteSlots, liveKeys]
      · have ih' : List.map Prod.fst (List.filterMap id (deleteSlots rest k))
            = (List.map Prod.fst (List.filterMap id rest)).erase k := ih
        simp [deleteSlots, liveKeys, h1, List.erase_cons, ih']

theorem WF_delete (m : JSMap κ ν) (k : κ) (h : m.WF) : (m.delete k).WF := by
  unfold WF at *
  simp only [delete, liveKeys_deleteSlots]
  exact h.erase k

theorem get_delete_self (m : JSMap κ ν) (k : κ) (h : m.WF) : (m.delete k).get k = none := by
  unfold WF at h
  unfold get delete
  rw [getSlots_eq_none_iff, liveKeys_deleteSlots]
  intro hm
  exact ((h.mem_erase_iff).mp hm).1 rfl

end JSMap

theorem countP_erase_of_find {α : Type} [BEq α] [LawfulBEq α] (p : α → Bool) (l : List α) (t : α)
    (h : l.find? p = some t) : (l.erase t).countP p + 1 = l.countP p := by
  induction l with
  | nil => simp at h
  | cons a rest ih =>
    rw [List.find?_cons] at h
    cases hp : p a with
    | true =>
      rw [hp] at h
      simp only [Option.some.injEq] at h
      subst h
      simp [hp]
    | false =>
      rw [hp] at h
      have hne : a ≠ t := by
        intro e
        rw [e, List.find?_some h] at hp
        exact Bool.noConfusion hp
      simp only [List.erase_cons, beq_iff_eq, hne, if_false, List.countP_cons, hp,
        Bool.false_eq_true]
      exact ih h

theorem countP_erase_of_neg {α : Type} [BEq α] [LawfulBEq α] (p : α → Bool) (l : List α) (t : α)
    (h : p t = false) : (l.erase t).countP p = l.countP p := by
  induction l with
  | nil => simp
  | cons a rest ih =>
    by_cases e : a = t
    · subst e
      simp [h]
    · simp only [List.erase_cons, beq_iff_eq, e, if_false, List.countP_cons, ih]

end CyberShield

namespace CyberShield

namespace AdvancedRateLimiter

variable {κ : Type} [DecidableEq κ]

/-- The timer of another identifier leaves what the calls for `b` see. -/
theorem expire_other (s : AdvancedRateLimiter κ) (c b : κ) (h : c ≠ b)
    (hp : s.penaltyBox.WF) :
    (s.expire c).attempts = s.attempts ∧ (s.expire c).penaltyBox.WF ∧
    (s.expire c).penaltyBox.has b = s.penaltyBox.has b ∧
    (s.expire c).timers.countP (fun t => decide (t.2 = b))
      = s.timers.countP (fun t => decide (t.2 = b)) := by
  unfold expire
  cases hf : s.timers.find? (fun t => decide (t.2 = c)) with
  | none => exact ⟨rfl, hp, rfl, rfl⟩
  | some t =>
    have ht : t.2 = c := by simpa using List.find?_some hf
    refine ⟨rfl, JSMap.WF_delete _ _ hp, ?_, ?_⟩
    · show (s.penaltyBox.delete c).has b = s.penaltyBox.has b
      unfold JSMap.has
      rw [JSMap.get_delete_ne _ _ _ h]
    · show (s.timers.erase t).countP (fun t => decide (t.2 = b)) = _
      apply countP_erase_of_neg
      simp only [decide_eq_false_iff_not, ht]
      exact h

/-- The timer of `b` itself: either none is pending and nothing changes, or
one is consumed and `b` leaves the penalty box. -/
theorem expire_self (s : AdvancedRateLimiter κ) (b : κ) (hp : s.penaltyBox.WF) :
    (s.expire b).attempts = s.attempts ∧ (s.expire b).penaltyBox.WF ∧
    ((s.timers.countP (fun t => decide (t.2 = b)) = 0 ∧ s.expire b = s) ∨
     ((s.expire b).timers.countP (fun t => decide (t.2 = b)) + 1
        = s.timers.countP (fun t => decide (t.2 = b)) ∧
      (s.expire b).penaltyBox.has b = false)) := by
  unfold expire
  cases hf : s.timers.find? (fun t => decide (t.2 = b)) with
  | none =>
    refine ⟨rfl, hp, Or.inl ⟨?_, rfl⟩⟩
    rw [List.countP_eq_zero]
    exact List.find?_eq_none.mp hf
  | some t =>
    refine ⟨rfl, JSMap.WF_delete _ _ hp, Or.inr ⟨?_, ?_⟩⟩
    · show (s.timers.erase t).countP (fun t => decide (t.2 = b)) + 1 = _
      exact countP_erase_of_find _ _ _ hf
    · show (s.penaltyBox.delete b).has b = false
      unfold JSMap.has
      rw [JSMap.get_delete_self _ _ hp]
      rfl

/-- A call for another identifier `c` changes, of what the calls for `b`
see, only the stored attempts, which it filters at its clock reading. -/
theorem checkAttempt_other (s : AdvancedRateLimiter κ) (c b : κ) (now : Int) (h : c ≠ b)
    (ha : s.attempts.WF) (hp : s.penaltyBox.WF) :
    (s.checkAttempt c now).2.attempts.WF ∧ (s.checkAttempt c now).2.penaltyBox.WF ∧
    (s.checkAttempt c now).2.penaltyBox.has b = s.penaltyBox.has b ∧
    (s.checkAttempt c now).2.timers.countP (fun t => decide (t.2 = b))
      = s.timers.countP (fun t => decide (t.2 = b)) ∧
    ((s.checkAttempt c now).2.attempts.get b).getD []
      = ((s.attempts.get b).getD []).filter (isRecent now) := by
  have hw := WF_cleanupOldAttempts s now ha
  have hg := get_cleanupOldAttempts s now b ha
  rcases checkAttempt_cases s c now with ⟨_, _, e⟩ | ⟨_, _, _, e⟩ | ⟨_, _, _, e⟩
  · rw [e]
    exact ⟨hw, hp, rfl, rfl, hg⟩
  · rw [e]
    refine ⟨hw, JSMap.WF_set _ _ _ hp, ?_, ?_, hg⟩
    · show (s.penaltyBox.set c now).has b = s.penaltyBox.has b
      unfold JSMap.has
      rw [JSMap.get_set, if_neg h]
    · show (s.timers ++ [(now + penaltyDelay, c)]).countP (fun t => decide (t.2 = b)) = _
      rw [List.countP_append, List.countP_singleton]
      simp [h]
  · rw [e]
    refine ⟨JSMap.WF_set _ _ _ hw, hp, rfl, rfl, ?_⟩
    show (((s.cleanupOldAttempts now).attempts.set c _).get b).getD [] = _
    rw [JSMap.get_set, if_neg h]
    exact hg

end AdvancedRateLimiter

end CyberShield

namespace CyberShield

namespace AdvancedRateLimiter

variable {κ : Type} [DecidableEq κ]

/-- On two states that look the same to `b`, a call for `b` returns the same
object and leaves two states that look the same to `b`. -/
theorem checkAttempt_sameFor (b : κ) (last now : Int) (s₁ s₂ : AdvancedRateLimiter κ)
    (h : sameFor b last s₁ s₂) (hl : last ≤ now) :
    (s₁.checkAttempt b now).1 = (s₂.checkAttempt b now).1 ∧
    sameFor b now (s₁.checkAttempt b now).2 (s₂.checkAttempt b now).2 := by
  obtain ⟨ha₁, ha₂, hp₁, hp₂, hb, ht, hf⟩ := h
  have hw₁ := WF_cleanupOldAttempts s₁ now ha₁
  have hw₂ := WF_cleanupOldAttempts s₂ now ha₂
  have hg₁ := get_cleanupOldAttempts s₁ now b ha₁
  have hg₂ := get_cleanupOldAttempts s₂ now b ha₂
  have hg : ((s₁.cleanupOldAttempts now).attempts.get b).getD []
      = ((s₂.cleanupOldAttempts now).attempts.get b).getD [] := by
    rw [hg₁, hg₂, hf now hl]
  have hclean : sameFor b now (s₁.cleanupOldAttempts now) (s₂.cleanupOldAttempts now) :=
    ⟨hw₁, hw₂, hp₁, hp₂, hb, ht, fun n _ => by rw [hg]⟩
  cases hb₁ : s₁.penaltyBox.has b with
  | true =>
    have hb₂ : s₂.penaltyBox.has b = true := by rw [← hb, hb₁]
    rw [checkAttempt_blocked s₁ b now hb₁, checkAttempt_blocked s₂ b now hb₂]
    exact ⟨rfl, hclean⟩
  | false =>
    have hb₂ : s₂.penaltyBox.has b = false := by rw [← hb, hb₁]
    by_cases hc : maxAttempts ≤ ((((s₁.cleanupOldAttempts now).attempts.get b).getD []).filter
        (isRecent now)).length
    · have hc₂ := hc
      rw [hg] at hc₂
      rw [checkAttempt_limit s₁ b now hb₁ hc, checkAttempt_limit s₂ b now hb₂ hc₂]
      refine ⟨rfl, hw₁, hw₂, JSMap.WF_set _ _ _ hp₁, JSMap.WF_set _ _ _ hp₂, ?_, ?_, ?_⟩
      · show (s₁.penaltyBox.set b now).has b = (s₂.penaltyBox.set b now).has b
        unfold JSMap.has
        rw [JSMap.get_set, JSMap.get_set, if_pos rfl, if_pos rfl]
      · show (s₁.timers ++ [(now + penaltyDelay, b)]).countP (fun t => decide (t.2 = b))
          = (s₂.timers ++ [(now + penaltyDelay, b)]).countP (fun t => decide (t.2 = b))
        rw [List.countP_append, List.countP_append, ht]
      · intro n _
        show (((s₁.cleanupOldAttempts now).attempts.get b).getD []).filter (isRecent n)
          = (((s₂.cleanupOldAttempts now).attempts.get b).getD []).filter (isRecent n)
        rw [hg]
    · have hc₁ : ((((s₁.cleanupOldAttempts now).attempts.get b).getD []).filter
          (isRecent now)).length < maxAttempts := Nat.lt_of_not_le hc
      have hc₂ := hc₁
      rw [hg] at hc₂
      rw [checkAttempt_allowed s₁ b now hb₁ hc₁, checkAttempt_allowed s₂ b now hb₂ hc₂]
      refine ⟨by rw [hg], JSMap.WF_set _ _ _ hw₁, JSMap.WF_set _ _ _ hw₂, hp₁, hp₂, hb, ht, ?_⟩
      intro n _
      show (((((s₁.cleanupOldAttempts now).attempts.set b _).get b).getD []).filter (isRecent n))
        = (((((s₂.cleanupOldAttempts now).attempts.set b _).get b).getD []).filter (isRecent n))
      rw [JSMap.get_set, JSMap.get_set, if_pos rfl, if_pos rfl, hg]

/-- A call for another identifier on the first state only keeps the two
states alike for `b` from its clock reading on. -/
theorem sameFor_check_left (a b : κ) (hab : a ≠ b) (last now : Int)
    (s₁ s₂ : AdvancedRateLimiter κ) (h : sameFor b last s₁ s₂) (hl : last ≤ now) :
    sameFor b now (s₁.checkAttempt a now).2 s₂ := by
  obtain ⟨ha₁, ha₂, hp₁, hp₂, hb, ht, hf⟩ := h
  obtain ⟨w, p, hh, tt, g⟩ := checkAttempt_other s₁ a b now hab ha₁ hp₁
  refine ⟨w, ha₂, p, hp₂, by rw [hh, hb], by rw [tt, ht], ?_⟩
  intro n hn
  rw [g, filter_isRecent_of_le hn, hf n (le_trans hl hn)]

/-- The same call for another identifier on both states. -/
theorem sameFor_check_both (c b : κ) (hcb : c ≠ b) (last now : Int)
    (s₁ s₂ : AdvancedRateLimiter κ) (h : sameFor b last s₁ s₂) (hl : last ≤ now) :
    sameFor b now (s₁.checkAttempt c now).2 (s₂.checkAttempt c now).2 := by
  obtain ⟨ha₁, ha₂, hp₁, hp₂, hb, ht, hf⟩ := h
  obtain ⟨w₁, p₁, hh₁, tt₁, g₁⟩ := checkAttempt_other s₁ c b now hcb ha₁ hp₁
  obtain ⟨w₂, p₂, hh₂, tt₂, g₂⟩ := checkAttempt_other s₂ c b now hcb ha₂ hp₂
  refine ⟨w₁, w₂, p₁, p₂, by rw [hh₁, hh₂, hb], by rw [tt₁, tt₂, ht], ?_⟩
  intro n _
  rw [g₁, g₂, hf now hl]

/-- The same timer event on both states. -/
theorem sameFor_expire (c b : κ) (last : Int) (s₁ s₂ : AdvancedRateLimiter κ)
    (h : sameFor b last s₁ s₂) : sameFor b last (s₁.expire c) (s₂.expire c) := by
  obtain ⟨ha₁, ha₂, hp₁, hp₂, hb, ht, hf⟩ := h
  by_cases hcb : c = b
  · subst hcb
    obtain ⟨e₁, p₁, r₁⟩ := expire_self s₁ c hp₁
    obtain ⟨e₂, p₂, r₂⟩ := expire_self s₂ c hp₂
    rcases r₁ with ⟨z₁, u₁⟩ | ⟨n₁, f₁⟩
    · rcases r₂ with ⟨_, u₂⟩ | ⟨n₂, _⟩
      · rw [u₁, u₂]
        exact ⟨ha₁, ha₂, hp₁, hp₂, hb, ht, hf⟩
      · omega
    · rcases r₂ with ⟨z₂, _⟩ | ⟨n₂, f₂⟩
      · omega
      · refine ⟨by rw [e₁]; exact ha₁, by rw [e₂]; exact ha₂, p₁, p₂, by rw [f₁, f₂],
          by omega, ?_⟩
        intro n hn
        rw [e₁, e₂]
        exact hf n hn
  · obtain ⟨e₁, p₁, hh₁, tt₁⟩ := expire_other s₁ c b hcb hp₁
    obtain ⟨e₂, p₂, hh₂, tt₂⟩ := expire_other s₂ c b hcb hp₂
    refine ⟨by rw [e₁]; exact ha₁, by rw [e₂]; exact ha₂, p₁, p₂, by rw [hh₁, hh₂, hb],
      by rw [tt₁, tt₂, ht], ?_⟩
    intro n hn
    rw [e₁, e₂]
    exact hf n hn

end AdvancedRateLimiter

end CyberShield

namespace CyberShield

namespace AdvancedRateLimiter

variable {κ : Type} [DecidableEq κ]

theorem results_sameFor (a b : κ) (hab : a ≠ b) (tr : List (LimiterEvent κ)) :
    ∀ (last : Int) (s₁ s₂ : AdvancedRateLimiter κ), sameFor b last s₁ s₂ →
      (∀ r ∈ readings tr, last ≤ r) → (readings tr).Pairwise (fun x y => x ≤ y) →
      results b s₁ tr = results b s₂ (withoutCalls a tr) := by
  induction tr with
  | nil => intro _ _ _ _ _ _; rfl
  | cons e rest ih =>
    intro last s₁ s₂ h hr hm
    cases e with
    | check c now =>
      have hl : last ≤ now := hr now (by simp [readings])
      have hm' : (∀ r ∈ readings rest, now ≤ r) ∧
          (readings rest).Pairwise (fun x y => x ≤ y) := by
        simpa [readings] using hm
      by_cases hca : c = a
      · subst hca
        have e₁ : results b s₁ (.check c now :: rest)
            = results b (s₁.checkAttempt c now).2 rest := by
          simp only [results, if_neg hab]
        have e₂ : withoutCalls c (.check c now :: rest) = withoutCalls c rest := by
          simp [withoutCalls]
        rw [e₁, e₂]
        exact ih now _ _ (sameFor_check_left c b hab last now s₁ s₂ h hl) hm'.1 hm'.2
      · have e₂ : withoutCalls a (.check c now :: rest)
            = .check c now :: withoutCalls a rest := by
          simp [withoutCalls, hca]
        rw [e₂]
        by_cases hcb : c = b
        · subst hcb
          obtain ⟨hres, hs⟩ := checkAttempt_sameFor c last now s₁ s₂ h hl
          simp only [results, if_pos rfl]
          rw [hres, ih now _ _ hs hm'.1 hm'.2]
        · simp only [results, if_neg hcb]
          exact ih now _ _ (sameFor_check_both c b hcb last now s₁ s₂ h hl) hm'.1 hm'.2
    | expire c =>
      have e₂ : withoutCalls a (.expire c :: rest) = .expire c :: withoutCalls a rest := by
        simp [withoutCalls]
      rw [e₂]
      simp only [results]
      exact ih last _ _ (sameFor_expire c b last s₁ s₂ h) (by simpa [readings] using hr)
        (by simpa [readings] using hm)

end AdvancedRateLimiter

/-- Claim C24: from any state with well-formed maps, along any sequence of
`checkAttempt` calls and timer events whose clock readings do not decrease,
the objects returned to the calls for `b` are those returned in the sequence
without the calls for another identifier `a`. -/
theorem results_independent {κ : Type} [DecidableEq κ] (s : AdvancedRateLimiter κ)
    (a b : κ) (hab : a ≠ b) (tr : List (LimiterEvent κ))
    (ha : s.attempts.WF) (hp : s.penaltyBox.WF)
    (hmono : (AdvancedRateLimiter.readings tr).Pairwise (fun x y => x ≤ y)) :
    AdvancedRateLimiter.results b s tr
      = AdvancedRateLimiter.results b s (AdvancedRateLimiter.withoutCalls a tr) := by
  have hs : ∀ last, AdvancedRateLimiter.sameFor b last s s :=
    fun _ => ⟨ha, ha, hp, hp, rfl, rfl, fun _ _ => rfl⟩
  cases hrd : AdvancedRateLimiter.readings tr with
  | nil =>
    exact AdvancedRateLimiter.results_sameFor a b hab tr 0 s s (hs 0)
      (by rw [hrd]; intro r hr; simp at hr) hmono
  | cons x xs =>
    refine AdvancedRateLimiter.results_sameFor a b hab tr x s s (hs x) ?_ hmono
    rw [hrd] at hmono ⊢
    intro r hr
    rcases List.mem_cons.mp hr with e | e
    · rw [e]
    · exact (List.pairwise_cons.mp hmono).1 r e

theorem results_independent_witness :
    (1 : Nat) ≠ 2 ∧
    (AdvancedRateLimiter.readings ([.check 1 0, .check 2 0, .check 1 1, .check 2 2] :
      List (LimiterEvent Nat))).Pairwise (fun x y => x ≤ y) ∧
    AdvancedRateLimiter.results 2 (AdvancedRateLimiter.new : AdvancedRateLimiter Nat)
        [.check 1 0, .check 2 0, .check 1 1, .check 2 2]
      = AdvancedRateLimiter.results 2 AdvancedRateLimiter.new
          (AdvancedRateLimiter.withoutCalls 1
            [.check 1 0, .check 2 0, .check 1 1, .check 2 2]) :=
  ⟨by decide, by decide,
    results_independent AdvancedRateLimiter.new 1 2 (by decide)
      [.check 1 0, .check 2 0, .check 1 1, .check 2 2] (by decide) (by decide) (by decide)⟩

end CyberShield

namespace CyberShield

/-! ## `EnhancedFormValidation.clearFieldError` on a parent with at most one
message element of each class -/

theorem removeFoundLoop_sublist (a b : String) (l : List MessageElement) :
    ∀ needA needB : Bool, (removeFoundLoop a b needA needB l).Sublist l := by
  induction l with
  | nil => intro _ _; exact List.Sublist.slnil
  | cons e rest ih =>
    intro needA needB
    unfold removeFoundLoop
    split_ifs
    · exact (ih _ _).cons e
    · exact (ih _ _).cons₂ e

theorem countOfClass_removeFoundLoop_left (a b : String) (l : List MessageElement) :
    ∀ needB : Bool,
      countOfClass a (removeFoundLoop a b true needB l) ≤ countOfClass a l - 1 := by
  induction l with
  | nil => intro _; simp [removeFoundLoop, countOfClass]
  | cons e rest ih =>
    intro needB
    unfold removeFoundLoop countOfClass
    rw [List.countP_cons]
    cases ha : e.classes.contains a with
    | true =>
      simp only [Bool.true_and, Bool.true_or, if_true, Bool.not_true]
      exact (removeFoundLoop_sublist a b rest _ _).countP_le _
    | false =>
      have h := ih (needB && !e.classes.contains b)
      unfold countOfClass at h
      simp only [Bool.and_false, Bool.false_or, Bool.not_false, Bool.and_true,
        Bool.false_eq_true, if_false, Nat.add_zero]
      split_ifs
      · exact h
      · rw [List.countP_cons, ha]
        simpa using h

theorem countOfClass_removeFoundLoop_right (a b : String) (l : List MessageElement) :
    ∀ needA : Bool,
      countOfClass b (removeFoundLoop a b needA true l) ≤ countOfClass b l - 1 := by
  induction l with
  | nil => intro _; simp [removeFoundLoop, countOfClass]
  | cons e rest ih =>
    intro needA
    unfold removeFoundLoop countOfClass
    rw [List.countP_cons]
    cases hb : e.classes.contains b with
    | true =>
      simp only [Bool.true_and, Bool.or_true, if_true, Bool.not_true]
      exact (removeFoundLoop_sublist a b rest _ _).countP_le _
    | false =>
      have h := ih (needA && !e.classes.contains a)
      unfold countOfClass at h
      simp only [Bool.and_false, Bool.or_false, Bool.not_false, Bool.and_true,
        Bool.false_eq_true, if_false, Nat.add_zero]
      split_ifs
      · exact h
      · rw [List.countP_cons, hb]
        simpa using h

theorem removeFoundLoop_of_none (a b : String) (l : List MessageElement)
    (ha : countOfClass a l = 0) (hb : countOfClass b l = 0) :
    ∀ needA needB : Bool, removeFoundLoop a b needA needB l = l := by
  induction l with
  | nil => intro _ _; rfl
  | cons e rest ih =>
    intro needA needB
    unfold countOfClass at ha hb
    rw [List.countP_cons] at ha hb
    have ea : e.classes.contains a = false := by
      cases h : e.classes.contains a with
      | false => rfl
      | true => rw [h] at ha; simp at ha
    have eb : e.classes.contains b = false := by
      cases h : e.classes.contains b with
      | false => rfl
      | true => rw [h] at hb; simp at hb
    rw [ea] at ha
    rw [eb] at hb
    have ha' : countOfClass a rest = 0 := by unfold countOfClass; simpa using ha
    have hb' : countOfClass b rest = 0 := by unfold countOfClass; simpa using hb
    unfold removeFoundLoop
    simp only [ea, eb, Bool.and_false, Bool.or_false, Bool.false_eq_true, if_false,
      ih ha' hb']

theorem classListRemove_comm (c d : String) (l : List String) :
    classListRemove c (classListRemove d l) = classListRemove d (classListRemove c l) := by
  simp [classListRemove, List.filter_filter, Bool.and_comm]

/-- With at most one element of class `field-error-message` and at most one
of class `security-warning-message` under the parent node,
`EnhancedFormValidation.clearFieldError` twice is the same as once. -/
theorem enhanced_clearFieldError_idem (field : FieldDom)
    (h1 : countOfClass "field-error-message" field.siblings ≤ 1)
    (h2 : countOfClass "security-warning-message" field.siblings ≤ 1) :
    EnhancedFormValidation.clearFieldError (EnhancedFormValidation.clearFieldError field)
      = EnhancedFormValidation.clearFieldError field := by
  have z1 := countOfClass_removeFoundLoop_left "field-error-message"
    "security-warning-message" field.siblings true
  have z2 := countOfClass_removeFoundLoop_right "field-error-message"
    "security-warning-message" field.siblings true
  have hz := removeFoundLoop_of_none "field-error-message" "security-warning-message"
    (removeFoundLoop "field-error-message" "security-warning-message" true true field.siblings)
    (by omega) (by omega) true true
  simp only [EnhancedFormValidation.clearFieldError, hz]
  rw [classListRemove_comm "error-field" "security-warning-field", classListRemove_idem,
    classListRemove_idem]

end CyberShield
